import Mathlib

/-!
# Gestor de reservas de canchas: reservation ledger, payment callback and availability

A shallow embedding of the booking core of the repository:

* `backend/utils/validators.js`        : `validarFormatoHora`, `validarFechaNoVencida`
* `backend/models/reserva.js`          : the reservation document, its validators,
                                         the unique partial index and the TTL index
* `backend/models/cancha.js`           : the venue document and its weekly windows
* `backend/controllers/reservacontroller.js` : `crearReserva`, `webpayReturn`, `cancelarReserva`
* `backend/controllers/canchacontroller.js`  : `verDisponibilidad`, `editarCancha`,
                                         `crearCancha`, `eliminarCancha`
* `backend/middleware/rolemiddleware.js`     : `esSuperAdmin`, `esAdmin`, `esUsuario`,
                                         `esAdminOSuperAdmin`
* `backend/models/user.js`, `backend/controllers/admincontroller.js` : `editarAdmin`,
                                         `eliminarAdmin`

The reservation collection is a list of documents in insertion order. A handler is a
function from the collection (and the inputs it reads: the clock, the request, what the
payment gateway answers) to the new collection and the HTTP response. Each handler runs
to completion before the next one starts, except in the section on concurrent executions,
where calls of `crearReserva` interleave at their `await`s.

Conventions of the embedding

* An instant (`Date`) is an `Int`, milliseconds since the epoch. The deployment zone is a
  fixed offset `offsetMin` (minutes, local minus UTC).
* An `ObjectId` is represented by its string form; short names such as `V` or `r1` stand
  for well-formed identifiers. The `CastError` that Mongoose raises when a request carries
  a string that is not an `ObjectId` (answered 500 by the `catch` of the handler, the
  collection untouched) is not represented: such a string is looked up and not found.
* A date string `'YYYY-MM-DD'` is the triple of its numbers (`FechaStr`).
* `datosPago` holds the object that the handler passes to `JSON.stringify`.
* `createdAt` / `updatedAt` are not read by any handler and are not represented.
-/

namespace GestorReservas

/-! ## Data model -/

/-- String form of an `ObjectId`. -/
abbrev Id := String

/-- `estado` of a reservation (`enum` of the schema). -/
inductive Estado where
  | pendiente
  | confirmada
  | cancelada
deriving DecidableEq, Repr

/-- `dia` of a schedule window (`enum` of the schema; `Miercoles` and `Sabado` stand for the
accented names). -/
inductive Dia where
  | Lunes
  | Martes
  | Miercoles
  | Jueves
  | Viernes
  | Sabado
  | Domingo
deriving DecidableEq, Repr

/-- One element of `cancha.horarios`. -/
structure Horario where
  dia : Dia
  horaInicio : String
  horaFin : String
deriving DecidableEq, Repr

/-- Venue document (`models/cancha.js`). Prices are whole amounts. -/
structure Cancha where
  _id : Id
  nombre : String
  descripcion : String
  imagenUrl : String
  precio : Nat
  adminId : Id
  horarios : List Horario
  activa : Bool
deriving DecidableEq, Repr

/-- The object serialised into `datosPago` by `webpayReturn`. -/
inductive DatosPago where
  | aprobado (authorizationCode : Option String) (transactionDate : Option String)
      (cardNumber : String) (amount : Option Nat)
  | rechazado (status : String) (responseCode : Int)
deriving DecidableEq, Repr

/-- Reservation document (`models/reserva.js`). -/
structure Reserva where
  _id : Id
  usuarioId : Id
  canchaId : Id
  fecha : Int
  hora : String
  estado : Estado
  monto : Nat
  webpayToken : Option String
  datosPago : Option DatosPago
  expiraEn : Int
deriving DecidableEq, Repr

/-- The clock and the zone of the deployment. -/
structure Entorno where
  now : Int
  offsetMin : Int
deriving DecidableEq, Repr

/-- The numbers of a date string `'YYYY-MM-DD'`. -/
structure FechaStr where
  year : Nat
  month : Nat
  day : Nat
deriving DecidableEq, Repr

/-! ## Dates -/

/-- Milliseconds in a day. -/
def msPorDia : Int := 86400000

/-- Milliseconds in a minute. -/
def msPorMinuto : Int := 60000

/-- Days from 1970-01-01 to the civil date `y-m-d` (proleptic Gregorian calendar); a day
past the end of the month runs into the next month, as `MakeDay` does. -/
def diasDesdeCivil (y m d : Int) : Int :=
  let y1 := if m ≤ 2 then y - 1 else y
  let era := y1 / 400
  let yoe := y1 - era * 400
  let mp := if m > 2 then m - 3 else m + 9
  let doy := (153 * mp + 2) / 5 + d - 1
  let doe := yoe * 365 + yoe / 4 - yoe / 100 + doy
  era * 146097 + doe - 719468

/-- `date.setHours(0, 0, 0, 0)`: the local midnight at or before the instant. -/
def setHoursCero (env : Entorno) (t : Int) : Int :=
  (t + env.offsetMin * msPorMinuto) / msPorDia * msPorDia - env.offsetMin * msPorMinuto

/-- `new Date(fecha)` for a date string: midnight UTC of that date; `none` is `Invalid Date`
(month outside 1..12 or day outside 1..31). -/
def nuevaDateISO (f : FechaStr) : Option Int :=
  if 1 ≤ f.month ∧ f.month ≤ 12 ∧ 1 ≤ f.day ∧ f.day ≤ 31 then
    some ((diasDesdeCivil f.year f.month 1 + (f.day - 1)) * msPorDia)
  else none

/-- `new Date(year, month - 1, day)` followed by `setHours(0, 0, 0, 0)`, as `crearReserva`
builds `fechaReserva`: local midnight of the date (a year below 100 counts from 1900). -/
def nuevaDateLocal (env : Entorno) (f : FechaStr) : Int :=
  let yr : Int := if f.year ≤ 99 then 1900 + f.year else f.year
  setHoursCero env
    ((diasDesdeCivil yr f.month 1 + (f.day - 1)) * msPorDia - env.offsetMin * msPorMinuto)

/-- `hoy`: `new Date()` followed by `setHours(0, 0, 0, 0)`. -/
def hoy (env : Entorno) : Int := setHoursCero env env.now

/-- `date.getDay()`: the local weekday, 0 for Sunday. -/
def getDay (env : Entorno) (t : Int) : Nat :=
  (((t + env.offsetMin * msPorMinuto) / msPorDia + 4) % 7).toNat

/-- Day number (days since 1970-01-01) of the calendar date that a date string names. -/
def diaCivil (f : FechaStr) : Int :=
  diasDesdeCivil f.year f.month f.day

/-- Day number of the local calendar date at an instant. -/
def diaLocal (env : Entorno) (t : Int) : Int :=
  (t + env.offsetMin * msPorMinuto) / msPorDia

/-- Weekday of the calendar date that a date string names, 0 for Sunday. -/
def diaSemanaCivil (f : FechaStr) : Nat :=
  ((diaCivil f + 4) % 7).toNat

/-- The string value of a `dia`. -/
def nombreDia : Dia → String
  | Dia.Lunes => "Lunes"
  | Dia.Martes => "Martes"
  | Dia.Miercoles => "Miércoles"
  | Dia.Jueves => "Jueves"
  | Dia.Viernes => "Viernes"
  | Dia.Sabado => "Sábado"
  | Dia.Domingo => "Domingo"

/-- The array `diasSemana` of `verDisponibilidad`, indexed by `getDay()`. -/
def diasSemana : List Dia :=
  [Dia.Domingo, Dia.Lunes, Dia.Martes, Dia.Miercoles, Dia.Jueves, Dia.Viernes, Dia.Sabado]

/-! ## `utils/validators.js` -/

/-- Character class `[0-9]`. -/
def esDigito (c : Char) : Bool := '0' ≤ c && c ≤ '9'

/-- `validarFormatoHora`: the regular expression `^([0-1]?[0-9]|2[0-3]):[0-5][0-9]$`. -/
def validarFormatoHora (hora : String) : Bool :=
  match hora.data with
  | [h, ':', m1, m2] => esDigito h && ('0' ≤ m1 && m1 ≤ '5') && esDigito m2
  | [h1, h2, ':', m1, m2] =>
      (((h1 == '0' || h1 == '1') && esDigito h2) || (h1 == '2' && '0' ≤ h2 && h2 ≤ '3'))
        && ('0' ≤ m1 && m1 ≤ '5') && esDigito m2
  | _ => false

/-- `validarFechaNoVencida`: `new Date(fecha)` at local midnight is not before `hoy`
(`Invalid Date` compares false). -/
def validarFechaNoVencida (env : Entorno) (fecha : FechaStr) : Bool :=
  match nuevaDateISO fecha with
  | some t => decide (hoy env ≤ setHoursCero env t)
  | none => false

/-! ## `models/reserva.js`: validators and indexes -/

/-- Live reservation: `estado` in `['pendiente', 'confirmada']`. -/
def esViva (e : Estado) : Bool :=
  e == Estado.pendiente || e == Estado.confirmada

/-- Schema validators run by `save()`: `fecha` not before `hoy`, `hora` matching the hour
pattern (`estado` in its enum, `monto >= 0` and the required fields hold by typing).
Mongoose runs the validators of every path of the document on each `save()`, also of a
document read from the collection. -/
def validaSchema (env : Entorno) (r : Reserva) : Bool :=
  decide (hoy env ≤ r.fecha) && validarFormatoHora r.hora

/-- The unique partial index `{ canchaId, fecha, hora, estado }` restricted to live
documents: `r` may be written when it is not live or no other document carries its key. -/
def indiceUnicoAcepta (store : List Reserva) (r : Reserva) : Bool :=
  !esViva r.estado ||
    !store.any (fun d => d._id != r._id && d.canchaId == r.canchaId && d.fecha == r.fecha
      && d.hora == r.hora && d.estado == r.estado)

/-- The whole collection satisfies the unique partial index: no two documents at different
positions are live with the same `(canchaId, fecha, hora, estado)`. -/
def cumpleIndiceUnico : List Reserva → Bool
  | [] => true
  | r :: rs =>
      (!esViva r.estado ||
        !rs.any (fun d => d.canchaId == r.canchaId && d.fecha == r.fecha
          && d.hora == r.hora && d.estado == r.estado))
      && cumpleIndiceUnico rs

/-- Replace the first document whose `_id` is that of `r` (`updateOne` by `_id`). -/
def reemplazar (r : Reserva) : List Reserva → List Reserva
  | [] => []
  | d :: ds => if d._id == r._id then r :: ds else d :: reemplazar r ds

/-- Remove the first document with the given `_id` (`findByIdAndDelete`). -/
def findByIdAndDelete (id : Id) : List Reserva → List Reserva
  | [] => []
  | d :: ds => if d._id == id then ds else d :: findByIdAndDelete id ds

/-- `Reserva.findById`. -/
def findById (store : List Reserva) (id : Id) : Option Reserva :=
  store.find? (fun d => d._id == id)

/-- `save()` of a new document: validators, then the insert, which the `_id` index and the
unique partial index may refuse. The error is the message of the exception. -/
def saveNueva (env : Entorno) (store : List Reserva) (r : Reserva) :
    Except String (List Reserva) :=
  if !validaSchema env r then Except.error "ValidationError"
  else if store.any (fun d => d._id == r._id) then Except.error "E11000 duplicate key: _id"
  else if !indiceUnicoAcepta store r then Except.error "E11000 duplicate key"
  else Except.ok (store ++ [r])

/-- `save()` of a document read from the collection: validators, then the update, which
the unique partial index may refuse. -/
def saveExistente (env : Entorno) (store : List Reserva) (r : Reserva) :
    Except String (List Reserva) :=
  if !validaSchema env r then Except.error "ValidationError"
  else if !indiceUnicoAcepta store r then Except.error "E11000 duplicate key"
  else Except.ok (reemplazar r store)

/-- The TTL index on `expiraEn` (`expireAfterSeconds: 0`, restricted to `estado:
'pendiente'`): the pass of the TTL monitor at instant `now` deletes the pending documents
whose `expiraEn` is not after `now`. -/
def expirarTTL (now : Int) (store : List Reserva) : List Reserva :=
  store.filter (fun d => !(d.estado == Estado.pendiente && decide (d.expiraEn ≤ now)))

/-- `Cancha.findById`. -/
def findCanchaById (canchas : List Cancha) (id : Id) : Option Cancha :=
  canchas.find? (fun c => c._id == id)

/-! ## `controllers/reservacontroller.js` -/

/-- Body of `POST /api/reservas/crear`; a field is `none` when absent. -/
structure SolicitudReserva where
  canchaId : Option Id
  fecha : Option FechaStr
  hora : Option String
deriving DecidableEq, Repr

/-- What `tx.create` returns. -/
structure CreateResponse where
  token : String
  url : String
deriving DecidableEq, Repr

/-- Arguments of a `tx.create` call. -/
structure LlamadaCreate where
  buyOrder : String
  sessionId : String
  amount : Nat
  returnUrl : String
deriving DecidableEq, Repr

/-- What `tx.commit` returns. -/
structure CommitResponse where
  status : String
  response_code : Int
  authorization_code : Option String
  transaction_date : Option String
  card_number : Option String
  amount : Option Nat
deriving DecidableEq, Repr

/-- HTTP response of a handler. -/
inductive Respuesta where
  | error (status : Nat) (error : String) (detalle : Option String)
  | creada (reserva : Reserva) (cancha : String) (url : String) (token : String)
  | cancelada (reserva : Reserva)
  | disponibilidad (mensaje : Option String) (dia : Option Dia)
      (horariosDisponibles : List String)
  | redirect (url : String)
  | canchaActualizada (cancha : Cancha)
  | canchaCreada (cancha : Cancha)
  | canchaEliminada (id : Id) (nombre : String)
deriving DecidableEq, Repr

/-- Outcome of a handler: the collection it leaves and its response. -/
structure Resultado where
  store : List Reserva
  respuesta : Respuesta
deriving DecidableEq, Repr

/-- Outcome of `crearReserva`, with the `tx.create` call it made, if any. -/
structure ResultadoCrear where
  store : List Reserva
  respuesta : Respuesta
  llamada : Option LlamadaCreate
deriving DecidableEq, Repr

/-- JavaScript truthiness of an optional string: absent and empty are falsy. -/
def presente (s : Option String) : Option String :=
  match s with
  | some v => if v = "" then none else some v
  | none => none

/-- Failure page of the payment flow. -/
def urlPagoFallido : String := "http://localhost:5000/user/pago-fallido.html"

/-- Success page of the payment flow. -/
def urlPagoExitoso (id : Id) : String :=
  "http://localhost:5000/user/pago-exitoso.html?reservaId=" ++ id

/-- Return address given to the gateway. -/
def returnUrl : String := "http://localhost:5000/api/reservas/webpay-return"

/-- Grace window of a pending reservation: `10 * 60 * 1000` ms. -/
def graciaMs : Int := 10 * 60 * 1000

/-- The `tx.create` call of `crearReserva` for the reservation just saved. -/
def llamadaCreate (nuevaReserva : Reserva) (cancha : Cancha) : LlamadaCreate :=
  { buyOrder := String.mk (nuevaReserva._id.data.take 26)
    sessionId := "SESSION-" ++ nuevaReserva._id
    amount := cancha.precio
    returnUrl := returnUrl }

/-- `crearReserva`. `usuario` is `req.user._id`, `nuevoId` the `_id` generated for the new
document, `webpay` what `tx.create` answers if it is called (`error` when it throws). -/
def crearReserva (env : Entorno) (canchas : List Cancha) (store : List Reserva)
    (usuario : Id) (body : SolicitudReserva) (nuevoId : Id)
    (webpay : Except String CreateResponse) : ResultadoCrear :=
  match presente body.canchaId, body.fecha, presente body.hora with
  | some canchaId, some fecha, some hora =>
    if !validarFormatoHora hora then
      ⟨store, Respuesta.error 400 "La hora debe estar en formato HH:MM (ej: 14:00)" none, none⟩
    else if !validarFechaNoVencida env fecha then
      ⟨store, Respuesta.error 400 "No se pueden hacer reservas en fechas pasadas." none, none⟩
    else
      match findCanchaById canchas canchaId with
      | none => ⟨store, Respuesta.error 404 "Cancha no encontrada o no disponible." none, none⟩
      | some cancha =>
        if !cancha.activa then
          ⟨store, Respuesta.error 404 "Cancha no encontrada o no disponible." none, none⟩
        else
          let fechaReserva := nuevaDateLocal env fecha
          let reservaExistente := store.find? (fun d =>
            d.canchaId == canchaId && d.fecha == fechaReserva && d.hora == hora
              && esViva d.estado)
          match reservaExistente with
          | some _ => ⟨store, Respuesta.error 400 "Este horario ya está reservado." none, none⟩
          | none =>
            let nuevaReserva : Reserva :=
              { _id := nuevoId, usuarioId := usuario, canchaId := canchaId
                fecha := fechaReserva, hora := hora, estado := Estado.pendiente
                monto := cancha.precio, webpayToken := none, datosPago := none
                expiraEn := env.now + graciaMs }
            match saveNueva env store nuevaReserva with
            | Except.error e =>
              ⟨store, Respuesta.error 500 "Error al crear la reserva." (some e), none⟩
            | Except.ok store1 =>
              let llamada := llamadaCreate nuevaReserva cancha
              match webpay with
              | Except.error e =>
                ⟨findByIdAndDelete nuevaReserva._id store1,
                  Respuesta.error 500 "Error al procesar el pago con Webpay." (some e),
                  some llamada⟩
              | Except.ok createResponse =>
                let conToken := { nuevaReserva with webpayToken := some createResponse.token }
                match saveExistente env store1 conToken with
                | Except.error e =>
                  ⟨findByIdAndDelete nuevaReserva._id store1,
                    Respuesta.error 500 "Error al procesar el pago con Webpay." (some e),
                    some llamada⟩
                | Except.ok store2 =>
                  ⟨store2,
                    Respuesta.creada conToken cancha.nombre
                      (createResponse.url ++ "?token_ws=" ++ createResponse.token)
                      createResponse.token,
                    some llamada⟩
  | _, _, _ => ⟨store, Respuesta.error 400 "Cancha, fecha y hora son obligatorios." none, none⟩

/-- The `datosPago` object of an authorised payment. -/
def datosAprobado (c : CommitResponse) : DatosPago :=
  DatosPago.aprobado c.authorization_code c.transaction_date
    (match presente c.card_number with
      | some n => n
      | none => "N/A")
    c.amount

/-- The `datosPago` object of a rejected payment. -/
def datosRechazado (c : CommitResponse) : DatosPago :=
  DatosPago.rechazado c.status c.response_code

/-- The test `status === 'AUTHORIZED' && response_code === 0`. -/
def pagoAutorizado (c : CommitResponse) : Bool :=
  c.status == "AUTHORIZED" && c.response_code == 0

/-- `webpayReturn`. `token_ws` is the query parameter, `commit` what `tx.commit` answers
(`error` when it throws). -/
def webpayReturn (env : Entorno) (store : List Reserva) (token_ws : Option String)
    (commit : Except String CommitResponse) : Resultado :=
  match presente token_ws with
  | none => ⟨store, Respuesta.redirect urlPagoFallido⟩
  | some token =>
    match commit with
    | Except.error _ => ⟨store, Respuesta.redirect urlPagoFallido⟩
    | Except.ok commitResponse =>
      match store.find? (fun d => d.webpayToken == some token) with
      | none => ⟨store, Respuesta.redirect urlPagoFallido⟩
      | some reserva =>
        if pagoAutorizado commitResponse then
          match saveExistente env store
              { reserva with estado := Estado.confirmada
                             datosPago := some (datosAprobado commitResponse) } with
          | Except.ok store1 => ⟨store1, Respuesta.redirect (urlPagoExitoso reserva._id)⟩
          | Except.error _ => ⟨store, Respuesta.redirect urlPagoFallido⟩
        else
          match saveExistente env store
              { reserva with estado := Estado.cancelada
                             datosPago := some (datosRechazado commitResponse) } with
          | Except.ok store1 => ⟨store1, Respuesta.redirect urlPagoFallido⟩
          | Except.error _ => ⟨store, Respuesta.redirect urlPagoFallido⟩

/-- `cancelarReserva`. `usuario` is `req.user._id`, `id` the route parameter. -/
def cancelarReserva (env : Entorno) (store : List Reserva) (usuario : Id) (id : Id) :
    Resultado :=
  match findById store id with
  | none => ⟨store, Respuesta.error 404 "Reserva no encontrada." none⟩
  | some reserva =>
    if reserva.usuarioId != usuario then
      ⟨store, Respuesta.error 403 "No tienes permiso para cancelar esta reserva." none⟩
    else if reserva.estado != Estado.pendiente then
      ⟨store, Respuesta.error 400 "Solo se pueden cancelar reservas pendientes." none⟩
    else
      match saveExistente env store { reserva with estado := Estado.cancelada } with
      | Except.ok store1 =>
        ⟨store1, Respuesta.cancelada { reserva with estado := Estado.cancelada }⟩
      | Except.error _ => ⟨store, Respuesta.error 500 "Error al cancelar la reserva." none⟩

/-! ## `controllers/canchacontroller.js`: `verDisponibilidad` -/

/-- `Number(s)` for a string of decimal digits; `none` (`NaN`) otherwise. The schema of
`cancha.horarios` only admits hour strings, whose two parts are digit strings. -/
def numero (s : List Char) : Option Nat :=
  if s ≠ [] ∧ s.all esDigito then
    some (s.foldl (fun n c => 10 * n + (c.toNat - '0'.toNat)) 0)
  else none

/-- `s.split(':').map(Number)` destructured into its first two elements. -/
def partes (s : String) : Option (Nat × Nat) :=
  match numero (s.data.takeWhile (fun c => c != ':')),
        numero (((s.data.dropWhile (fun c => c != ':')).drop 1).takeWhile (fun c => c != ':')) with
  | some h, some m => some (h, m)
  | _, _ => none

/-- `n.toString().padStart(2, '0')`. -/
def padStart2 (n : Nat) : List Char :=
  let ds := Nat.toDigits 10 n
  List.replicate (2 - ds.length) '0' ++ ds

/-- The template string that builds `horaSlot` from `h` and `minInicio`. -/
def horaSlot (h minInicio : Nat) : String :=
  String.mk (padStart2 h ++ ':' :: padStart2 minInicio)

/-- The inner loop `for (let h = horaInicio; h < horaFin; h++)`: `quedan` iterations are left,
the next one at `h`; `acc` is `horariosDisponibles`. -/
def generarSlots (horasReservadas : List String) (minInicio : Nat) :
    Nat → Nat → List String → List String
  | 0, _, acc => acc
  | quedan + 1, h, acc =>
      generarSlots horasReservadas minInicio quedan (h + 1)
        (if !horasReservadas.contains (horaSlot h minInicio) then acc ++ [horaSlot h minInicio]
         else acc)

/-- One iteration of the outer loop `for (const horario of horariosDelDia)`. -/
def slotsDeHorario (horasReservadas : List String) (acc : List String) (horario : Horario) :
    List String :=
  match partes horario.horaInicio, partes horario.horaFin with
  | some (horaInicio, minInicio), some (horaFin, _) =>
      generarSlots horasReservadas minInicio (horaFin - horaInicio) horaInicio acc
  | _, _ => acc

/-- Step 7 of `verDisponibilidad`: both loops, starting from the empty array. -/
def generarHorarios (horasReservadas : List String) (horariosDelDia : List Horario) :
    List String :=
  horariosDelDia.foldl (slotsDeHorario horasReservadas) []

/-- The hourly slots enumerated from the windows: the loops of step 7 with nothing reserved. -/
def slotsEnumerados (horariosDelDia : List Horario) : List String :=
  generarHorarios [] horariosDelDia

/-- Order of `Array.prototype.sort()` without comparator on strings: lexicographic on the
code units. -/
def menorIgualTexto : List Char → List Char → Bool
  | [], _ => true
  | _ :: _, [] => false
  | a :: as, b :: bs =>
      if a.toNat < b.toNat then true
      else if b.toNat < a.toNat then false
      else menorIgualTexto as bs

/-- Insert into a sorted array of strings. -/
def insertarOrdenado (x : String) : List String → List String
  | [] => [x]
  | y :: ys =>
      if menorIgualTexto x.data y.data then x :: y :: ys else y :: insertarOrdenado x ys

/-- `horariosDisponibles.sort()`. -/
def ordenar : List String → List String
  | [] => []
  | x :: xs => insertarOrdenado x (ordenar xs)

/-- `verDisponibilidad`. `id` is the route parameter, `fecha` the query parameter. -/
def verDisponibilidad (env : Entorno) (canchas : List Cancha) (store : List Reserva)
    (id : Id) (fecha : Option FechaStr) : Respuesta :=
  match fecha with
  | none => Respuesta.error 400 "La fecha es obligatoria (formato: YYYY-MM-DD)." none
  | some fecha =>
    match findCanchaById canchas id with
    | none => Respuesta.error 404 "Cancha no encontrada." none
    | some cancha =>
      if !cancha.activa then Respuesta.error 404 "Cancha no encontrada." none
      else
        match (nuevaDateISO fecha).map (setHoursCero env) with
        | none => Respuesta.disponibilidad (some "No hay horarios disponibles para undefined")
            none []
        | some fechaBusqueda =>
          if fechaBusqueda < hoy env then
            Respuesta.error 400 "No se puede consultar disponibilidad de fechas pasadas." none
          else
            match diasSemana.get? (getDay env fechaBusqueda) with
            | none => Respuesta.disponibilidad
                (some "No hay horarios disponibles para undefined") none []
            | some diaSemana =>
              let horariosDelDia := cancha.horarios.filter (fun h => h.dia == diaSemana)
              if horariosDelDia.length == 0 then
                Respuesta.disponibilidad
                  (some ("No hay horarios disponibles para " ++ nombreDia diaSemana)) none []
              else
                let reservasDelDia := store.filter (fun d =>
                  d.canchaId == id && d.fecha == fechaBusqueda && esViva d.estado)
                let horasReservadas := reservasDelDia.map (fun r => r.hora)
                Respuesta.disponibilidad none (some diaSemana)
                  (ordenar (generarHorarios horasReservadas horariosDelDia))

/-! ## `controllers/canchacontroller.js`: `editarCancha` -/

/-- White space and line terminators, as `String.prototype.trim` strips them. -/
def esEspacioJS (c : Char) : Bool :=
  [0x9, 0xA, 0xB, 0xC, 0xD, 0x20, 0xA0, 0x1680, 0x2028, 0x2029, 0x202F, 0x205F, 0x3000,
    0xFEFF].contains c.toNat || (0x2000 ≤ c.toNat && c.toNat ≤ 0x200A)

/-- `s.trim()`. -/
def trim (s : List Char) : List Char :=
  ((s.dropWhile esEspacioJS).reverse.dropWhile esEspacioJS).reverse

/-- `sanitizarTexto`: `texto.trim().replace(/[<>]/g, '')` (the empty string for a falsy
argument). -/
def sanitizarTexto (texto : String) : String :=
  String.mk ((trim texto.data).filter (fun c => c != '<' && c != '>'))

/-- One element of the `horarios` array of a request; a field is `none` when absent. -/
structure HorarioEntrada where
  dia : Option String
  horaInicio : Option String
  horaFin : Option String
deriving DecidableEq, Repr

/-- Body of `PUT /api/canchas/edit/:id` (multipart form, every field a string).
`precio`: `none` when the field is absent or empty, otherwise what `parseFloat` makes of
it, `none` for `NaN`. `horarios`: `none` when absent or empty, otherwise the parsed array,
`none` when `JSON.parse` throws. `imagenUrl` is `req.imagenUrl`, set by the upload
middleware. -/
structure SolicitudEditarCancha where
  nombre : Option String
  descripcion : Option String
  precio : Option (Option Int)
  horarios : Option (Option (List HorarioEntrada))
  imagenUrl : Option String
deriving DecidableEq, Repr

/-- Outcome of a venue handler: the venue collection it leaves and its response. -/
structure ResultadoCancha where
  canchas : List Cancha
  respuesta : Respuesta
deriving DecidableEq, Repr

/-- The `dia` with a given string value, if the `enum` of the schema has it. -/
def diaDeNombre (s : String) : Option Dia :=
  [Dia.Lunes, Dia.Martes, Dia.Miercoles, Dia.Jueves, Dia.Viernes, Dia.Sabado, Dia.Domingo].find?
    (fun d => nombreDia d == s)

/-- An element of the request as a schedule window, when the schema of `cancha.horarios`
admits it: `dia` in the enum, both hours matching the hour pattern. -/
def horarioDeEntrada (h : HorarioEntrada) : Option Horario :=
  match h.dia.bind diaDeNombre, h.horaInicio, h.horaFin with
  | some d, some i, some f =>
      if validarFormatoHora i && validarFormatoHora f then some ⟨d, i, f⟩ else none
  | _, _, _ => none

/-- The windows of a request, when the schema admits every one of them. -/
def horariosDeEntrada : List HorarioEntrada → Option (List Horario)
  | [] => some []
  | h :: hs =>
      match horarioDeEntrada h, horariosDeEntrada hs with
      | some x, some xs => some (x :: xs)
      | _, _ => none

/-- Schema validators of a venue run by `save()`: `nombre` of at least 3 characters,
`descripcion` of at least 10, `imagenUrl` present, hours matching the hour pattern
(`precio >= 0` and the `enum` of `dia` hold by typing). -/
def validaCanchaSchema (c : Cancha) : Bool :=
  decide (3 ≤ c.nombre.length) && decide (10 ≤ c.descripcion.length) && c.imagenUrl != ""
    && c.horarios.all (fun h => validarFormatoHora h.horaInicio && validarFormatoHora h.horaFin)

/-- Replace the first venue whose `_id` is that of `c` (`updateOne` by `_id`). -/
def reemplazarCancha (c : Cancha) : List Cancha → List Cancha
  | [] => []
  | d :: ds => if d._id == c._id then c :: ds else d :: reemplazarCancha c ds

/-- What steps 3 to 5 of `editarCancha` make of the document in memory: a 400 response, a
document with a window that the schema of `cancha.horarios` refuses, or the edited
document. -/
inductive Edicion where
  | rechazada (mensaje : String)
  | horarioNoValido
  | lista (cancha : Cancha)
deriving DecidableEq, Repr

/-- Steps 3 to 5 of `editarCancha`. The schema trims `nombre` and `descripcion` when they
are set. -/
def aplicarEdicion (cancha : Cancha) (body : SolicitudEditarCancha) : Edicion :=
  let c1 := match presente body.nombre with
    | some nombre => { cancha with nombre := String.mk (trim (sanitizarTexto nombre).data) }
    | none => cancha
  let c2 := match presente body.descripcion with
    | some descripcion =>
        { c1 with descripcion := String.mk (trim (sanitizarTexto descripcion).data) }
    | none => c1
  let conPrecio : Except String Cancha := match body.precio with
    | none => Except.ok c2
    | some none => Except.error "El precio debe ser un número mayor a 0."
    | some (some precio) =>
        if precio ≤ 0 then Except.error "El precio debe ser un número mayor a 0."
        else Except.ok { c2 with precio := precio.toNat }
  match conPrecio with
  | Except.error e => Edicion.rechazada e
  | Except.ok c3 =>
    let c4 := match presente body.imagenUrl with
      | some url => { c3 with imagenUrl := url }
      | none => c3
    match body.horarios with
    | none => Edicion.lista c4
    | some none => Edicion.rechazada "Formato de horarios inválido."
    | some (some horariosArray) =>
        if horariosArray.any (fun h => (presente h.dia).isNone || (presente h.horaInicio).isNone
            || (presente h.horaFin).isNone) then
          Edicion.rechazada "Cada horario debe tener: dia, horaInicio, horaFin."
        else
          match horariosDeEntrada horariosArray with
          | some hs => Edicion.lista { c4 with horarios := hs }
          | none => Edicion.horarioNoValido

/-- `editarCancha`. `usuario` is `req.user._id`, `id` the route parameter. -/
def editarCancha (canchas : List Cancha) (usuario : Id) (id : Id)
    (body : SolicitudEditarCancha) : ResultadoCancha :=
  match findCanchaById canchas id with
  | none => ⟨canchas, Respuesta.error 404 "Cancha no encontrada." none⟩
  | some cancha =>
    if cancha.adminId != usuario then
      ⟨canchas, Respuesta.error 403 "No tienes permiso para editar esta cancha." none⟩
    else
      match aplicarEdicion cancha body with
      | Edicion.rechazada e => ⟨canchas, Respuesta.error 400 e none⟩
      | Edicion.horarioNoValido =>
        ⟨canchas, Respuesta.error 500 "Error al editar la cancha." none⟩
      | Edicion.lista editada =>
        if validaCanchaSchema editada then
          ⟨reemplazarCancha editada canchas, Respuesta.canchaActualizada editada⟩
        else ⟨canchas, Respuesta.error 500 "Error al editar la cancha." none⟩

/-- The two collections of the database. -/
structure BaseDatos where
  canchas : List Cancha
  reservas : List Reserva
deriving DecidableEq, Repr

/-- `editarCancha` on the database: the handler reads and writes the `Cancha` model only. -/
def editarCanchaBD (db : BaseDatos) (usuario : Id) (id : Id) (body : SolicitudEditarCancha) :
    BaseDatos :=
  { db with canchas := (editarCancha db.canchas usuario id body).canchas }

/-- `crearReserva` on the database: the handler reads `Cancha` and writes `Reserva`. -/
def crearReservaBD (env : Entorno) (db : BaseDatos) (usuario : Id) (body : SolicitudReserva)
    (nuevoId : Id) (webpay : Except String CreateResponse) : BaseDatos :=
  { db with reservas := (crearReserva env db.canchas db.reservas usuario body nuevoId webpay).store }

/-! ## `controllers/canchacontroller.js`: `crearCancha`, `eliminarCancha` -/

/-- Step 6 of `crearCancha` on the parsed array: the message of the 400 response, if an
element lacks a field or an hour fails `validarFormatoHora`. -/
def revisarHorarios : List HorarioEntrada → Option String
  | [] => none
  | h :: hs =>
      match presente h.dia, presente h.horaInicio, presente h.horaFin with
      | some _, some horaInicio, some horaFin =>
          if !validarFormatoHora horaInicio || !validarFormatoHora horaFin then
            some "Las horas deben estar en formato HH:MM (ej: 09:00)"
          else revisarHorarios hs
      | _, _, _ => some "Cada horario debe tener: dia, horaInicio, horaFin."

/-- `crearCancha`. `usuario` is `req.user._id`, `nuevoId` the `_id` generated for the new
document; the body has the fields of `SolicitudEditarCancha`, with `imagenUrl` standing for
`req.imagenUrl`. -/
def crearCancha (canchas : List Cancha) (usuario : Id) (body : SolicitudEditarCancha)
    (nuevoId : Id) : ResultadoCancha :=
  match presente body.nombre, presente body.descripcion, body.precio with
  | some nombre, some descripcion, some precioLeido =>
    match presente body.imagenUrl with
    | none => ⟨canchas, Respuesta.error 400 "La imagen es obligatoria." none⟩
    | some imagenUrl =>
      match precioLeido with
      | none => ⟨canchas, Respuesta.error 400 "El precio debe ser un número mayor a 0." none⟩
      | some precio =>
        if precio ≤ 0 then
          ⟨canchas, Respuesta.error 400 "El precio debe ser un número mayor a 0." none⟩
        else
          match body.horarios with
          | some none => ⟨canchas, Respuesta.error 400 "Formato de horarios inválido." none⟩
          | horarios =>
            let horariosArray := match horarios with
              | some (some hs) => hs
              | _ => []
            match revisarHorarios horariosArray with
            | some mensaje => ⟨canchas, Respuesta.error 400 mensaje none⟩
            | none =>
              match horariosDeEntrada horariosArray with
              | none => ⟨canchas, Respuesta.error 500 "Error al crear la cancha." none⟩
              | some hs =>
                let nuevaCancha : Cancha :=
                  { _id := nuevoId
                    nombre := String.mk (trim (sanitizarTexto nombre).data)
                    descripcion := String.mk (trim (sanitizarTexto descripcion).data)
                    imagenUrl := imagenUrl, precio := precio.toNat, adminId := usuario
                    horarios := hs, activa := true }
                if validaCanchaSchema nuevaCancha && !canchas.any (fun c => c._id == nuevoId) then
                  ⟨canchas ++ [nuevaCancha], Respuesta.canchaCreada nuevaCancha⟩
                else ⟨canchas, Respuesta.error 500 "Error al crear la cancha." none⟩
  | _, _, _ =>
    ⟨canchas, Respuesta.error 400 "Nombre, descripción y precio son obligatorios." none⟩

/-- `Reserva.countDocuments({ canchaId, estado: 'confirmada', fecha: { $gte: new Date() } })`. -/
def contarReservasFuturas (env : Entorno) (store : List Reserva) (id : Id) : Nat :=
  (store.filter (fun d => d.canchaId == id && d.estado == Estado.confirmada
    && decide (env.now ≤ d.fecha))).length

/-- `eliminarCancha`. `usuario` is `req.user._id`, `id` the route parameter. -/
def eliminarCancha (env : Entorno) (canchas : List Cancha) (store : List Reserva)
    (usuario : Id) (id : Id) : ResultadoCancha :=
  match findCanchaById canchas id with
  | none => ⟨canchas, Respuesta.error 404 "Cancha no encontrada." none⟩
  | some cancha =>
    if cancha.adminId != usuario then
      ⟨canchas, Respuesta.error 403 "No tienes permiso para eliminar esta cancha." none⟩
    else
      let reservasFuturas := contarReservasFuturas env store id
      if reservasFuturas > 0 then
        ⟨canchas, Respuesta.error 400
          ("No se puede eliminar. Hay " ++ toString reservasFuturas
            ++ " reserva(s) confirmada(s).") none⟩
      else
        if validaCanchaSchema { cancha with activa := false } then
          ⟨reemplazarCancha { cancha with activa := false } canchas,
            Respuesta.canchaEliminada cancha._id cancha.nombre⟩
        else ⟨canchas, Respuesta.error 500 "Error al eliminar la cancha." none⟩

/-! ## `models/user.js`, `middleware/rolemiddleware.js` -/

/-- `rol` of a user (`enum` of the schema). -/
inductive Rol where
  | superadmin
  | admin
  | user
deriving DecidableEq, Repr

/-- User document (`models/user.js`). -/
structure Usuario where
  _id : Id
  nombre : String
  email : String
  password : String
  rol : Rol
deriving DecidableEq, Repr

/-- What a middleware does with a request: it calls `next()` or it answers. -/
inductive Middleware where
  | next
  | responde (status : Nat) (error : String)
deriving DecidableEq, Repr

/-- `esSuperAdmin`; the argument is `req.user`. -/
def esSuperAdmin (user : Option Usuario) : Middleware :=
  match user with
  | some u =>
      if u.rol == Rol.superadmin then Middleware.next
      else Middleware.responde 403 "Acceso denegado. Solo superadministradores."
  | none => Middleware.responde 403 "Acceso denegado. Solo superadministradores."

/-- `esAdmin`. -/
def esAdmin (user : Option Usuario) : Middleware :=
  match user with
  | some u =>
      if u.rol == Rol.admin then Middleware.next
      else Middleware.responde 403 "Acceso denegado. Solo administradores."
  | none => Middleware.responde 403 "Acceso denegado. Solo administradores."

/-- `esUsuario`. -/
def esUsuario (user : Option Usuario) : Middleware :=
  match user with
  | some u =>
      if u.rol == Rol.user then Middleware.next
      else Middleware.responde 403 "Acceso denegado. Solo usuarios."
  | none => Middleware.responde 403 "Acceso denegado. Solo usuarios."

/-- `esAdminOSuperAdmin`. -/
def esAdminOSuperAdmin (user : Option Usuario) : Middleware :=
  match user with
  | some u =>
      if u.rol == Rol.admin || u.rol == Rol.superadmin then Middleware.next
      else Middleware.responde 403 "Acceso denegado. Requiere permisos de administrador."
  | none => Middleware.responde 403 "Acceso denegado. Requiere permisos de administrador."

/-! ## `controllers/admincontroller.js`: `editarAdmin`, `eliminarAdmin` -/

/-- Some `.` of the list is followed by at least one character. -/
def puntoSeguido : List Char → Bool
  | [] => false
  | c :: resto => (c == '.' && !resto.isEmpty) || puntoSeguido resto

/-- Some `@` of the list is followed by one character or more, a `.` and one character or
more. -/
def arrobaSeguida : List Char → Bool
  | [] => false
  | c :: resto =>
      (c == '@' && (match resto with
        | [] => false
        | _ :: cola => puntoSeguido cola)) || arrobaSeguida resto

/-- `validarEmail`: the regular expression `^\S+@\S+\.\S+$`. -/
def validarEmail (email : String) : Bool :=
  match email.data with
  | [] => false
  | _ :: resto => email.data.all (fun c => !esEspacioJS c) && arrobaSeguida resto

/-- `validarPassword`: `password && password.length >= 6`. -/
def validarPassword (password : String) : Bool :=
  decide (6 ≤ password.length)

/-- Body of `PUT /api/admin/edit/:id`; a field is `none` when absent. -/
structure SolicitudEditarAdmin where
  nombre : Option String
  email : Option String
  password : Option String
deriving DecidableEq, Repr

/-- Response of an admin-management handler. -/
inductive RespuestaAdmin where
  | error (status : Nat) (error : String)
  | actualizado (admin : Usuario)
  | eliminado (id : Id) (nombre : String) (email : String)
deriving DecidableEq, Repr

/-- Outcome of an admin-management handler: the user collection it leaves and its response. -/
structure ResultadoAdmin where
  usuarios : List Usuario
  respuesta : RespuestaAdmin
deriving DecidableEq, Repr

/-- `User.findById`. -/
def findUserById (usuarios : List Usuario) (id : Id) : Option Usuario :=
  usuarios.find? (fun u => u._id == id)

/-- Replace the first user whose `_id` is that of `u` (`updateOne` by `_id`). -/
def reemplazarUsuario (u : Usuario) : List Usuario → List Usuario
  | [] => []
  | d :: ds => if d._id == u._id then u :: ds else d :: reemplazarUsuario u ds

/-- Remove the first user with the given `_id` (`User.findByIdAndDelete`). -/
def borrarUsuario (id : Id) : List Usuario → List Usuario
  | [] => []
  | d :: ds => if d._id == id then ds else d :: borrarUsuario id ds

/-- `save()` of a user read from the collection: schema validators (`nombre` of at least
3 characters, `email` matching the pattern, `password` of at least 6), the pre-save hook
that hashes a modified password with `hash`, and the update, which the unique index on
`email` may refuse. -/
def saveUsuario (hash : String → String) (usuarios : List Usuario) (original u : Usuario) :
    Option (List Usuario) :=
  if decide (3 ≤ u.nombre.length) && validarEmail u.email && decide (6 ≤ u.password.length)
      && !usuarios.any (fun d => d._id != u._id && d.email == u.email) then
    some (reemplazarUsuario
      (if u.password != original.password then { u with password := hash u.password } else u)
      usuarios)
  else none

/-- `email.trim().toLowerCase()` (letters outside ASCII are kept as they are). -/
def normalizarEmail (email : String) : String :=
  String.mk ((trim email.data).map Char.toLower)

/-- `editarAdmin`. `id` is the route parameter, `hash` what `bcrypt.hash` computes with
the salt it draws. -/
def editarAdmin (hash : String → String) (usuarios : List Usuario) (id : Id)
    (body : SolicitudEditarAdmin) : ResultadoAdmin :=
  match findUserById usuarios id with
  | none => ⟨usuarios, RespuestaAdmin.error 404 "Administrador no encontrado."⟩
  | some admin =>
    if admin.rol != Rol.admin then
      ⟨usuarios, RespuestaAdmin.error 400
        "Solo se pueden editar administradores, no superadministradores."⟩
    else
      let a1 := match presente body.nombre with
        | some nombre => { admin with nombre := String.mk (trim (sanitizarTexto nombre).data) }
        | none => admin
      let conEmail : Except String Usuario := match presente body.email with
        | none => Except.ok a1
        | some email =>
            if !validarEmail (normalizarEmail email) then
              Except.error "El formato del email no es válido."
            else if usuarios.any (fun u => u.email == normalizarEmail email && u._id != id) then
              Except.error "El email ya está en uso por otro usuario."
            else Except.ok { a1 with email := normalizarEmail email }
      match conEmail with
      | Except.error e => ⟨usuarios, RespuestaAdmin.error 400 e⟩
      | Except.ok a2 =>
        let conPassword : Except String Usuario := match presente body.password with
          | none => Except.ok a2
          | some password =>
              if !validarPassword password then
                Except.error "La contraseña debe tener al menos 6 caracteres."
              else Except.ok { a2 with password := password }
        match conPassword with
        | Except.error e => ⟨usuarios, RespuestaAdmin.error 400 e⟩
        | Except.ok a3 =>
          match saveUsuario hash usuarios admin a3 with
          | some usuarios1 =>
            ⟨usuarios1, RespuestaAdmin.actualizado
              (if a3.password != admin.password then { a3 with password := hash a3.password }
               else a3)⟩
          | none => ⟨usuarios, RespuestaAdmin.error 500 "Error al editar administrador."⟩

/-- `eliminarAdmin`. `id` is the route parameter. -/
def eliminarAdmin (usuarios : List Usuario) (id : Id) : ResultadoAdmin :=
  match findUserById usuarios id with
  | none => ⟨usuarios, RespuestaAdmin.error 404 "Administrador no encontrado."⟩
  | some admin =>
    if admin.rol != Rol.admin then
      ⟨usuarios, RespuestaAdmin.error 400
        "Solo se pueden eliminar administradores, no superadministradores."⟩
    else
      ⟨borrarUsuario id usuarios,
        RespuestaAdmin.eliminado admin._id admin.nombre admin.email⟩

/-! ## Sequential executions -/

/-- One sequential step on the reservation collection. -/
inductive Paso where
  | crear (env : Entorno) (canchas : List Cancha) (usuario : Id) (body : SolicitudReserva)
      (nuevoId : Id) (webpay : Except String CreateResponse)
  | retorno (env : Entorno) (token_ws : Option String) (commit : Except String CommitResponse)
  | cancelar (env : Entorno) (usuario : Id) (id : Id)
  | ttl (now : Int)

/-- The collection after one step. -/
def aplicar (store : List Reserva) : Paso → List Reserva
  | Paso.crear env canchas usuario body nuevoId webpay =>
      (crearReserva env canchas store usuario body nuevoId webpay).store
  | Paso.retorno env token_ws commit => (webpayReturn env store token_ws commit).store
  | Paso.cancelar env usuario id => (cancelarReserva env store usuario id).store
  | Paso.ttl now => expirarTTL now store

/-- The collection after a sequence of steps, from the empty collection. -/
def ejecutar (pasos : List Paso) : List Reserva :=
  pasos.foldl aplicar []

/-- Same slot: same `(canchaId, fecha, hora)`. -/
def mismoSlot (a b : Reserva) : Bool :=
  a.canchaId == b.canchaId && a.fecha == b.fecha && a.hora == b.hora

/-- One booking per slot: no two documents at different positions of the collection are
both live on the same slot. -/
def unaPorSlot : List Reserva → Bool
  | [] => true
  | r :: rs => !(esViva r.estado && rs.any (fun d => esViva d.estado && mismoSlot r d))
      && unaPorSlot rs

/-- Minutes since midnight of an hour string. -/
def minutosDe (s : String) : Option Nat :=
  (partes s).map (fun p => p.1 * 60 + p.2)

/-- Start of a reservation: its `fecha` (local midnight) plus the minutes of its `hora`. -/
def inicioReserva (r : Reserva) : Option Int :=
  (minutosDe r.hora).map (fun m => r.fecha + (m : Int) * msPorMinuto)

/-! ## Concurrent executions of `crearReserva`

Between two `await`s a call runs alone; at each `await` (`Cancha.findById`,
`Reserva.findOne`, `save()`, `tx.create`, `save()`, `findByIdAndDelete`) another call may
run. Each database operation is atomic. -/

/-- One call of `crearReserva`: its clock, the venues it reads, `req.user._id`, the body,
the `_id` generated for its document and what `tx.create` answers if it is called. -/
structure Llamada where
  env : Entorno
  canchas : List Cancha
  usuario : Id
  body : SolicitudReserva
  nuevoId : Id
  webpay : Except String CreateResponse

/-- Where a call of `crearReserva` stands: before its first `await`, after
`Cancha.findById`, after `Reserva.findOne` found nothing, after the first `save()`, after
`tx.create` answered, inside `catch (webpayError)` before `findByIdAndDelete`, or after it
responded. -/
inductive Hilo where
  | inicio
  | conCancha (canchaId : Id) (fechaReserva : Int) (hora : String) (cancha : Cancha)
  | trasBuscar (nuevaReserva : Reserva) (cancha : Cancha)
  | trasInsertar (nuevaReserva : Reserva) (cancha : Cancha)
  | conRespuesta (nuevaReserva : Reserva) (cancha : Cancha) (createResponse : CreateResponse)
  | falloWebpay (nuevaReserva : Reserva) (detalle : String)
  | fin (respuesta : Respuesta)
deriving DecidableEq, Repr

/-- The code of `crearReserva` from one `await` to the next, on the collection as it is
when the call resumes. -/
def paso (l : Llamada) (store : List Reserva) : Hilo → List Reserva × Hilo
  | Hilo.inicio =>
    match presente l.body.canchaId, l.body.fecha, presente l.body.hora with
    | some canchaId, some fecha, some hora =>
      if !validarFormatoHora hora then
        (store, Hilo.fin
          (Respuesta.error 400 "La hora debe estar en formato HH:MM (ej: 14:00)" none))
      else if !validarFechaNoVencida l.env fecha then
        (store, Hilo.fin
          (Respuesta.error 400 "No se pueden hacer reservas en fechas pasadas." none))
      else
        match findCanchaById l.canchas canchaId with
        | none =>
          (store, Hilo.fin (Respuesta.error 404 "Cancha no encontrada o no disponible." none))
        | some cancha =>
          if !cancha.activa then
            (store, Hilo.fin
              (Respuesta.error 404 "Cancha no encontrada o no disponible." none))
          else (store, Hilo.conCancha canchaId (nuevaDateLocal l.env fecha) hora cancha)
    | _, _, _ =>
      (store, Hilo.fin (Respuesta.error 400 "Cancha, fecha y hora son obligatorios." none))
  | Hilo.conCancha canchaId fechaReserva hora cancha =>
    match store.find? (fun d =>
        d.canchaId == canchaId && d.fecha == fechaReserva && d.hora == hora
          && esViva d.estado) with
    | some _ => (store, Hilo.fin (Respuesta.error 400 "Este horario ya está reservado." none))
    | none =>
      (store, Hilo.trasBuscar
        { _id := l.nuevoId, usuarioId := l.usuario, canchaId := canchaId
          fecha := fechaReserva, hora := hora, estado := Estado.pendiente
          monto := cancha.precio, webpayToken := none, datosPago := none
          expiraEn := l.env.now + graciaMs } cancha)
  | Hilo.trasBuscar nuevaReserva cancha =>
    match saveNueva l.env store nuevaReserva with
    | Except.error e =>
      (store, Hilo.fin (Respuesta.error 500 "Error al crear la reserva." (some e)))
    | Except.ok store1 => (store1, Hilo.trasInsertar nuevaReserva cancha)
  | Hilo.trasInsertar nuevaReserva cancha =>
    match l.webpay with
    | Except.error e => (store, Hilo.falloWebpay nuevaReserva e)
    | Except.ok createResponse => (store, Hilo.conRespuesta nuevaReserva cancha createResponse)
  | Hilo.conRespuesta nuevaReserva cancha createResponse =>
    match saveExistente l.env store
        { nuevaReserva with webpayToken := some createResponse.token } with
    | Except.error e => (store, Hilo.falloWebpay nuevaReserva e)
    | Except.ok store2 =>
      (store2, Hilo.fin
        (Respuesta.creada { nuevaReserva with webpayToken := some createResponse.token }
          cancha.nombre (createResponse.url ++ "?token_ws=" ++ createResponse.token)
          createResponse.token))
  | Hilo.falloWebpay nuevaReserva e =>
    (findByIdAndDelete nuevaReserva._id store,
      Hilo.fin (Respuesta.error 500 "Error al procesar el pago con Webpay." (some e)))
  | Hilo.fin respuesta => (store, Hilo.fin respuesta)

/-- A call running alone for `n` steps. -/
def correr (l : Llamada) : Nat → List Reserva × Hilo → List Reserva × Hilo
  | 0, st => st
  | n + 1, st => correr l n (paso l st.1 st.2)

/-- The call at position `i` runs up to its next `await`; the others wait. -/
def avanzar : Nat → List Reserva → List (Llamada × Hilo) →
    List Reserva × List (Llamada × Hilo)
  | _, store, [] => (store, [])
  | 0, store, x :: resto => ((paso x.1 store x.2).1, (x.1, (paso x.1 store x.2).2) :: resto)
  | i + 1, store, x :: resto => ((avanzar i store resto).1, x :: (avanzar i store resto).2)

/-- An interleaving: the calls start together on `store` and `plan` lists, in order, the
position of the call that runs next. -/
def planificar (llamadas : List Llamada) (store : List Reserva) (plan : List Nat) :
    List Reserva × List (Llamada × Hilo) :=
  plan.foldl (fun st i => avanzar i st.1 st.2) (store, llamadas.map (fun l => (l, Hilo.inicio)))

/-- The responses sent so far, one entry per call. -/
def respuestas (hilos : List (Llamada × Hilo)) : List (Option Respuesta) :=
  hilos.map (fun x => match x.2 with
    | Hilo.fin respuesta => some respuesta
    | _ => none)

/-- The document a call has inserted and not deleted. -/
def documentoDe : Hilo → Option Reserva
  | Hilo.trasInsertar nuevaReserva _ => some nuevaReserva
  | Hilo.conRespuesta nuevaReserva _ _ => some nuevaReserva
  | Hilo.falloWebpay nuevaReserva _ => some nuevaReserva
  | Hilo.fin (Respuesta.creada reserva _ _ _) => some reserva
  | _ => none

/-- The reservation a call was served with status 201. -/
def servida : Hilo → Option Reserva
  | Hilo.fin (Respuesta.creada reserva _ _ _) => some reserva
  | _ => none

/-- The live documents of the collection on a slot. -/
def vivasEnSlot (store : List Reserva) (canchaId : Id) (fecha : Int) (hora : String) :
    List Reserva :=
  store.filter (fun d =>
    d.canchaId == canchaId && d.fecha == fecha && d.hora == hora && esViva d.estado)

/-! ## A booking scenario

Venue `V` opens on Mondays from 09:00 to 11:00. The clock starts on 2099-01-02 at 12:00 UTC
in a deployment at UTC; the slot is Monday 2099-01-05 at 09:00. -/

/-- The clock `minutos` minutes after 2099-01-02T12:00:00Z, zone UTC. -/
def entornoEn (minutos : Int) : Entorno :=
  { now := 4071038400000 + minutos * 60000, offsetMin := 0 }

/-- Venue `V`. -/
def canchaV : Cancha :=
  { _id := "V", nombre := "Cancha V", descripcion := "Cancha de futbolito techada"
    imagenUrl := "https://res.cloudinary.example/canchas/v.jpg", precio := 15000
    adminId := "admin1"
    horarios := [⟨Dia.Lunes, "09:00", "11:00"⟩], activa := true }

/-- The request for `(V, 2099-01-05, 09:00)`. -/
def solicitudLunes9 : SolicitudReserva :=
  { canchaId := some "V", fecha := some ⟨2099, 1, 5⟩, hora := some "09:00" }

/-- An authorised commit response. -/
def commitAutorizado : CommitResponse :=
  { status := "AUTHORIZED", response_code := 0, authorization_code := some "1213"
    transaction_date := some "2099-01-02T12:05:00.000Z", card_number := some "6623"
    amount := some 15000 }

/-- A rejected commit response. -/
def commitRechazado : CommitResponse :=
  { status := "FAILED", response_code := -1, authorization_code := none
    transaction_date := none, card_number := none, amount := some 15000 }

/-- User `u1` books the slot and is sent to the gateway with token `t1`. -/
def pasoCrearA : Paso :=
  Paso.crear (entornoEn 0) [canchaV] "u1" solicitudLunes9 "r1"
    (Except.ok ⟨"t1", "https://webpay.example/pay"⟩)

/-- User `u1` cancels the pending reservation `r1` one minute later. -/
def pasoCancelarA : Paso := Paso.cancelar (entornoEn 1) "u1" "r1"

/-- User `u2` books the slot, free again, and receives token `t2`. -/
def pasoCrearB : Paso :=
  Paso.crear (entornoEn 2) [canchaV] "u2" solicitudLunes9 "r2"
    (Except.ok ⟨"t2", "https://webpay.example/pay"⟩)

/-- The gateway callback for token `t1` arrives, the payment authorised. -/
def pasoRetornoA : Paso :=
  Paso.retorno (entornoEn 5) (some "t1") (Except.ok commitAutorizado)

/-- Book, cancel, book again by someone else, late authorised callback of the first. -/
def trazaDobleReserva : List Paso := [pasoCrearA, pasoCancelarA, pasoCrearB, pasoRetornoA]

/-- Reservation `r1` as `crearReserva` leaves it. -/
def reservaA : Reserva :=
  { _id := "r1", usuarioId := "u1", canchaId := "V", fecha := 4071254400000, hora := "09:00"
    estado := Estado.pendiente, monto := 15000, webpayToken := some "t1", datosPago := none
    expiraEn := 4071039000000 }

/-- Reservation `r2` as `crearReserva` leaves it. -/
def reservaB : Reserva :=
  { _id := "r2", usuarioId := "u2", canchaId := "V", fecha := 4071254400000, hora := "09:00"
    estado := Estado.pendiente, monto := 15000, webpayToken := some "t2", datosPago := none
    expiraEn := 4071039120000 }

/-- A venue open on Mondays from 09:30 to 11:00. -/
def canchaMediaHora : Cancha :=
  { _id := "W", nombre := "Cancha W", descripcion := "Cancha de tenis de arcilla"
    imagenUrl := "https://res.cloudinary.example/canchas/w.jpg", precio := 12000
    adminId := "admin1"
    horarios := [⟨Dia.Lunes, "09:30", "11:00"⟩], activa := true }

/-- The clock `minutos` minutes after 2099-01-02T12:00:00Z (09:00 local time) in a deployment
at UTC-3. -/
def entornoChile (minutos : Int) : Entorno :=
  { now := 4071038400000 + minutos * 60000, offsetMin := -180 }

/-- Monday 2099-01-05 at 09:00 local time (12:00 UTC) in a deployment at UTC-3. -/
def entornoChileLunes : Entorno :=
  { now := 4071297600000, offsetMin := -180 }

/-- Reservation `r1` as `crearReserva` leaves it in the deployment at UTC-3: `fecha` is
2099-01-05T03:00:00Z, the local midnight of 2099-01-05. -/
def reservaChile : Reserva :=
  { _id := "r1", usuarioId := "u1", canchaId := "V", fecha := 4071265200000, hora := "09:00"
    estado := Estado.pendiente, monto := 15000, webpayToken := some "t1", datosPago := none
    expiraEn := 4071039000000 }

/-- Monday 2099-01-05 at 23:56 UTC, in the deployment at UTC. -/
def entornoCasiMedianoche : Entorno := entornoEn 5036

/-- Tuesday 2099-01-06 at 00:02 UTC, in the deployment at UTC. -/
def entornoPasadaMedianoche : Entorno := entornoEn 5042

/-- Reservation `r1` as `crearReserva` leaves it when made at 23:56 on the day it is for. -/
def reservaNoche : Reserva :=
  { _id := "r1", usuarioId := "u1", canchaId := "V", fecha := 4071254400000, hora := "09:00"
    estado := Estado.pendiente, monto := 15000, webpayToken := some "t1", datosPago := none
    expiraEn := 4071341160000 }

/-- The admin of `V` raises the price to 20000. -/
def solicitudNuevoPrecio : SolicitudEditarCancha :=
  { nombre := none, descripcion := none, precio := some (some 20000), horarios := none
    imagenUrl := none }

/-- The form `HH:MM` in the words of the specification: a two-digit hour between 00 and 23,
a colon, a two-digit minute between 00 and 59. -/
def esHHMM (s : String) : Bool :=
  (List.range 24).any (fun hh => (List.range 60).any (fun mm => s == horaSlot hh mm))

/-- The form `H:MM`: a one-digit hour between 0 and 9, a colon, a two-digit minute between
00 and 59. -/
def esHMM (s : String) : Bool :=
  (List.range 10).any (fun h => (List.range 60).any (fun mm =>
    s == String.mk (Nat.digitChar h :: ':' :: padStart2 mm)))

/-- Monday 2099-01-05 at 08:00 UTC, in the deployment at UTC. -/
def entornoLunesTemprano : Entorno := entornoEn 4080

/-- Reservation `r1` for Monday 2099-01-05 at 09:00, paid. -/
def reservaConfirmada : Reserva :=
  { reservaA with estado := Estado.confirmada
                  datosPago := some (datosAprobado commitAutorizado) }

/-- A request to create a venue whose only window ends before it starts. -/
def solicitudVentanaInvertida : SolicitudEditarCancha :=
  { nombre := some "Cancha X", descripcion := some "Cancha de prueba techada"
    precio := some (some 10000)
    horarios := some (some [⟨some "Lunes", some "11:00", some "09:00"⟩])
    imagenUrl := some "https://res.cloudinary.example/canchas/x.jpg" }

/-- The venue that `crearCancha` stores for `solicitudVentanaInvertida`. -/
def canchaVentanaInvertida : Cancha :=
  { _id := "X", nombre := "Cancha X", descripcion := "Cancha de prueba techada"
    imagenUrl := "https://res.cloudinary.example/canchas/x.jpg", precio := 10000
    adminId := "admin1", horarios := [⟨Dia.Lunes, "11:00", "09:00"⟩], activa := true }

/-- A user collection: the superadmin, an admin and a customer. -/
def usuariosDemo : List Usuario :=
  [⟨"s1", "Super Admin", "root@canchas.cl", "hash:raiz00", Rol.superadmin⟩,
   ⟨"a1", "Ana Admin", "ana@canchas.cl", "hash:secreto", Rol.admin⟩,
   ⟨"u1", "Ulises Usuario", "ulises@correo.cl", "hash:clave11", Rol.user⟩]

/-- A hash for the scenario. -/
def hashDemo (password : String) : String := "hash:" ++ password

/-- A venue with two Monday windows stored in reverse chronological order, the second one
with a one-digit start hour. -/
def canchaDosVentanas : Cancha :=
  { _id := "D", nombre := "Cancha D", descripcion := "Cancha de padel"
    imagenUrl := "https://res.cloudinary.example/canchas/d.jpg", precio := 9000
    adminId := "admin1"
    horarios := [⟨Dia.Lunes, "15:00", "17:00"⟩, ⟨Dia.Lunes, "9:00", "11:00"⟩], activa := true }

/-- A call for `(V, 2099-01-05, 09:00)` by `usuario` with document `_id` `nuevoId`. -/
def llamadaLunes9 (usuario nuevoId : Id) (webpay : Except String CreateResponse) : Llamada :=
  { env := entornoEn 0, canchas := [canchaV], usuario := usuario, body := solicitudLunes9
    nuevoId := nuevoId, webpay := webpay }

/-- Two calls for the same slot whose gateway calls succeed. -/
def dosLlamadas : List Llamada :=
  [llamadaLunes9 "u1" "r1" (Except.ok ⟨"tok1", "https://webpay.example/pay"⟩),
   llamadaLunes9 "u2" "r2" (Except.ok ⟨"tok2", "https://webpay.example/pay"⟩)]

/-- Two calls for the same slot; the gateway call of the first one throws. -/
def dosLlamadasFalla : List Llamada :=
  [llamadaLunes9 "u1" "r1" (Except.error "timeout"),
   llamadaLunes9 "u2" "r2" (Except.ok ⟨"tok2", "https://webpay.example/pay"⟩)]

/-- Both calls pass `Cancha.findById` and `Reserva.findOne` before either inserts. -/
def planCarrera : List Nat := [0, 1, 0, 1, 0, 1, 0, 0, 0]

/-- A cancelled reservation of the slot `(V, 2099-01-05, 09:00)`. -/
def reservaCanceladaPrevia : Reserva :=
  { reservaA with _id := "r0", usuarioId := "u0", estado := Estado.cancelada }

/-! ## Auxiliary definitions for the proofs -/

/-- The document `webpayReturn` saves for the reservation it found: the two branches of
its payment test in one expression. -/
def conPago (c : CommitResponse) (reserva : Reserva) : Reserva :=
  if pagoAutorizado c then
    { reserva with estado := Estado.confirmada, datosPago := some (datosAprobado c) }
  else
    { reserva with estado := Estado.cancelada, datosPago := some (datosRechazado c) }

/-- Two documents collide: both live on the same slot. -/
def chocan (a b : Reserva) : Bool :=
  esViva a.estado && esViva b.estado && mismoSlot a b

/-- The reservation a call is about to insert or to update. -/
def enCurso : Hilo → Option Reserva
  | Hilo.trasBuscar nuevaReserva _ => some nuevaReserva
  | Hilo.trasInsertar nuevaReserva _ => some nuevaReserva
  | Hilo.conRespuesta nuevaReserva _ _ => some nuevaReserva
  | _ => none

/-- The responses `crearReserva` can send: 201 with a pending reservation, or an error with
status 400, 404 or 500. -/
def respuestaDeCrear : Respuesta → Prop
  | Respuesta.creada reserva _ _ _ => reserva.estado = Estado.pendiente
  | Respuesta.error status _ _ => status = 400 ∨ status = 404 ∨ status = 500
  | _ => False

/-- What holds of a call between two steps: the reservation it is about to write is pending
and no confirmed document of the collection is on its slot; the document it inserted is
pending and in the collection; its response is one of `respuestaDeCrear`. -/
def HiloOk (store : List Reserva) (h : Hilo) : Prop :=
  (∀ r, enCurso h = some r →
    r.estado = Estado.pendiente
    ∧ ∀ d ∈ store, d.estado = Estado.confirmada → mismoSlot d r = false)
  ∧ (∀ r, documentoDe h = some r → r.estado = Estado.pendiente ∧ r ∈ store)
  ∧ ∀ respuesta, h = Hilo.fin respuesta → respuestaDeCrear respuesta

/-- Two calls hold documents with different `_id`s. -/
def Distintos (x y : Llamada × Hilo) : Prop :=
  ∀ a b, documentoDe x.2 = some a → documentoDe y.2 = some b → a._id ≠ b._id

/-- The invariant of the interleavings: unique `_id`s, no two colliding documents, every
call in order and no two calls holding the same document. -/
def Invariante (store : List Reserva) (hilos : List (Llamada × Hilo)) : Prop :=
  (store.map (fun d => d._id)).Nodup
  ∧ store.Pairwise (fun a b => chocan a b = false)
  ∧ (∀ x ∈ hilos, HiloOk store x.2)
  ∧ hilos.Pairwise Distintos

/-- The hourly slots of one window in the words of the specification: `start, start + 1h,
..., end - 1h`, in minutes since midnight; a final partial hour is left out. -/
def slotsDeVentanaSpec (inicio fin : Nat) : List Nat :=
  (List.range ((fin - inicio) / 60)).map (fun k => inicio + 60 * k)

/-- The string `HH:MM` of a number of minutes since midnight. -/
def horaDeMinutos (m : Nat) : String := horaSlot (m / 60) (m % 60)

/-- The slots that the specification enumerates for a weekday: those of each window of that
weekday. -/
def slotsSegunSpec (horarios : List Horario) (dia : Dia) : List String :=
  (horarios.filter (fun h => h.dia == dia)).flatMap (fun h =>
    match minutosDe h.horaInicio, minutosDe h.horaFin with
    | some inicio, some fin => (slotsDeVentanaSpec inicio fin).map horaDeMinutos
    | _, _ => [])

/-- The answer of the resolver of the specification for a venue and a calendar date: the
slots enumerated for the weekday of the date, minus the hours of the live reservations of
the venue on that date (a reservation of the date carries its local midnight as `fecha`). -/
def disponiblesSegunSpec (env : Entorno) (cancha : Cancha) (store : List Reserva)
    (fecha : FechaStr) : List String :=
  match diasSemana.get? (diaSemanaCivil fecha) with
  | some dia =>
    (slotsSegunSpec cancha.horarios dia).filter (fun slot =>
      !store.any (fun r => r.canchaId == cancha._id && r.fecha == nuevaDateLocal env fecha
        && esViva r.estado && r.hora == slot))
  | none => []

/-- The request of a call is for the slot `(canchaId, fechaReserva, hora)` and passes every
check of `crearReserva`, the deployment zone is less than a day ahead of UTC, and the gateway
answers the call. -/
def pideSlot (l : Llamada) (canchaId : Id) (fechaReserva : Int) (hora : String) : Bool :=
  match presente l.body.canchaId, l.body.fecha, presente l.body.hora, l.webpay with
  | some c, some fecha, some h, Except.ok _ =>
    c == canchaId && h == hora && validarFormatoHora h && validarFechaNoVencida l.env fecha
      && nuevaDateLocal l.env fecha == fechaReserva && decide (l.env.offsetMin < 1440)
      && (match findCanchaById l.canchas c with
          | some cancha => cancha.activa
          | none => false)
  | _, _, _, _ => false

/-- The call has responded. -/
def terminado : Hilo → Bool
  | Hilo.fin _ => true
  | _ => false

/-- The call has inserted its reservation. -/
def haInsertado (h : Hilo) : Bool := (documentoDe h).isSome

/-- The reservation is on the slot. -/
def enSlot (canchaId : Id) (fechaReserva : Int) (hora : String) (r : Reserva) : Prop :=
  r.canchaId = canchaId ∧ r.fecha = fechaReserva ∧ r.hora = hora

/-- The answers to a call for a slot whose request passes every check and whose gateway
call answers: 201, the slot-taken 400, or the 500 of a refused insert. -/
def respuestaEnSlot (canchaId : Id) (fechaReserva : Int) (hora : String) : Respuesta → Prop
  | Respuesta.creada reserva _ _ _ => enSlot canchaId fechaReserva hora reserva
  | Respuesta.error status mensaje detalle =>
    (status = 400 ∧ mensaje = "Este horario ya está reservado." ∧ detalle = none)
    ∨ (status = 500 ∧ mensaje = "Error al crear la reserva." ∧ detalle ≠ none)
  | _ => False

/-- What holds of a call for the slot whose request passes every check and whose gateway
call answers: it works on the slot, with its own `_id` and a document that the schema
validators accept, it never enters `catch (webpayError)`, and its answer is one of
`respuestaEnSlot`. -/
def HiloEnSlot (l : Llamada) (canchaId : Id) (fechaReserva : Int) (hora : String) :
    Hilo → Prop
  | Hilo.inicio => True
  | Hilo.conCancha c f h _ => c = canchaId ∧ f = fechaReserva ∧ h = hora
  | Hilo.trasBuscar r _ =>
    enSlot canchaId fechaReserva hora r ∧ r._id = l.nuevoId ∧ validaSchema l.env r = true
  | Hilo.trasInsertar r _ =>
    enSlot canchaId fechaReserva hora r ∧ r._id = l.nuevoId ∧ validaSchema l.env r = true
  | Hilo.conRespuesta r _ _ =>
    enSlot canchaId fechaReserva hora r ∧ r._id = l.nuevoId ∧ validaSchema l.env r = true
  | Hilo.falloWebpay _ _ => False
  | Hilo.fin respuesta => respuestaEnSlot canchaId fechaReserva hora respuesta

/-- Progress of the calls for a slot: every call is in order, and either some call has
inserted its reservation, or the slot is free, the `_id`s of the calls are unused and no
call has responded. -/
def Avance (canchaId : Id) (fechaReserva : Int) (hora : String) (store : List Reserva)
    (hilos : List (Llamada × Hilo)) : Prop :=
  (∀ x ∈ hilos, pideSlot x.1 canchaId fechaReserva hora = true
    ∧ HiloEnSlot x.1 canchaId fechaReserva hora x.2)
  ∧ ((∃ x ∈ hilos, haInsertado x.2 = true)
    ∨ (vivasEnSlot store canchaId fechaReserva hora = []
      ∧ (∀ x ∈ hilos, ∀ d ∈ store, d._id ≠ x.1.nuevoId)
      ∧ ∀ x ∈ hilos, terminado x.2 = false))

/-! ## Theorems -/

/-- C1 (one booking per slot, reachable states). The sequence book `r1`, cancel `r1`, book
`r2` on the same slot, authorised callback for the token of `r1` leads from the empty
collection to one where `r1` is `confirmada` and `r2` is `pendiente` on the same
`(canchaId, fecha, hora)`: the collection satisfies the unique index, whose key contains
`estado`, and breaks one booking per slot. -/
theorem c1_doble_reserva_alcanzable :
    ejecutar trazaDobleReserva =
      [{ reservaA with estado := Estado.confirmada
                       datosPago := some (datosAprobado commitAutorizado) }, reservaB]
    ∧ cumpleIndiceUnico (ejecutar trazaDobleReserva) = true
    ∧ unaPorSlot (ejecutar trazaDobleReserva) = false := by
  decide

/-- C2 (terminal monotonicity). `webpayReturn` overwrites a terminal reservation: after
book and cancel, `r1` is `cancelada` and an authorised callback makes it `confirmada` with
a payment record; after book and authorised callback, `r1` is `confirmada` and a rejected
callback makes it `cancelada` and rewrites the payment record. -/
theorem c2_retorno_cambia_reserva_terminal :
    ejecutar [pasoCrearA, pasoCancelarA] = [{ reservaA with estado := Estado.cancelada }]
    ∧ (webpayReturn (entornoEn 5) [{ reservaA with estado := Estado.cancelada }] (some "t1")
        (Except.ok commitAutorizado)).store
      = [{ reservaA with estado := Estado.confirmada
                         datosPago := some (datosAprobado commitAutorizado) }]
    ∧ ejecutar [pasoCrearA, pasoRetornoA]
      = [{ reservaA with estado := Estado.confirmada
                         datosPago := some (datosAprobado commitAutorizado) }]
    ∧ (webpayReturn (entornoEn 6)
        [{ reservaA with estado := Estado.confirmada
                         datosPago := some (datosAprobado commitAutorizado) }] (some "t1")
        (Except.ok commitRechazado)).store
      = [{ reservaA with estado := Estado.cancelada
                         datosPago := some (datosRechazado commitRechazado) }] := by
  decide

/-- A string accepted by `validarFormatoHora` is truthy. -/
theorem presente_de_hora (hora : String) (h : validarFormatoHora hora = true) :
    presente (some hora) = some hora := by
  have hne : hora ≠ "" := by
    intro he
    rw [he] at h
    exact absurd h (by decide)
  simp [presente, hne]

/-- A non-empty identifier is truthy. -/
theorem presente_de_id (id : Id) (h : id ≠ "") : presente (some id) = some id := by
  simp [presente, h]

/-- C3 (slot taken). When the collection holds a live reservation (`pendiente` or
`confirmada`) for `(canchaId, fecha, hora)`, a request with valid inputs for the same
venue, date and hour is answered 400 'Este horario ya está reservado.', `tx.create` is not
called and the collection is the one before the call. -/
theorem c3_slot_ocupado (env : Entorno) (canchas : List Cancha) (store : List Reserva)
    (usuario nuevoId canchaId : Id) (fecha : FechaStr) (hora : String) (cancha : Cancha)
    (webpay : Except String CreateResponse)
    (hId : canchaId ≠ "")
    (hHora : validarFormatoHora hora = true)
    (hFecha : validarFechaNoVencida env fecha = true)
    (hCancha : findCanchaById canchas canchaId = some cancha)
    (hActiva : cancha.activa = true)
    (hOcupado : ∃ r ∈ store, r.canchaId = canchaId ∧ r.fecha = nuevaDateLocal env fecha
      ∧ r.hora = hora ∧ (r.estado = Estado.pendiente ∨ r.estado = Estado.confirmada)) :
    crearReserva env canchas store usuario ⟨some canchaId, some fecha, some hora⟩ nuevoId webpay
      = ⟨store, Respuesta.error 400 "Este horario ya está reservado." none, none⟩ := by
  obtain ⟨r, hr, h1, h2, h3, h4⟩ := hOcupado
  have hsome : (store.find? (fun d => d.canchaId == canchaId && d.fecha == nuevaDateLocal env fecha
      && d.hora == hora && esViva d.estado)).isSome = true := by
    rw [List.find?_isSome]
    refine ⟨r, hr, ?_⟩
    rcases h4 with h4 | h4 <;> simp [h1, h2, h3, h4, esViva]
  obtain ⟨x, hx⟩ := Option.isSome_iff_exists.mp hsome
  simp only [crearReserva, presente_de_id canchaId hId, presente_de_hora hora hHora, hHora, hFecha,
    hCancha, hActiva, hx]
  simp

/-- C3 at the scenario: `r1` holds the slot and `u2` asks for it. -/
theorem c3_slot_ocupado_witness :
    crearReserva (entornoEn 2) [canchaV] [reservaA] "u2" ⟨some "V", some ⟨2099, 1, 5⟩, some "09:00"⟩
      "r2" (Except.ok ⟨"t2", "https://webpay.example/pay"⟩)
      = ⟨[reservaA], Respuesta.error 400 "Este horario ya está reservado." none, none⟩ :=
  c3_slot_ocupado (entornoEn 2) [canchaV] [reservaA] "u2" "r2" "V" ⟨2099, 1, 5⟩ "09:00" canchaV _
    (by decide) (by decide) (by decide) (by decide) (by decide)
    ⟨reservaA, by decide, by decide, by decide, by decide, Or.inl (by decide)⟩

/-- `conPago` keeps the `_id`. -/
theorem conPago_id (c : CommitResponse) (r : Reserva) : (conPago c r)._id = r._id := by
  unfold conPago; split <;> rfl

/-- `conPago` keeps the token. -/
theorem conPago_token (c : CommitResponse) (r : Reserva) :
    (conPago c r).webpayToken = r.webpayToken := by
  unfold conPago; split <;> rfl

/-- Applying the same payment outcome again changes nothing. -/
theorem conPago_conPago (c : CommitResponse) (r : Reserva) :
    conPago c (conPago c r) = conPago c r := by
  unfold conPago; split <;> rfl

/-- The collection `webpayReturn` leaves once it has found a reservation. -/
theorem webpayReturn_store (env : Entorno) (store : List Reserva) (token_ws : Option String)
    (token : String) (c : CommitResponse) (reserva : Reserva)
    (hTok : presente token_ws = some token)
    (hFind : store.find? (fun d => d.webpayToken == some token) = some reserva) :
    (webpayReturn env store token_ws (Except.ok c)).store =
      match saveExistente env store (conPago c reserva) with
      | Except.ok store1 => store1
      | Except.error _ => store := by
  unfold webpayReturn conPago
  simp only [hTok, hFind]
  split <;> split <;> simp_all

/-- Without a token, with a failing commit or without a reservation for the token,
`webpayReturn` leaves the collection as it is and redirects to the failure page. -/
theorem webpayReturn_store_sin_reserva (env : Entorno) (store : List Reserva)
    (token_ws : Option String) (commit : Except String CommitResponse)
    (h : presente token_ws = none ∨ (∃ e, commit = Except.error e) ∨
      ∀ token, presente token_ws = some token →
        store.find? (fun d => d.webpayToken == some token) = none) :
    webpayReturn env store token_ws commit = ⟨store, Respuesta.redirect urlPagoFallido⟩ := by
  unfold webpayReturn
  rcases h with h | ⟨e, h⟩ | h
  · simp [h]
  · subst h; cases presente token_ws <;> simp
  · cases ht : presente token_ws with
    | none => simp
    | some token =>
      cases commit with
      | error e => simp
      | ok c => simp [h token ht]

/-- After the update, the lookup by token finds the updated document. -/
theorem find_token_reemplazar (token : String) (x x' : Reserva) (store : List Reserva)
    (hFind : store.find? (fun d => d.webpayToken == some token) = some x)
    (hId : x'._id = x._id) (hTok : x'.webpayToken = x.webpayToken) :
    (reemplazar x' store).find? (fun d => d.webpayToken == some token) = some x' := by
  have hx : x.webpayToken = some token := by
    have := List.find?_some hFind
    simpa using this
  induction store with
  | nil => simp at hFind
  | cons d ds ih =>
    simp only [reemplazar]
    by_cases hd : d.webpayToken = some token
    · have hb : (d.webpayToken == some token) = true := by simp [hd]
      have : d = x := by
        rw [List.find?_cons, hb] at hFind
        simpa using hFind
      subst this
      simp [hId, List.find?_cons, hTok, hd]
    · have hb : (d.webpayToken == some token) = false := by simp [hd]
      have hds : ds.find? (fun d => d.webpayToken == some token) = some x := by
        rw [List.find?_cons, hb] at hFind
        simpa using hFind
      by_cases hid : d._id = x'._id
      · simp [hid, List.find?_cons, hTok, hx]
      · simp [hid, List.find?_cons, hb, ih hds]

/-- The unique index judges a document the same before and after it is written. -/
theorem indice_reemplazar (r : Reserva) (store : List Reserva) :
    indiceUnicoAcepta (reemplazar r store) r = indiceUnicoAcepta store r := by
  unfold indiceUnicoAcepta
  congr 2
  induction store with
  | nil => rfl
  | cons d ds ih =>
    simp only [reemplazar]
    by_cases hid : d._id = r._id
    · simp [hid]
    · simp [hid, ih]

/-- Writing the same document twice is writing it once. -/
theorem reemplazar_reemplazar (r : Reserva) (store : List Reserva) :
    reemplazar r (reemplazar r store) = reemplazar r store := by
  induction store with
  | nil => rfl
  | cons d ds ih =>
    simp only [reemplazar]
    by_cases hid : d._id = r._id
    · simp [hid, reemplazar]
    · simp [hid, reemplazar, ih]

/-- Local midnight is monotone in the instant. -/
theorem setHoursCero_mono (env1 env2 : Entorno) (h : env1.offsetMin = env2.offsetMin)
    (a b : Int) (hab : a ≤ b) : setHoursCero env1 a ≤ setHoursCero env2 b := by
  unfold setHoursCero msPorDia msPorMinuto
  rw [h]
  omega

/-- A document valid at a later clock is valid at an earlier one. -/
theorem validaSchema_anti (env1 env2 : Entorno) (h : env1.offsetMin = env2.offsetMin)
    (hNow : env1.now ≤ env2.now) (r : Reserva) (hv : validaSchema env2 r = true) :
    validaSchema env1 r = true := by
  unfold validaSchema hoy at *
  have := setHoursCero_mono env1 env2 h _ _ hNow
  simp only [Bool.and_eq_true, decide_eq_true_eq] at *
  exact ⟨le_trans this hv.1, hv.2⟩

/-- C4 (idempotent callback). For every collection, token and commit response, running
`webpayReturn` a second time (at the same or a later instant, same zone) with the same
token and the same response leaves the collection that the first run left. -/
theorem c4_retorno_idempotente (env1 env2 : Entorno) (store : List Reserva)
    (token_ws : Option String) (commit : Except String CommitResponse)
    (hZona : env1.offsetMin = env2.offsetMin) (hReloj : env1.now ≤ env2.now) :
    (webpayReturn env2 (webpayReturn env1 store token_ws commit).store token_ws commit).store
      = (webpayReturn env1 store token_ws commit).store := by
  cases ht : presente token_ws with
  | none => simp [webpayReturn_store_sin_reserva _ _ _ _ (Or.inl ht)]
  | some token =>
    cases commit with
    | error e =>
      simp [webpayReturn_store_sin_reserva _ _ _ (Except.error e) (Or.inr (Or.inl ⟨e, rfl⟩))]
    | ok c =>
      cases hf : store.find? (fun d => d.webpayToken == some token) with
      | none =>
        have h0 : ∀ env, webpayReturn env store token_ws (Except.ok c)
            = ⟨store, Respuesta.redirect urlPagoFallido⟩ := fun env =>
          webpayReturn_store_sin_reserva env store token_ws _
            (Or.inr (Or.inr (fun t h => by rw [ht] at h; cases h; exact hf)))
        rw [h0 env1, h0 env2]
      | some x =>
        rw [webpayReturn_store env1 store token_ws token c x ht hf]
        by_cases hv1 : validaSchema env1 (conPago c x) = true
        · by_cases hi : indiceUnicoAcepta store (conPago c x) = true
          · have hs : saveExistente env1 store (conPago c x)
                = Except.ok (reemplazar (conPago c x) store) := by
              simp [saveExistente, hv1, hi]
            rw [hs]
            have hf' := find_token_reemplazar token x (conPago c x) store hf (conPago_id c x)
              (conPago_token c x)
            show (webpayReturn env2 (reemplazar (conPago c x) store) token_ws (Except.ok c)).store
              = reemplazar (conPago c x) store
            rw [webpayReturn_store env2 _ token_ws token c (conPago c x) ht hf',
              conPago_conPago]
            unfold saveExistente
            rw [indice_reemplazar, hi, reemplazar_reemplazar]
            by_cases hv2 : validaSchema env2 (conPago c x) = true <;> simp [hv2]
          · have hs : saveExistente env1 store (conPago c x)
                = Except.error "E11000 duplicate key" := by
              simp [saveExistente, hv1, hi]
            rw [hs]
            show (webpayReturn env2 store token_ws (Except.ok c)).store = store
            rw [webpayReturn_store env2 _ token_ws token c x ht hf]
            unfold saveExistente
            by_cases hv2 : validaSchema env2 (conPago c x) = true <;> simp [hv2, hi]
        · have hs : saveExistente env1 store (conPago c x) = Except.error "ValidationError" := by
            simp [saveExistente, hv1]
          rw [hs]
          show (webpayReturn env2 store token_ws (Except.ok c)).store = store
          rw [webpayReturn_store env2 _ token_ws token c x ht hf]
          have hv2 : ¬ validaSchema env2 (conPago c x) = true := fun h =>
            hv1 (validaSchema_anti env1 env2 hZona hReloj _ h)
          simp [saveExistente, hv2]

/-- C4 at the scenario: the authorised callback for `t1` replayed one minute later. -/
theorem c4_retorno_idempotente_witness :
    ((entornoEn 5).offsetMin = (entornoEn 6).offsetMin ∧ (entornoEn 5).now ≤ (entornoEn 6).now)
    ∧ (webpayReturn (entornoEn 6)
        (webpayReturn (entornoEn 5) [reservaA] (some "t1") (Except.ok commitAutorizado)).store
        (some "t1") (Except.ok commitAutorizado)).store
      = (webpayReturn (entornoEn 5) [reservaA] (some "t1") (Except.ok commitAutorizado)).store :=
  ⟨by decide, c4_retorno_idempotente (entornoEn 5) (entornoEn 6) [reservaA] (some "t1")
    (Except.ok commitAutorizado) (by decide) (by decide)⟩

/-- After the update, the lookup by `_id` finds the updated document. -/
theorem findById_reemplazar (r : Reserva) (store : List Reserva)
    (h : ∃ d ∈ store, d._id = r._id) : findById (reemplazar r store) r._id = some r := by
  unfold findById
  induction store with
  | nil => simp at h
  | cons d ds ih =>
    simp only [reemplazar]
    by_cases hid : d._id = r._id
    · simp [hid, List.find?_cons]
    · have h' : ∃ d ∈ ds, d._id = r._id := by
        obtain ⟨e, he, hee⟩ := h
        rcases List.mem_cons.mp he with rfl | he
        · exact absurd hee hid
        · exact ⟨e, he, hee⟩
      simp [hid, List.find?_cons, ih h']

/-- The payment test, spelled out. -/
theorem pagoAutorizado_iff (c : CommitResponse) :
    pagoAutorizado c = true ↔ c.status = "AUTHORIZED" ∧ c.response_code = 0 := by
  simp [pagoAutorizado]

/-- What `webpayReturn` stores when `save()` accepts the document. If the reservation found
for the token passes the schema validators (`fecha` is not before today, `hora` matches the
pattern) and no other reservation on its slot is `confirmada`, the stored reservation
becomes `confirmada` if and only if `status = 'AUTHORIZED'` and `response_code = 0`, and
`cancelada` for every other response. -/
theorem webpayReturn_estado_si_save_acepta (env : Entorno) (store : List Reserva)
    (token_ws : Option String) (token : String) (c : CommitResponse) (reserva : Reserva)
    (hTok : presente token_ws = some token)
    (hFind : store.find? (fun d => d.webpayToken == some token) = some reserva)
    (hVal : validaSchema env reserva = true)
    (hIdx : ∀ d ∈ store, d._id ≠ reserva._id → d.estado = Estado.confirmada →
      mismoSlot d reserva = false) :
    ∃ r, findById (webpayReturn env store token_ws (Except.ok c)).store reserva._id = some r
      ∧ (r.estado = Estado.confirmada ↔ (c.status = "AUTHORIZED" ∧ c.response_code = 0))
      ∧ (¬ (c.status = "AUTHORIZED" ∧ c.response_code = 0) → r.estado = Estado.cancelada) := by
  have hmem : ∃ d ∈ store, d._id = (conPago c reserva)._id :=
    ⟨reserva, List.mem_of_find?_eq_some hFind, (conPago_id c reserva).symm⟩
  have hv : validaSchema env (conPago c reserva) = true := by
    unfold conPago; split <;> exact hVal
  have hi : indiceUnicoAcepta store (conPago c reserva) = true := by
    unfold indiceUnicoAcepta
    by_cases ha : pagoAutorizado c = true
    · simp only [conPago, ha, if_true, Bool.or_eq_true, Bool.not_eq_true', List.any_eq_false]
      right
      intro d hd
      by_cases hid : d._id = reserva._id
      · simp [hid]
      · by_cases he : d.estado = Estado.confirmada
        · have := hIdx d hd hid he
          simp only [mismoSlot, Bool.and_eq_false_iff] at this
          simp only [Bool.and_eq_true, not_and, Bool.not_eq_true]
          intro h1
          rcases this with (h | h) | h <;> simp_all
        · simp [he]
    · simp [conPago, ha, esViva]
  rw [webpayReturn_store env store token_ws token c reserva hTok hFind]
  have hs : saveExistente env store (conPago c reserva)
      = Except.ok (reemplazar (conPago c reserva) store) := by
    simp [saveExistente, hv, hi]
  rw [hs]
  refine ⟨conPago c reserva, ?_, ?_, ?_⟩
  · have := findById_reemplazar (conPago c reserva) store hmem
    rwa [conPago_id] at this
  · rw [← pagoAutorizado_iff]
    unfold conPago
    by_cases ha : pagoAutorizado c = true <;> simp [ha]
  · rw [← pagoAutorizado_iff]
    intro ha
    simp [conPago, ha]

/-- The rejected callback for `t1` on the collection that holds only `r1`, five minutes
after the booking. -/
theorem webpayReturn_estado_si_save_acepta_escenario :
    ∃ r, findById (webpayReturn (entornoEn 5) [reservaA] (some "t1")
        (Except.ok commitRechazado)).store reservaA._id = some r
      ∧ (r.estado = Estado.confirmada ↔
          (commitRechazado.status = "AUTHORIZED" ∧ commitRechazado.response_code = 0))
      ∧ (¬ (commitRechazado.status = "AUTHORIZED" ∧ commitRechazado.response_code = 0) →
          r.estado = Estado.cancelada) :=
  webpayReturn_estado_si_save_acepta (entornoEn 5) [reservaA] (some "t1") "t1" commitRechazado reservaA
    (by decide) (by decide) (by decide) (by decide)

/-- In the collection reached by `trazaDobleReserva`, `r2` is pending and is found by its
token `t2`, the commit response is `AUTHORIZED` with code 0, and `webpayReturn` leaves `r2`
pending, because `r1` is `confirmada` on the same slot and the unique index refuses the
update. -/
theorem webpayReturn_indice_rechaza_escenario :
    (ejecutar trazaDobleReserva).find? (fun d => d.webpayToken == some "t2") = some reservaB
    ∧ reservaB.estado = Estado.pendiente
    ∧ (commitAutorizado.status = "AUTHORIZED" ∧ commitAutorizado.response_code = 0)
    ∧ findById (webpayReturn (entornoEn 7) (ejecutar trazaDobleReserva) (some "t2")
        (Except.ok commitAutorizado)).store "r2" = some reservaB := by
  decide

/-- C5 (sole success predicate), evaluated. `u1` books Monday 09:00 at 23:56 of that Monday
and the callback of the gateway arrives at 00:02 of Tuesday with the payment authorised
(`status` 'AUTHORIZED', `response_code` 0). The reservation is found by its token and is
`pendiente` (it has not expired), `webpayReturn` takes the branch of the authorised payment,
and the `fecha` validator of the schema refuses the `save()`: the reservation stays
`pendiente` and the user is sent to the failure page. At 23:59 the same callback confirms
the reservation. -/
theorem c5_pago_autorizado_queda_pendiente :
    [reservaNoche].find? (fun d => d.webpayToken == some "t1") = some reservaNoche
    ∧ reservaNoche.estado = Estado.pendiente
    ∧ expirarTTL entornoPasadaMedianoche.now [reservaNoche] = [reservaNoche]
    ∧ (commitAutorizado.status = "AUTHORIZED" ∧ commitAutorizado.response_code = 0)
    ∧ webpayReturn entornoPasadaMedianoche [reservaNoche] (some "t1")
        (Except.ok commitAutorizado)
      = ⟨[reservaNoche], Respuesta.redirect urlPagoFallido⟩
    ∧ webpayReturn (entornoEn 5039) [reservaNoche] (some "t1") (Except.ok commitAutorizado)
      = ⟨[{ reservaNoche with estado := Estado.confirmada
                              datosPago := some (datosAprobado commitAutorizado) }],
          Respuesta.redirect (urlPagoExitoso "r1")⟩ := by
  decide

/-- A truthy optional string is the string itself. -/
theorem presente_eq_some (s : Option String) (t : String) (h : presente s = some t) :
    s = some t := by
  unfold presente at h
  cases s with
  | none => simp at h
  | some v =>
    by_cases hv : v = ""
    · simp [hv] at h
    · simp only [hv, if_false, Option.some.injEq] at h
      rw [h]

/-- C6 (commit-phase fail-safe). If the callback carries no token, or `tx.commit` throws, or
no reservation has `webpayToken` equal to the token, `webpayReturn` leaves the collection
exactly as it was and answers with the redirect to the failure page. -/
theorem c6_retorno_sin_mutacion (env : Entorno) (store : List Reserva)
    (token_ws : Option String) (commit : Except String CommitResponse)
    (h : presente token_ws = none ∨ (∃ e, commit = Except.error e) ∨
      ∀ d ∈ store, d.webpayToken ≠ token_ws) :
    webpayReturn env store token_ws commit = ⟨store, Respuesta.redirect urlPagoFallido⟩ := by
  apply webpayReturn_store_sin_reserva
  rcases h with h | h | h
  · exact Or.inl h
  · exact Or.inr (Or.inl h)
  · refine Or.inr (Or.inr (fun token ht => ?_))
    have hs := presente_eq_some token_ws token ht
    rw [List.find?_eq_none]
    intro d hd
    have := h d hd
    rw [hs] at this
    simpa using this

/-- C6 at the scenario: a callback with a token that no reservation carries. -/
theorem c6_retorno_sin_mutacion_witness :
    (∀ d ∈ [reservaA], d.webpayToken ≠ some "otro")
    ∧ webpayReturn (entornoEn 5) [reservaA] (some "otro") (Except.ok commitAutorizado)
      = ⟨[reservaA], Respuesta.redirect urlPagoFallido⟩ :=
  ⟨by decide, c6_retorno_sin_mutacion (entornoEn 5) [reservaA] (some "otro")
    (Except.ok commitAutorizado) (Or.inr (Or.inr (by decide)))⟩

/-- Counting a year from 1900 does not move a date back. -/
theorem diasDesdeCivil_siglo (y m d : Int) :
    diasDesdeCivil y m d ≤ diasDesdeCivil (1900 + y) m d := by
  unfold diasDesdeCivil
  simp only
  split_ifs <;> omega

/-- In a zone less than a day ahead of UTC, a date that `validarFechaNoVencida` accepts is
stored by `crearReserva` as an instant not before `hoy`. -/
theorem hoy_le_nuevaDateLocal (env : Entorno) (fecha : FechaStr)
    (hZona : env.offsetMin < 1440)
    (hFecha : validarFechaNoVencida env fecha = true) :
    hoy env ≤ nuevaDateLocal env fecha := by
  unfold validarFechaNoVencida nuevaDateISO at hFecha
  split at hFecha
  · rename_i t ht
    split at ht
    · simp only [Option.some.injEq] at ht
      subst ht
      simp only [decide_eq_true_eq] at hFecha
      refine le_trans hFecha ?_
      unfold nuevaDateLocal
      simp only
      have hD : diasDesdeCivil (↑fecha.year) (↑fecha.month) 1
          ≤ diasDesdeCivil (if fecha.year ≤ 99 then 1900 + (fecha.year : Int) else fecha.year)
              (↑fecha.month) 1 := by
        split_ifs
        · exact diasDesdeCivil_siglo _ _ _
        · exact le_refl _
      unfold setHoursCero msPorDia msPorMinuto
      generalize diasDesdeCivil (↑fecha.year) (↑fecha.month) 1 = D at hD ⊢
      generalize diasDesdeCivil (if fecha.year ≤ 99 then 1900 + (fecha.year : Int) else fecha.year)
              (↑fecha.month) 1 = E at hD ⊢
      omega
    · simp at ht
  · simp at hFecha

/-- Deleting the document just appended gives back the collection. -/
theorem findByIdAndDelete_append (r : Reserva) (store : List Reserva)
    (h : ∀ d ∈ store, d._id ≠ r._id) : findByIdAndDelete r._id (store ++ [r]) = store := by
  induction store with
  | nil => simp [findByIdAndDelete]
  | cons d ds ih =>
    have hd : d._id ≠ r._id := h d (List.mem_cons_self _ _)
    have ih' := ih (fun e he => h e (List.mem_cons_of_mem _ he))
    simp [findByIdAndDelete, hd, ih']

/-- With a failing gateway `crearReserva` leaves the collection as it was, whatever the
request. -/
theorem crearReserva_store_si_webpay_falla (env : Entorno) (canchas : List Cancha)
    (store : List Reserva) (usuario : Id) (body : SolicitudReserva) (nuevoId : Id) (e : String) :
    (crearReserva env canchas store usuario body nuevoId (Except.error e)).store = store := by
  have hsave : ∀ (r : Reserva) (store1 : List Reserva),
      saveNueva env store r = Except.ok store1 → findByIdAndDelete r._id store1 = store := by
    intro r store1 hs
    unfold saveNueva at hs
    split at hs
    · simp at hs
    · split at hs
      · simp at hs
      · split at hs
        · simp at hs
        · rename_i hfresh _
          simp only [Except.ok.injEq] at hs
          subst hs
          apply findByIdAndDelete_append
          intro d hd
          simp only [Bool.not_eq_true, List.any_eq_false, beq_iff_eq] at hfresh
          exact hfresh d hd
  unfold crearReserva
  dsimp only
  repeat' split
  all_goals first
    | rfl
    | (rename_i hs; exact hsave _ _ hs)

/-- C7 (compensating delete). For every collection and every valid request on a free slot
(in a zone less than a day ahead of UTC and with an `_id` not yet in the collection), if
`tx.create` fails, `crearReserva` has called the gateway for the new reservation, the
collection it leaves is the one before the call, and the response is 500 'Error al
procesar el pago con Webpay.'. -/
theorem c7_borrado_compensatorio (env : Entorno) (canchas : List Cancha) (store : List Reserva)
    (usuario nuevoId canchaId : Id) (fecha : FechaStr) (hora : String) (cancha : Cancha)
    (e : String)
    (hZona : env.offsetMin < 1440)
    (hId : canchaId ≠ "")
    (hHora : validarFormatoHora hora = true)
    (hFecha : validarFechaNoVencida env fecha = true)
    (hCancha : findCanchaById canchas canchaId = some cancha)
    (hActiva : cancha.activa = true)
    (hLibre : ∀ r ∈ store, ¬ (r.canchaId = canchaId ∧ r.fecha = nuevaDateLocal env fecha
      ∧ r.hora = hora ∧ (r.estado = Estado.pendiente ∨ r.estado = Estado.confirmada)))
    (hNuevo : ∀ r ∈ store, r._id ≠ nuevoId) :
    crearReserva env canchas store usuario ⟨some canchaId, some fecha, some hora⟩ nuevoId
        (Except.error e)
      = ⟨store, Respuesta.error 500 "Error al procesar el pago con Webpay." (some e),
          some { buyOrder := String.mk (nuevoId.data.take 26), sessionId := "SESSION-" ++ nuevoId
                 amount := cancha.precio, returnUrl := returnUrl }⟩ := by
  have hnone : store.find? (fun d => d.canchaId == canchaId && d.fecha == nuevaDateLocal env fecha
      && d.hora == hora && esViva d.estado) = none := by
    rw [List.find?_eq_none]
    intro d hd hp
    apply hLibre d hd
    simp only [Bool.and_eq_true, beq_iff_eq, esViva, Bool.or_eq_true] at hp
    obtain ⟨⟨⟨h1, h2⟩, h3⟩, h4⟩ := hp
    exact ⟨h1, h2, h3, h4⟩
  have hhoy := hoy_le_nuevaDateLocal env fecha hZona hFecha
  have hany : store.any (fun d => d._id == nuevoId) = false := by
    rw [List.any_eq_false]
    intro d hd
    simpa using hNuevo d hd
  have hidx : ∀ r : Reserva, r.canchaId = canchaId → r.fecha = nuevaDateLocal env fecha →
      r.hora = hora → r.estado = Estado.pendiente → indiceUnicoAcepta store r = true := by
    intro r h1 h2 h3 h4
    unfold indiceUnicoAcepta
    simp only [Bool.or_eq_true, Bool.not_eq_true', List.any_eq_false]
    right
    intro d hd hp
    apply hLibre d hd
    simp only [Bool.and_eq_true, beq_iff_eq, h1, h2, h3, h4] at hp
    exact ⟨hp.1.1.1.2, hp.1.1.2, hp.1.2, Or.inl hp.2⟩
  have hsave : ∀ r : Reserva, r.canchaId = canchaId → r.fecha = nuevaDateLocal env fecha →
      r.hora = hora → r.estado = Estado.pendiente → r._id = nuevoId →
      saveNueva env store r = Except.ok (store ++ [r]) := by
    intro r h1 h2 h3 h4 h5
    unfold saveNueva
    simp [validaSchema, h2, h3, h5, hhoy, hHora, hany, hidx r h1 h2 h3 h4]
  simp only [crearReserva, presente_de_id canchaId hId, presente_de_hora hora hHora, hHora,
    hFecha, hCancha, hActiva, hnone, llamadaCreate,
    hsave ⟨nuevoId, usuario, canchaId, nuevaDateLocal env fecha, hora, Estado.pendiente,
      cancha.precio, none, none, env.now + graciaMs⟩ rfl rfl rfl rfl rfl]
  simp only [Bool.not_true, Bool.false_eq_true, if_false, ResultadoCrear.mk.injEq, and_true]
  exact findByIdAndDelete_append ⟨nuevoId, usuario, canchaId, nuevaDateLocal env fecha, hora,
    Estado.pendiente, cancha.precio, none, none, env.now + graciaMs⟩ store
    (fun d hd => hNuevo d hd)

/-- C7 at the scenario: `u2` asks for Monday 10:00 while `r1` holds 09:00, and the gateway
is down. -/
theorem c7_borrado_compensatorio_witness :
    crearReserva (entornoEn 2) [canchaV] [reservaA] "u2"
        ⟨some "V", some ⟨2099, 1, 5⟩, some "10:00"⟩ "r2" (Except.error "timeout")
      = ⟨[reservaA], Respuesta.error 500 "Error al procesar el pago con Webpay." (some "timeout"),
          some { buyOrder := String.mk ("r2".data.take 26), sessionId := "SESSION-" ++ "r2"
                 amount := canchaV.precio, returnUrl := returnUrl }⟩ :=
  c7_borrado_compensatorio (entornoEn 2) [canchaV] [reservaA] "u2" "r2" "V" ⟨2099, 1, 5⟩ "10:00"
    canchaV "timeout" (by decide) (by decide) (by decide) (by decide) (by decide) (by decide)
    (by decide) (by decide)

/-- C8 (validation before mutation). Whenever `crearReserva` rejects a request because
`canchaId`, `fecha` or `hora` is missing, because `hora` fails `validarFormatoHora`, because
`validarFechaNoVencida` refuses the date, or because the venue does not exist or is not
active, the collection is unchanged and `tx.create` is not called; the answer is an
error. -/
theorem c8_validacion_antes_de_mutar (env : Entorno) (canchas : List Cancha)
    (store : List Reserva) (usuario : Id) (body : SolicitudReserva) (nuevoId : Id)
    (webpay : Except String CreateResponse)
    (h : presente body.canchaId = none ∨ body.fecha = none ∨ presente body.hora = none
      ∨ (∃ hora, presente body.hora = some hora ∧ validarFormatoHora hora = false)
      ∨ (∃ fecha, body.fecha = some fecha ∧ validarFechaNoVencida env fecha = false)
      ∨ (∃ id, presente body.canchaId = some id ∧
          ∀ cancha, findCanchaById canchas id = some cancha → cancha.activa = false)) :
    (crearReserva env canchas store usuario body nuevoId webpay).store = store
    ∧ (crearReserva env canchas store usuario body nuevoId webpay).llamada = none
    ∧ ∃ status mensaje detalle,
        (crearReserva env canchas store usuario body nuevoId webpay).respuesta
          = Respuesta.error status mensaje detalle := by
  unfold crearReserva
  dsimp only
  split
  · rename_i canchaId fecha hora h1 h2 h3
    have hh : (validarFormatoHora hora = false) ∨ (validarFechaNoVencida env fecha = false)
        ∨ (∀ cancha, findCanchaById canchas canchaId = some cancha → cancha.activa = false) := by
      rcases h with h | h | h | ⟨x, hx, h⟩ | ⟨x, hx, h⟩ | ⟨x, hx, h⟩
      · rw [h1] at h; cases h
      · rw [h2] at h; cases h
      · rw [h3] at h; cases h
      · rw [h3] at hx; cases hx; exact Or.inl h
      · rw [h2] at hx; cases hx; exact Or.inr (Or.inl h)
      · rw [h1] at hx; cases hx; exact Or.inr (Or.inr h)
    by_cases hv : validarFormatoHora hora = true
    · by_cases hf : validarFechaNoVencida env fecha = true
      · have hc : ∀ cancha, findCanchaById canchas canchaId = some cancha →
            cancha.activa = false := by
          rcases hh with hh | hh | hh
          · rw [hv] at hh; cases hh
          · rw [hf] at hh; cases hh
          · exact hh
        cases hfc : findCanchaById canchas canchaId with
        | none => simp [hv, hf]
        | some cancha => simp [hv, hf, hc cancha hfc]
      · simp [hv, hf]
    · simp [hv]
  · exact ⟨rfl, rfl, 400, _, _, rfl⟩

/-- C8 at the scenario: a request for an hour that is not an hour string. -/
theorem c8_validacion_antes_de_mutar_witness :
    (crearReserva (entornoEn 2) [canchaV] [reservaA] "u2"
        ⟨some "V", some ⟨2099, 1, 5⟩, some "25:00"⟩ "r2"
        (Except.ok ⟨"t2", "https://webpay.example/pay"⟩)).store = [reservaA]
    ∧ (crearReserva (entornoEn 2) [canchaV] [reservaA] "u2"
        ⟨some "V", some ⟨2099, 1, 5⟩, some "25:00"⟩ "r2"
        (Except.ok ⟨"t2", "https://webpay.example/pay"⟩)).llamada = none
    ∧ ∃ status mensaje detalle,
        (crearReserva (entornoEn 2) [canchaV] [reservaA] "u2"
          ⟨some "V", some ⟨2099, 1, 5⟩, some "25:00"⟩ "r2"
          (Except.ok ⟨"t2", "https://webpay.example/pay"⟩)).respuesta
          = Respuesta.error status mensaje detalle :=
  c8_validacion_antes_de_mutar (entornoEn 2) [canchaV] [reservaA] "u2"
    ⟨some "V", some ⟨2099, 1, 5⟩, some "25:00"⟩ "r2"
    (Except.ok ⟨"t2", "https://webpay.example/pay"⟩)
    (Or.inr (Or.inr (Or.inr (Or.inl ⟨"25:00", by decide, by decide⟩))))

/-- What the inner loop adds: the slots `h, h+1, ...` of the window that are not reserved. -/
theorem mem_generarSlots (R : List String) (m : Nat) (slot : String) :
    ∀ (n h : Nat) (acc : List String),
      slot ∈ generarSlots R m n h acc ↔
        slot ∈ acc ∨ (slot ∉ R ∧ ∃ k, k < n ∧ slot = horaSlot (h + k) m) := by
  intro n
  induction n with
  | zero => intro h acc; simp [generarSlots]
  | succ n ih =>
    intro h acc
    simp only [generarSlots]
    rw [ih]
    constructor
    · rintro (hacc | ⟨hR, k, hk, hs⟩)
      · by_cases hc : horaSlot h m ∈ R
        · simp [hc] at hacc
          exact Or.inl hacc
        · simp [hc] at hacc
          rcases hacc with hacc | hacc
          · exact Or.inl hacc
          · exact Or.inr ⟨hacc ▸ hc, 0, Nat.succ_pos n, by simpa using hacc⟩
      · exact Or.inr ⟨hR, k + 1, Nat.succ_lt_succ hk, by rw [hs]; congr 1; omega⟩
    · rintro (hacc | ⟨hR, k, hk, hs⟩)
      · left
        by_cases hc : horaSlot h m ∈ R
        · simpa [hc] using hacc
        · simp [hc, hacc]
      · cases k with
        | zero =>
          left
          have hc : horaSlot h m ∉ R := by
            have : slot = horaSlot h m := by simpa using hs
            exact this ▸ hR
          have : slot = horaSlot h m := by simpa using hs
          simp [hc, this]
        | succ k =>
          right
          exact ⟨hR, k, Nat.lt_of_succ_lt_succ hk, by rw [hs]; congr 1; omega⟩

/-- One window: what is added is what the window enumerates, minus the reserved hours. -/
theorem mem_slotsDeHorario (R : List String) (acc : List String) (horario : Horario)
    (slot : String) :
    slot ∈ slotsDeHorario R acc horario ↔
      slot ∈ acc ∨ (slot ∉ R ∧ slot ∈ slotsDeHorario [] [] horario) := by
  cases h1 : partes horario.horaInicio <;> cases h2 : partes horario.horaFin <;>
    simp [slotsDeHorario, h1, h2, mem_generarSlots]

/-- Both loops: the result holds the enumerated slots that are not reserved. -/
theorem mem_foldl_slotsDeHorario (R : List String) (slot : String) :
    ∀ (hs : List Horario) (acc : List String),
      slot ∈ hs.foldl (slotsDeHorario R) acc ↔
        slot ∈ acc ∨ (slot ∉ R ∧ ∃ horario ∈ hs, slot ∈ slotsDeHorario [] [] horario) := by
  intro hs
  induction hs with
  | nil => intro acc; simp
  | cons horario hs ih =>
    intro acc
    simp only [List.foldl_cons, ih, mem_slotsDeHorario R acc horario, List.mem_cons,
      exists_eq_or_imp]
    tauto

/-- Step 7 yields exactly the enumerated slots whose hour is not reserved. -/
theorem mem_generarHorarios (R : List String) (hs : List Horario) (slot : String) :
    slot ∈ generarHorarios R hs ↔ slot ∈ slotsEnumerados hs ∧ slot ∉ R := by
  unfold slotsEnumerados generarHorarios
  rw [mem_foldl_slotsDeHorario R slot hs [], mem_foldl_slotsDeHorario [] slot hs []]
  simp only [List.not_mem_nil, false_or, not_false_eq_true, true_and]
  tauto

/-- Insertion keeps the elements. -/
theorem mem_insertarOrdenado (x y : String) (l : List String) :
    y ∈ insertarOrdenado x l ↔ y = x ∨ y ∈ l := by
  induction l with
  | nil => simp [insertarOrdenado]
  | cons z zs ih =>
    simp only [insertarOrdenado]
    split
    · simp
    · simp only [List.mem_cons, ih]
      tauto

/-- Sorting keeps the elements. -/
theorem mem_ordenar (y : String) (l : List String) : y ∈ ordenar l ↔ y ∈ l := by
  induction l with
  | nil => simp [ordenar]
  | cons x xs ih => simp [ordenar, mem_insertarOrdenado, ih]

/-- The weekday index selects an element of `diasSemana`. -/
theorem diasSemana_getDay (env : Entorno) (t : Int) :
    ∃ dia, diasSemana.get? (getDay env t) = some dia := by
  have h : getDay env t < 7 := by
    unfold getDay
    omega
  generalize getDay env t = n at h
  interval_cases n <;> exact ⟨_, rfl⟩

/-- What `verDisponibilidad` lists, in terms of its own loop. For an active venue and a date
that is not past, with `fechaBusqueda` the `Date` that the handler derives from the query
and `dia` the weekday it derives from `fechaBusqueda`, a slot is in `horariosDisponibles` if
and only if the loop over the windows of `dia` produces it and no reservation of the venue
with `fecha = fechaBusqueda` in estado `pendiente` or `confirmada` has that slot as its
`hora` (a `cancelada` reservation removes nothing). -/
theorem verDisponibilidad_lista_segun_bucle (env : Entorno) (canchas : List Cancha)
    (store : List Reserva) (id : Id) (fecha : FechaStr) (cancha : Cancha) (t : Int)
    (hCancha : findCanchaById canchas id = some cancha) (hActiva : cancha.activa = true)
    (hFecha : nuevaDateISO fecha = some t) (hNoPasada : hoy env ≤ setHoursCero env t) :
    ∃ dia mensaje d horariosDisponibles,
      diasSemana.get? (getDay env (setHoursCero env t)) = some dia
      ∧ verDisponibilidad env canchas store id (some fecha)
          = Respuesta.disponibilidad mensaje d horariosDisponibles
      ∧ ∀ slot, slot ∈ horariosDisponibles ↔
          (slot ∈ slotsEnumerados (cancha.horarios.filter (fun h => h.dia == dia))
            ∧ ∀ r ∈ store, r.canchaId = id → r.fecha = setHoursCero env t →
                (r.estado = Estado.pendiente ∨ r.estado = Estado.confirmada) → r.hora ≠ slot) := by
  obtain ⟨dia, hdia⟩ := diasSemana_getDay env (setHoursCero env t)
  have hnp : ¬ setHoursCero env t < hoy env := not_lt.mpr hNoPasada
  unfold verDisponibilidad
  simp only [hCancha, hActiva, hFecha, Option.map_some', hnp, hdia, Bool.not_true,
    Bool.false_eq_true, if_false]
  by_cases hvacio : (cancha.horarios.filter (fun h => h.dia == dia)).length = 0
  · have hnil : cancha.horarios.filter (fun h => h.dia == dia) = [] :=
      List.length_eq_zero.mp hvacio
    simp only [hnil, List.length_nil, beq_self_eq_true, if_true]
    refine ⟨dia, _, _, _, rfl, rfl, ?_⟩
    intro slot
    simp [slotsEnumerados, generarHorarios, hnil]
  · have hb : ((cancha.horarios.filter (fun h => h.dia == dia)).length == 0) = false := by
      simpa using hvacio
    simp only [hb, Bool.false_eq_true, if_false]
    refine ⟨dia, _, _, _, rfl, rfl, ?_⟩
    intro slot
    rw [mem_ordenar, mem_generarHorarios]
    apply and_congr_right
    intro _
    simp only [List.mem_map, List.mem_filter, Bool.and_eq_true, beq_iff_eq, esViva,
      Bool.or_eq_true, not_exists, not_and, and_imp]

/-- With `r1` pending on Monday 09:00, the availability of `V` for 2099-01-05 is answered
and obeys the characterisation. -/
theorem verDisponibilidad_lista_segun_bucle_escenario :
    ∃ dia mensaje d horariosDisponibles,
      diasSemana.get? (getDay (entornoEn 2) (setHoursCero (entornoEn 2) 4071254400000)) = some dia
      ∧ verDisponibilidad (entornoEn 2) [canchaV] [reservaA] "V" (some ⟨2099, 1, 5⟩)
          = Respuesta.disponibilidad mensaje d horariosDisponibles
      ∧ ∀ slot, slot ∈ horariosDisponibles ↔
          (slot ∈ slotsEnumerados (canchaV.horarios.filter (fun h => h.dia == dia))
            ∧ ∀ r ∈ [reservaA], r.canchaId = "V" →
                r.fecha = setHoursCero (entornoEn 2) 4071254400000 →
                (r.estado = Estado.pendiente ∨ r.estado = Estado.confirmada) → r.hora ≠ slot) :=
  verDisponibilidad_lista_segun_bucle (entornoEn 2) [canchaV] [reservaA] "V" ⟨2099, 1, 5⟩ canchaV
    4071254400000 (by decide) (by decide) (by decide) (by decide)

/-- The scenario evaluated: 09:00 is held by `r1`, 10:00 is offered. -/
theorem verDisponibilidad_escenario :
    verDisponibilidad (entornoEn 2) [canchaV] [reservaA] "V" (some ⟨2099, 1, 5⟩)
      = Respuesta.disponibilidad none (some Dia.Lunes) ["10:00"]
    ∧ verDisponibilidad (entornoEn 2) [canchaV] [{ reservaA with estado := Estado.cancelada }]
        "V" (some ⟨2099, 1, 5⟩)
      = Respuesta.disponibilidad none (some Dia.Lunes) ["09:00", "10:00"] := by
  decide

/-- C10 (slots stay inside their window). For the window 09:30 to 11:00 (`horaInicio <
horaFin`) the loop of `verDisponibilidad` enumerates 09:30 and 10:30, and the handler offers
both; the slot 10:30 ends at 11:30, half an hour after `horaFin`: the loop compares the
hours only and never reads the minutes of `horaFin`. -/
theorem c10_slot_termina_despues_de_horaFin :
    slotsEnumerados [⟨Dia.Lunes, "09:30", "11:00"⟩] = ["09:30", "10:30"]
    ∧ verDisponibilidad (entornoEn 2) [canchaMediaHora] [] "W" (some ⟨2099, 1, 5⟩)
        = Respuesta.disponibilidad none (some Dia.Lunes) ["09:30", "10:30"]
    ∧ minutosDe "09:30" = some 570
    ∧ minutosDe "10:30" = some 630
    ∧ minutosDe "11:00" = some 660
    ∧ ¬ (630 + 60 ≤ 660) := by
  decide

/-- The day number is linear in the day of the month. -/
theorem diasDesdeCivil_dia (y m d : Int) :
    diasDesdeCivil y m d = diasDesdeCivil y m 1 + (d - 1) := by
  unfold diasDesdeCivil
  simp only
  split_ifs <;> omega

/-- The instant `new Date(fecha)` of a well-formed date string. -/
theorem nuevaDateISO_eq (f : FechaStr)
    (h : 1 ≤ f.month ∧ f.month ≤ 12 ∧ 1 ≤ f.day ∧ f.day ≤ 31) :
    nuevaDateISO f = some (diaCivil f * msPorDia) := by
  unfold nuevaDateISO diaCivil
  rw [if_pos h, diasDesdeCivil_dia (f.year : Int) f.month f.day]

/-- In a zone at or ahead of UTC (by less than a day) and for a year of 100 or later,
`verDisponibilidad` and `crearReserva` derive the same instant from a date string, and its
weekday is the weekday of the calendar date. -/
theorem fechas_coinciden_al_este (env : Entorno) (f : FechaStr)
    (hZona : 0 ≤ env.offsetMin ∧ env.offsetMin < 1440) (hYear : 100 ≤ f.year)
    (h : 1 ≤ f.month ∧ f.month ≤ 12 ∧ 1 ≤ f.day ∧ f.day ≤ 31) :
    (nuevaDateISO f).map (setHoursCero env) = some (nuevaDateLocal env f)
    ∧ getDay env (nuevaDateLocal env f) = diaSemanaCivil f := by
  have hy : ¬ f.year ≤ 99 := by omega
  rw [nuevaDateISO_eq f h]
  unfold nuevaDateLocal diaSemanaCivil getDay
  simp only [hy, if_false, Option.map_some', Option.some.injEq]
  rw [← diasDesdeCivil_dia (f.year : Int) f.month f.day]
  unfold diaCivil setHoursCero msPorDia msPorMinuto
  generalize diasDesdeCivil (↑f.year) (↑f.month) (↑f.day) = D
  constructor
  · omega
  · congr 1
    omega

/-- In a zone behind UTC (by at most a day), `verDisponibilidad` derives from a date string
the local midnight of the day before the one `crearReserva` stores, and the weekday of
that day before. -/
theorem fechas_difieren_al_oeste (env : Entorno) (f : FechaStr)
    (hZona : -1440 ≤ env.offsetMin ∧ env.offsetMin < 0) (hYear : 100 ≤ f.year)
    (h : 1 ≤ f.month ∧ f.month ≤ 12 ∧ 1 ≤ f.day ∧ f.day ≤ 31) :
    (nuevaDateISO f).map (setHoursCero env) = some (nuevaDateLocal env f - msPorDia)
    ∧ getDay env (nuevaDateLocal env f - msPorDia) = ((diaCivil f - 1 + 4) % 7).toNat := by
  have hy : ¬ f.year ≤ 99 := by omega
  rw [nuevaDateISO_eq f h]
  unfold nuevaDateLocal getDay
  simp only [hy, if_false, Option.map_some', Option.some.injEq]
  rw [← diasDesdeCivil_dia (f.year : Int) f.month f.day]
  unfold diaCivil setHoursCero msPorDia msPorMinuto
  generalize diasDesdeCivil (↑f.year) (↑f.month) (↑f.day) = D
  constructor
  · omega
  · congr 1
    omega

/-- C11 (booking and availability agree on the calendar day), evaluated in a deployment at
UTC-3. For the string '2099-01-05' `crearReserva` stores the local midnight of 5 January,
`verDisponibilidad` queries the local midnight of 4 January and derives `Domingo`, while
the calendar date is a Monday. After the booking of (V, '2099-01-05', '09:00'),
`verDisponibilidad(V, '2099-01-05')` lists neither '10:00' nor '09:00'; the booking shows
up in the answer for '2099-01-06'. -/
theorem c11_fecha_distinta_en_utc_menos_3 :
    (crearReserva (entornoChile 0) [canchaV] [] "u1" solicitudLunes9 "r1"
        (Except.ok ⟨"t1", "https://webpay.example/pay"⟩)).store = [reservaChile]
    ∧ nuevaDateLocal (entornoChile 1) ⟨2099, 1, 5⟩ = 4071265200000
    ∧ (nuevaDateISO ⟨2099, 1, 5⟩).map (setHoursCero (entornoChile 1)) = some 4071178800000
    ∧ diasSemana.get? (getDay (entornoChile 1) 4071178800000) = some Dia.Domingo
    ∧ diasSemana.get? (diaSemanaCivil ⟨2099, 1, 5⟩) = some Dia.Lunes
    ∧ verDisponibilidad (entornoChile 1) [canchaV] [reservaChile] "V" (some ⟨2099, 1, 5⟩)
        = Respuesta.disponibilidad (some "No hay horarios disponibles para Domingo") none []
    ∧ verDisponibilidad (entornoChile 1) [canchaV] [reservaChile] "V" (some ⟨2099, 1, 6⟩)
        = Respuesta.disponibilidad none (some Dia.Lunes) ["10:00"] := by
  decide

/-- What `validarFechaNoVencida` decides, by zone: at or ahead of UTC it accepts today and
later dates; behind UTC it accepts only dates after today. -/
theorem validarFechaNoVencida_iff (env : Entorno) (f : FechaStr)
    (hZona : -1440 ≤ env.offsetMin ∧ env.offsetMin < 1440)
    (h : 1 ≤ f.month ∧ f.month ≤ 12 ∧ 1 ≤ f.day ∧ f.day ≤ 31) :
    validarFechaNoVencida env f = true ↔
      (if 0 ≤ env.offsetMin then diaLocal env env.now ≤ diaCivil f
       else diaLocal env env.now < diaCivil f) := by
  unfold validarFechaNoVencida
  rw [nuevaDateISO_eq f h]
  simp only [decide_eq_true_eq]
  unfold hoy setHoursCero diaLocal msPorDia msPorMinuto
  generalize diaCivil f = D
  split_ifs <;> omega

/-- C12 (`validarFechaNoVencida` accepts today), evaluated in a deployment at UTC-3 on
Monday 2099-01-05 at 09:00 local time: the date string '2099-01-05' names today's local
calendar date and `validarFechaNoVencida` returns false, so `crearReserva` answers 400 'No
se pueden hacer reservas en fechas pasadas.'; '2099-01-06' is accepted. -/
theorem c12_hoy_rechazado_en_utc_menos_3 :
    diaLocal entornoChileLunes entornoChileLunes.now = diaCivil ⟨2099, 1, 5⟩
    ∧ validarFechaNoVencida entornoChileLunes ⟨2099, 1, 5⟩ = false
    ∧ validarFechaNoVencida entornoChileLunes ⟨2099, 1, 6⟩ = true
    ∧ crearReserva entornoChileLunes [canchaV] [] "u1" solicitudLunes9 "r1"
        (Except.ok ⟨"t1", "https://webpay.example/pay"⟩)
      = ⟨[], Respuesta.error 400 "No se pueden hacer reservas en fechas pasadas." none, none⟩ := by
  decide

/-- Updating the document just appended. -/
theorem reemplazar_append (r r0 : Reserva) (store : List Reserva)
    (h : ∀ d ∈ store, d._id ≠ r._id) (h0 : r0._id = r._id) :
    reemplazar r (store ++ [r0]) = store ++ [r] := by
  induction store with
  | nil => simp [reemplazar, h0]
  | cons d ds ih =>
    have hd : d._id ≠ r._id := h d (List.mem_cons_self _ _)
    have ih' := ih (fun e he => h e (List.mem_cons_of_mem _ he))
    simp [reemplazar, hd, ih']

/-- The lookup by `_id` of the document just appended. -/
theorem findById_append (r : Reserva) (store : List Reserva)
    (h : ∀ d ∈ store, d._id ≠ r._id) : findById (store ++ [r]) r._id = some r := by
  unfold findById
  induction store with
  | nil => simp
  | cons d ds ih =>
    have hd : d._id ≠ r._id := h d (List.mem_cons_self _ _)
    have ih' := ih (fun e he => h e (List.mem_cons_of_mem _ he))
    simp [List.find?_cons, hd, ih']

/-- The accepted request: a valid request on a free slot, with a fresh `_id`, in a zone less
than a day ahead of UTC, and a gateway that answers. `crearReserva` appends the pending
reservation with the token and answers 201. -/
theorem crearReserva_exito (env : Entorno) (canchas : List Cancha) (store : List Reserva)
    (usuario nuevoId canchaId : Id) (fecha : FechaStr) (hora : String) (cancha : Cancha)
    (cr : CreateResponse)
    (hZona : env.offsetMin < 1440)
    (hId : canchaId ≠ "")
    (hHora : validarFormatoHora hora = true)
    (hFecha : validarFechaNoVencida env fecha = true)
    (hCancha : findCanchaById canchas canchaId = some cancha)
    (hActiva : cancha.activa = true)
    (hLibre : ∀ r ∈ store, ¬ (r.canchaId = canchaId ∧ r.fecha = nuevaDateLocal env fecha
      ∧ r.hora = hora ∧ (r.estado = Estado.pendiente ∨ r.estado = Estado.confirmada)))
    (hNuevo : ∀ r ∈ store, r._id ≠ nuevoId) :
    crearReserva env canchas store usuario ⟨some canchaId, some fecha, some hora⟩ nuevoId
        (Except.ok cr)
      = ⟨store ++ [⟨nuevoId, usuario, canchaId, nuevaDateLocal env fecha, hora,
            Estado.pendiente, cancha.precio, some cr.token, none, env.now + graciaMs⟩],
          Respuesta.creada ⟨nuevoId, usuario, canchaId, nuevaDateLocal env fecha, hora,
            Estado.pendiente, cancha.precio, some cr.token, none, env.now + graciaMs⟩
            cancha.nombre (cr.url ++ "?token_ws=" ++ cr.token) cr.token,
          some { buyOrder := String.mk (nuevoId.data.take 26), sessionId := "SESSION-" ++ nuevoId
                 amount := cancha.precio, returnUrl := returnUrl }⟩ := by
  have hnone : store.find? (fun d => d.canchaId == canchaId && d.fecha == nuevaDateLocal env fecha
      && d.hora == hora && esViva d.estado) = none := by
    rw [List.find?_eq_none]
    intro d hd hp
    apply hLibre d hd
    simp only [Bool.and_eq_true, beq_iff_eq, esViva, Bool.or_eq_true] at hp
    obtain ⟨⟨⟨h1, h2⟩, h3⟩, h4⟩ := hp
    exact ⟨h1, h2, h3, h4⟩
  have hhoy := hoy_le_nuevaDateLocal env fecha hZona hFecha
  have hany : store.any (fun d => d._id == nuevoId) = false := by
    rw [List.any_eq_false]
    intro d hd
    simpa using hNuevo d hd
  have hidx : ∀ r : Reserva, r.canchaId = canchaId → r.fecha = nuevaDateLocal env fecha →
      r.hora = hora → r.estado = Estado.pendiente → indiceUnicoAcepta store r = true := by
    intro r h1 h2 h3 h4
    unfold indiceUnicoAcepta
    simp only [Bool.or_eq_true, Bool.not_eq_true', List.any_eq_false]
    right
    intro d hd hp
    apply hLibre d hd
    simp only [Bool.and_eq_true, beq_iff_eq, h1, h2, h3, h4] at hp
    exact ⟨hp.1.1.1.2, hp.1.1.2, hp.1.2, Or.inl hp.2⟩
  have hsave : ∀ r : Reserva, r.canchaId = canchaId → r.fecha = nuevaDateLocal env fecha →
      r.hora = hora → r.estado = Estado.pendiente → r._id = nuevoId →
      saveNueva env store r = Except.ok (store ++ [r]) := by
    intro r h1 h2 h3 h4 h5
    unfold saveNueva
    simp [validaSchema, h2, h3, h5, hhoy, hHora, hany, hidx r h1 h2 h3 h4]
  have hsave2 : ∀ r r0 : Reserva, r.canchaId = canchaId → r.fecha = nuevaDateLocal env fecha →
      r.hora = hora → r.estado = Estado.pendiente → r._id = nuevoId → r0._id = nuevoId →
      saveExistente env (store ++ [r0]) r = Except.ok (store ++ [r]) := by
    intro r r0 h1 h2 h3 h4 h5 h6
    have hi : indiceUnicoAcepta (store ++ [r0]) r = true := by
      have := hidx r h1 h2 h3 h4
      unfold indiceUnicoAcepta at this ⊢
      simp only [Bool.or_eq_true, Bool.not_eq_true', List.any_eq_false, List.any_append,
        Bool.or_eq_false_iff, List.any_cons, List.any_nil, Bool.or_false] at this ⊢
      rcases this with this | this
      · exact Or.inl this
      · exact Or.inr ⟨this, by simp [h5, h6]⟩
    unfold saveExistente
    simp only [validaSchema, h2, h3, hhoy, hHora, hi, decide_True, Bool.and_self, Bool.not_true,
      Bool.false_eq_true, if_false]
    rw [reemplazar_append r r0 store (fun d hd => by rw [h5]; exact hNuevo d hd) (by rw [h5, h6])]
  simp only [crearReserva, presente_de_id canchaId hId, presente_de_hora hora hHora, hHora,
    hFecha, hCancha, hActiva, hnone, llamadaCreate,
    hsave ⟨nuevoId, usuario, canchaId, nuevaDateLocal env fecha, hora, Estado.pendiente,
      cancha.precio, none, none, env.now + graciaMs⟩ rfl rfl rfl rfl rfl,
    hsave2 ⟨nuevoId, usuario, canchaId, nuevaDateLocal env fecha, hora, Estado.pendiente,
      cancha.precio, some cr.token, none, env.now + graciaMs⟩
      ⟨nuevoId, usuario, canchaId, nuevaDateLocal env fecha, hora, Estado.pendiente,
      cancha.precio, none, none, env.now + graciaMs⟩ rfl rfl rfl rfl rfl rfl]
  simp

/-- A successful insert appends the document, whose `_id` was not in the collection. -/
theorem saveNueva_ok (env : Entorno) (store store1 : List Reserva) (r : Reserva)
    (h : saveNueva env store r = Except.ok store1) :
    store1 = store ++ [r] ∧ ∀ d ∈ store, d._id ≠ r._id := by
  unfold saveNueva at h
  split at h
  · simp at h
  · split at h
    · simp at h
    · split at h
      · simp at h
      · rename_i hfresh _
        simp only [Except.ok.injEq] at h
        refine ⟨h.symm, ?_⟩
        intro d hd
        simp only [Bool.not_eq_true, List.any_eq_false, beq_iff_eq] at hfresh
        exact hfresh d hd

/-- A successful update replaces the first document with the `_id`. -/
theorem saveExistente_ok (env : Entorno) (store store1 : List Reserva) (r : Reserva)
    (h : saveExistente env store r = Except.ok store1) : store1 = reemplazar r store := by
  unfold saveExistente at h
  split at h
  · simp at h
  · split at h
    · simp at h
    · simp only [Except.ok.injEq] at h
      exact h.symm

/-- What `crearReserva` does to the collection: nothing, or it appends one pending
reservation of the requester with the generated `_id`, the price of the venue, the gateway
token, no payment record and the default `expiraEn`. -/
theorem crearReserva_store_casos (env : Entorno) (canchas : List Cancha) (store : List Reserva)
    (usuario : Id) (body : SolicitudReserva) (nuevoId : Id)
    (webpay : Except String CreateResponse) :
    (crearReserva env canchas store usuario body nuevoId webpay).store = store
    ∨ ∃ canchaId fecha hora cancha cr,
        presente body.canchaId = some canchaId ∧ body.fecha = some fecha
        ∧ presente body.hora = some hora ∧ validarFormatoHora hora = true
        ∧ findCanchaById canchas canchaId = some cancha ∧ webpay = Except.ok cr
        ∧ (∀ d ∈ store, d._id ≠ nuevoId)
        ∧ (crearReserva env canchas store usuario body nuevoId webpay).store
            = store ++ [⟨nuevoId, usuario, canchaId, nuevaDateLocal env fecha, hora,
                Estado.pendiente, cancha.precio, some cr.token, none, env.now + graciaMs⟩] := by
  unfold crearReserva
  dsimp only
  split
  · rename_i canchaId fecha hora h1 h2 h3
    split
    · exact Or.inl rfl
    · rename_i hv
      split
      · exact Or.inl rfl
      · split
        · exact Or.inl rfl
        · rename_i cancha hc
          split
          · exact Or.inl rfl
          · split
            · exact Or.inl rfl
            · split
              · exact Or.inl rfl
              · rename_i store1 hs
                obtain ⟨hs1, hfresh⟩ := saveNueva_ok env store store1 _ hs
                split
                · left
                  subst hs1
                  exact findByIdAndDelete_append _ store hfresh
                · rename_i cr
                  split
                  · left
                    subst hs1
                    exact findByIdAndDelete_append _ store hfresh
                  · rename_i store2 hs2
                    right
                    have := saveExistente_ok env store1 store2 _ hs2
                    subst hs1
                    rw [reemplazar_append
                      ⟨nuevoId, usuario, canchaId, nuevaDateLocal env fecha, hora,
                        Estado.pendiente, cancha.precio, some cr.token, none, env.now + graciaMs⟩
                      ⟨nuevoId, usuario, canchaId, nuevaDateLocal env fecha, hora,
                        Estado.pendiente, cancha.precio, none, none, env.now + graciaMs⟩
                      store hfresh rfl] at this
                    refine ⟨canchaId, fecha, hora, cancha, cr, h1, h2, h3, ?_, hc, rfl, hfresh, this⟩
                    simpa using hv
  · exact Or.inl rfl

/-- `crearReserva` leaves every reservation that was in the collection where it was and as
it was. -/
theorem crearReserva_prefijo (env : Entorno) (canchas : List Cancha) (store : List Reserva)
    (usuario : Id) (body : SolicitudReserva) (nuevoId : Id)
    (webpay : Except String CreateResponse) :
    store <+: (crearReserva env canchas store usuario body nuevoId webpay).store := by
  rcases crearReserva_store_casos env canchas store usuario body nuevoId webpay with h | h
  · rw [h]
  · obtain ⟨_, _, _, _, _, _, _, _, _, _, _, _, h⟩ := h
    rw [h]
    exact List.prefix_append _ _

/-- An update changes at most the documents with the `_id` of the one written. -/
theorem forall2_reemplazar (r : Reserva) (store : List Reserva) :
    List.Forall₂ (fun a b => b = a ∨ (a._id = r._id ∧ b = r)) store (reemplazar r store) := by
  induction store with
  | nil => exact List.Forall₂.nil
  | cons d ds ih =>
    simp only [reemplazar]
    by_cases hid : d._id = r._id
    · simp only [hid, beq_self_eq_true, if_true]
      refine List.Forall₂.cons (Or.inr ⟨hid, rfl⟩) ?_
      exact List.forall₂_same.mpr (fun a _ => Or.inl rfl)
    · have : (d._id == r._id) = false := by simpa using hid
      simp only [this, Bool.false_eq_true, if_false]
      exact List.Forall₂.cons (Or.inl rfl) ih

/-- With unique `_id`s an update changes exactly the document read. -/
theorem forall2_reemplazar_unico (r x : Reserva) (store : List Reserva)
    (hIds : (store.map (fun d => d._id)).Nodup) (hx : x ∈ store) (hid : r._id = x._id) :
    List.Forall₂ (fun a b => b = a ∨ (a = x ∧ b = r)) store (reemplazar r store) := by
  induction store with
  | nil => exact List.Forall₂.nil
  | cons d ds ih =>
    simp only [List.map_cons, List.nodup_cons, List.mem_map, not_exists, not_and] at hIds
    simp only [reemplazar]
    by_cases hd : d._id = r._id
    · simp only [hd, beq_self_eq_true, if_true]
      have hdx : d = x := by
        rcases List.mem_cons.mp hx with h | h
        · exact h.symm
        · exact absurd (hid ▸ hd).symm (hIds.1 x h)
      refine List.Forall₂.cons (Or.inr ⟨hdx, rfl⟩) ?_
      exact List.forall₂_same.mpr (fun a _ => Or.inl rfl)
    · have hb : (d._id == r._id) = false := by simpa using hd
      simp only [hb, Bool.false_eq_true, if_false]
      have hx' : x ∈ ds := by
        rcases List.mem_cons.mp hx with h | h
        · exact absurd (h ▸ hid.symm) hd
        · exact h
      exact List.Forall₂.cons (Or.inl rfl) (ih hIds.2 hx')

/-- The document found by `_id` has that `_id` and is in the collection. -/
theorem findById_some (store : List Reserva) (id : Id) (r : Reserva)
    (h : findById store id = some r) : r._id = id ∧ r ∈ store := by
  unfold findById at h
  exact ⟨by simpa using List.find?_some h, List.mem_of_find?_eq_some h⟩

/-- What `cancelarReserva` does. It changes the collection if and only if the reservation
exists, the requester is its `usuarioId`, its estado is `pendiente` and `save()` accepts the
document (`fecha` not before today's local midnight, `hora` matching the hour pattern); the
stored estado then becomes `cancelada`. A non-owner is answered 403 whatever the estado,
the owner of a non-pending reservation 400, and with every error response the collection
is unchanged. -/
theorem cancelarReserva_casos (env : Entorno) (store : List Reserva) (usuario id : Id) :
    ((cancelarReserva env store usuario id).store ≠ store ↔
      ∃ r, findById store id = some r ∧ r.usuarioId = usuario ∧ r.estado = Estado.pendiente
        ∧ validaSchema env r = true)
    ∧ (∀ r, findById store id = some r → r.usuarioId = usuario → r.estado = Estado.pendiente →
        validaSchema env r = true →
        cancelarReserva env store usuario id
          = ⟨reemplazar { r with estado := Estado.cancelada } store,
              Respuesta.cancelada { r with estado := Estado.cancelada }⟩
        ∧ findById (cancelarReserva env store usuario id).store id
          = some { r with estado := Estado.cancelada })
    ∧ (∀ r, findById store id = some r → r.usuarioId ≠ usuario →
        cancelarReserva env store usuario id
          = ⟨store, Respuesta.error 403 "No tienes permiso para cancelar esta reserva." none⟩)
    ∧ (∀ r, findById store id = some r → r.usuarioId = usuario → r.estado ≠ Estado.pendiente →
        cancelarReserva env store usuario id
          = ⟨store, Respuesta.error 400 "Solo se pueden cancelar reservas pendientes." none⟩)
    ∧ (∀ status mensaje detalle,
        (cancelarReserva env store usuario id).respuesta = Respuesta.error status mensaje detalle →
        (cancelarReserva env store usuario id).store = store) := by
  have hok : ∀ r, findById store id = some r → r.usuarioId = usuario →
      r.estado = Estado.pendiente → validaSchema env r = true →
      cancelarReserva env store usuario id
        = ⟨reemplazar { r with estado := Estado.cancelada } store,
            Respuesta.cancelada { r with estado := Estado.cancelada }⟩ := by
    intro r hf ho hp hv
    subst ho
    have hv' : validaSchema env { r with estado := Estado.cancelada } = true := hv
    unfold cancelarReserva
    simp [hf, hp, saveExistente, hv', indiceUnicoAcepta, esViva]
  have hfind : ∀ r, findById store id = some r →
      findById (reemplazar { r with estado := Estado.cancelada } store) id
        = some { r with estado := Estado.cancelada } := by
    intro r hf
    obtain ⟨hid, hmem⟩ := findById_some store id r hf
    have := findById_reemplazar { r with estado := Estado.cancelada } store ⟨r, hmem, rfl⟩
    simpa [hid] using this
  refine ⟨⟨?_, ?_⟩, ?_, ?_, ?_, ?_⟩
  · intro hne
    cases hf : findById store id with
    | none => exact absurd (by simp [cancelarReserva, hf]) hne
    | some r =>
      by_cases ho : r.usuarioId = usuario
      · by_cases hp : r.estado = Estado.pendiente
        · by_cases hv : validaSchema env r = true
          · exact ⟨r, rfl, ho, hp, hv⟩
          · have hv' : validaSchema env { r with estado := Estado.cancelada } = false := by
              simpa using hv
            subst ho
            exact absurd (by simp [cancelarReserva, hf, hp, saveExistente, hv']) hne
        · exact absurd (by simp [cancelarReserva, hf, ho, hp]) hne
      · exact absurd (by simp [cancelarReserva, hf, ho]) hne
  · rintro ⟨r, hf, ho, hp, hv⟩
    rw [hok r hf ho hp hv]
    intro heq
    have h1 := hfind r hf
    simp only at heq
    rw [heq, hf] at h1
    simp only [Option.some.injEq] at h1
    have := congrArg Reserva.estado h1
    simp [hp] at this
  · intro r hf ho hp hv
    refine ⟨hok r hf ho hp hv, ?_⟩
    rw [hok r hf ho hp hv]
    exact hfind r hf
  · intro r hf ho
    simp [cancelarReserva, hf, ho]
  · intro r hf ho hp
    simp [cancelarReserva, hf, ho, hp]
  · intro status mensaje detalle
    unfold cancelarReserva
    split
    · intro _; rfl
    · split
      · intro _; rfl
      · split
        · intro _; rfl
        · split
          · intro h; simp at h
          · intro _; rfl

/-- User `u1` cancels the pending `r1` a minute after booking it. -/
theorem cancelarReserva_escenario :
    cancelarReserva (entornoEn 1) [reservaA] "u1" "r1"
        = ⟨reemplazar { reservaA with estado := Estado.cancelada } [reservaA],
            Respuesta.cancelada { reservaA with estado := Estado.cancelada }⟩
    ∧ findById (cancelarReserva (entornoEn 1) [reservaA] "u1" "r1").store "r1"
        = some { reservaA with estado := Estado.cancelada } :=
  (cancelarReserva_casos (entornoEn 1) [reservaA] "u1" "r1").2.1 reservaA
    (by decide) (by decide) (by decide) (by decide)

/-- C13 (cancel contract), evaluated. `u1` books Monday 09:00 at 23:56 of that Monday and
cancels at 00:02 of Tuesday. The reservation exists, `u1` owns it and it is `pendiente`
(it has not expired), `cancelarReserva` sets `estado` to `cancelada`, and the `fecha`
validator of the schema refuses the `save()`: the answer is 500 'Error al cancelar la
reserva.' and the reservation stays `pendiente`. At 23:59 the same request cancels it. -/
theorem c13_cancelar_falla_pasada_medianoche :
    ejecutar [Paso.crear entornoCasiMedianoche [canchaV] "u1" solicitudLunes9 "r1"
        (Except.ok ⟨"t1", "https://webpay.example/pay"⟩)] = [reservaNoche]
    ∧ findById [reservaNoche] "r1" = some reservaNoche
    ∧ reservaNoche.usuarioId = "u1"
    ∧ reservaNoche.estado = Estado.pendiente
    ∧ expirarTTL entornoPasadaMedianoche.now [reservaNoche] = [reservaNoche]
    ∧ cancelarReserva entornoPasadaMedianoche [reservaNoche] "u1" "r1"
      = ⟨[reservaNoche], Respuesta.error 500 "Error al cancelar la reserva." none⟩
    ∧ cancelarReserva (entornoEn 5039) [reservaNoche] "u1" "r1"
      = ⟨[{ reservaNoche with estado := Estado.cancelada }],
          Respuesta.cancelada { reservaNoche with estado := Estado.cancelada }⟩ := by
  decide

/-- C14 (expiry), as the code has it. A pass of the TTL monitor at instant `now` removes
from the collection exactly the reservations with estado `pendiente` and `expiraEn` not
after `now` (they are deleted, not turned into `cancelada`); every pending reservation
with `expiraEn` after `now` and every confirmed or cancelled reservation stays, unchanged
and in the same order. -/
theorem c14_ttl_borra_pendientes_vencidas (now : Int) (store : List Reserva) :
    (∀ r, r ∈ expirarTTL now store ↔
      (r ∈ store ∧ ¬ (r.estado = Estado.pendiente ∧ r.expiraEn ≤ now)))
    ∧ (expirarTTL now store).Sublist store := by
  refine ⟨?_, ?_⟩
  · intro r
    simp only [expirarTTL, List.mem_filter, Bool.not_eq_true', Bool.and_eq_false_iff,
      beq_eq_false_iff_ne, ne_eq, decide_eq_false_iff_not, not_le, not_and]
    constructor
    · rintro ⟨h1, h2⟩
      refine ⟨h1, fun hp => ?_⟩
      rcases h2 with h2 | h2
      · exact absurd hp h2
      · exact h2
    · rintro ⟨h1, h2⟩
      refine ⟨h1, ?_⟩
      by_cases hp : r.estado = Estado.pendiente
      · exact Or.inr (h2 hp)
      · exact Or.inl hp
  · exact List.filter_sublist _

/-- C14 as stated fails: eleven minutes after `r1` was booked and left unpaid, the TTL pass
leaves a collection without `r1`; no reservation with estado `cancelada` is in it. -/
theorem c14_contraejemplo_ttl_elimina :
    reservaA.estado = Estado.pendiente
    ∧ reservaA.expiraEn ≤ (entornoEn 11).now
    ∧ expirarTTL (entornoEn 11).now [reservaA] = []
    ∧ findById (expirarTTL (entornoEn 11).now [reservaA]) "r1" = none := by
  decide

/-- C15 (amount snapshot). For an accepted request, the reservation that `crearReserva`
stores has `monto` equal to the `precio` of the venue read by that call; and every later
`editarCancha`, with any body and so any new price, leaves the reservation collection as
it is, so the stored `monto` is still the price at creation. -/
theorem c15_monto_es_precio_al_crear (env : Entorno) (canchas : List Cancha)
    (store : List Reserva) (usuario nuevoId canchaId : Id) (fecha : FechaStr) (hora : String)
    (cancha : Cancha) (cr : CreateResponse)
    (hZona : env.offsetMin < 1440)
    (hId : canchaId ≠ "")
    (hHora : validarFormatoHora hora = true)
    (hFecha : validarFechaNoVencida env fecha = true)
    (hCancha : findCanchaById canchas canchaId = some cancha)
    (hActiva : cancha.activa = true)
    (hLibre : ∀ r ∈ store, ¬ (r.canchaId = canchaId ∧ r.fecha = nuevaDateLocal env fecha
      ∧ r.hora = hora ∧ (r.estado = Estado.pendiente ∨ r.estado = Estado.confirmada)))
    (hNuevo : ∀ r ∈ store, r._id ≠ nuevoId) :
    ∃ r, findById (crearReservaBD env ⟨canchas, store⟩ usuario
          ⟨some canchaId, some fecha, some hora⟩ nuevoId (Except.ok cr)).reservas nuevoId = some r
      ∧ r.monto = cancha.precio
      ∧ ∀ (admin id : Id) (body : SolicitudEditarCancha),
          (editarCanchaBD (crearReservaBD env ⟨canchas, store⟩ usuario
            ⟨some canchaId, some fecha, some hora⟩ nuevoId (Except.ok cr)) admin id body).reservas
            = (crearReservaBD env ⟨canchas, store⟩ usuario
                ⟨some canchaId, some fecha, some hora⟩ nuevoId (Except.ok cr)).reservas
          ∧ findById (editarCanchaBD (crearReservaBD env ⟨canchas, store⟩ usuario
              ⟨some canchaId, some fecha, some hora⟩ nuevoId (Except.ok cr)) admin id
              body).reservas nuevoId = some r := by
  have h := crearReserva_exito env canchas store usuario nuevoId canchaId fecha hora cancha cr
    hZona hId hHora hFecha hCancha hActiva hLibre hNuevo
  have hf := findById_append
    ⟨nuevoId, usuario, canchaId, nuevaDateLocal env fecha, hora, Estado.pendiente,
      cancha.precio, some cr.token, none, env.now + graciaMs⟩ store hNuevo
  refine ⟨⟨nuevoId, usuario, canchaId, nuevaDateLocal env fecha, hora, Estado.pendiente,
      cancha.precio, some cr.token, none, env.now + graciaMs⟩, ?_, rfl, ?_⟩
  · simp only [crearReservaBD, h]
    exact hf
  · intro admin id body
    simp only [editarCanchaBD, crearReservaBD, h]
    exact ⟨trivial, hf⟩

/-- C15 at the scenario: `u1` books `V` at 15000. -/
theorem c15_monto_es_precio_al_crear_witness :
    ∃ r, findById (crearReservaBD (entornoEn 0) ⟨[canchaV], []⟩ "u1"
          ⟨some "V", some ⟨2099, 1, 5⟩, some "09:00"⟩ "r1"
          (Except.ok ⟨"t1", "https://webpay.example/pay"⟩)).reservas "r1" = some r
      ∧ r.monto = canchaV.precio
      ∧ ∀ (admin id : Id) (body : SolicitudEditarCancha),
          (editarCanchaBD (crearReservaBD (entornoEn 0) ⟨[canchaV], []⟩ "u1"
            ⟨some "V", some ⟨2099, 1, 5⟩, some "09:00"⟩ "r1"
            (Except.ok ⟨"t1", "https://webpay.example/pay"⟩)) admin id body).reservas
            = (crearReservaBD (entornoEn 0) ⟨[canchaV], []⟩ "u1"
                ⟨some "V", some ⟨2099, 1, 5⟩, some "09:00"⟩ "r1"
                (Except.ok ⟨"t1", "https://webpay.example/pay"⟩)).reservas
          ∧ findById (editarCanchaBD (crearReservaBD (entornoEn 0) ⟨[canchaV], []⟩ "u1"
              ⟨some "V", some ⟨2099, 1, 5⟩, some "09:00"⟩ "r1"
              (Except.ok ⟨"t1", "https://webpay.example/pay"⟩)) admin id body).reservas "r1"
              = some r :=
  c15_monto_es_precio_al_crear (entornoEn 0) [canchaV] [] "u1" "r1" "V" ⟨2099, 1, 5⟩ "09:00"
    canchaV ⟨"t1", "https://webpay.example/pay"⟩ (by decide) (by decide) (by decide) (by decide)
    (by decide) (by decide) (by decide) (by decide)

/-- The scenario evaluated: after the admin raises the price of `V` to 20000, the venue
costs 20000 and `r1` still carries 15000. -/
theorem precio_cambia_monto_no :
    (editarCanchaBD ⟨[canchaV], [reservaA]⟩ "admin1" "V" solicitudNuevoPrecio)
      = ⟨[{ canchaV with precio := 20000 }], [reservaA]⟩
    ∧ reservaA.monto = 15000 := by
  decide

/-- C16 (grace window). For an accepted request, the reservation that `crearReserva` stores
takes the default `expiraEn`, and `expiraEn` minus the clock of the call is exactly
600000 ms (10 minutes). -/
theorem c16_ventana_de_gracia (env : Entorno) (canchas : List Cancha)
    (store : List Reserva) (usuario nuevoId canchaId : Id) (fecha : FechaStr) (hora : String)
    (cancha : Cancha) (cr : CreateResponse)
    (hZona : env.offsetMin < 1440)
    (hId : canchaId ≠ "")
    (hHora : validarFormatoHora hora = true)
    (hFecha : validarFechaNoVencida env fecha = true)
    (hCancha : findCanchaById canchas canchaId = some cancha)
    (hActiva : cancha.activa = true)
    (hLibre : ∀ r ∈ store, ¬ (r.canchaId = canchaId ∧ r.fecha = nuevaDateLocal env fecha
      ∧ r.hora = hora ∧ (r.estado = Estado.pendiente ∨ r.estado = Estado.confirmada)))
    (hNuevo : ∀ r ∈ store, r._id ≠ nuevoId) :
    ∃ r, findById (crearReserva env canchas store usuario
          ⟨some canchaId, some fecha, some hora⟩ nuevoId (Except.ok cr)).store nuevoId = some r
      ∧ r.expiraEn - env.now = 600000 := by
  have h := crearReserva_exito env canchas store usuario nuevoId canchaId fecha hora cancha cr
    hZona hId hHora hFecha hCancha hActiva hLibre hNuevo
  have hf := findById_append
    ⟨nuevoId, usuario, canchaId, nuevaDateLocal env fecha, hora, Estado.pendiente,
      cancha.precio, some cr.token, none, env.now + graciaMs⟩ store hNuevo
  refine ⟨⟨nuevoId, usuario, canchaId, nuevaDateLocal env fecha, hora, Estado.pendiente,
      cancha.precio, some cr.token, none, env.now + graciaMs⟩, ?_, ?_⟩
  · rw [h]
    exact hf
  · simp only [graciaMs]
    omega

/-- C16 at the scenario: `r1` booked at 12:00 expires at 12:10. -/
theorem c16_ventana_de_gracia_witness :
    ∃ r, findById (crearReserva (entornoEn 0) [canchaV] [] "u1"
          ⟨some "V", some ⟨2099, 1, 5⟩, some "09:00"⟩ "r1"
          (Except.ok ⟨"t1", "https://webpay.example/pay"⟩)).store "r1" = some r
      ∧ r.expiraEn - (entornoEn 0).now = 600000 :=
  c16_ventana_de_gracia (entornoEn 0) [canchaV] [] "u1" "r1" "V" ⟨2099, 1, 5⟩ "09:00"
    canchaV ⟨"t1", "https://webpay.example/pay"⟩ (by decide) (by decide) (by decide) (by decide)
    (by decide) (by decide) (by decide) (by decide)

/-- C17 (immutable fields). In a collection with unique `_id`s: `webpayReturn` leaves every
reservation as it was, except that the one matched by the token may get a new `estado` and
`datosPago`; `cancelarReserva` leaves every reservation as it was, except that the target
may get estado `cancelada`; `crearReserva` leaves every existing reservation as it was. So
`usuarioId`, `canchaId`, `fecha`, `hora`, `monto` and `webpayToken` of an existing
reservation never change, and no handler rewrites a token already set. -/
theorem c17_campos_inmutables (env : Entorno) (canchas : List Cancha) (store : List Reserva)
    (usuario id nuevoId : Id) (token_ws : Option String)
    (commit : Except String CommitResponse) (body : SolicitudReserva)
    (webpay : Except String CreateResponse)
    (hIds : (store.map (fun d => d._id)).Nodup) :
    List.Forall₂
      (fun a b => b = a ∨
        (store.find? (fun d => d.webpayToken == token_ws) = some a
          ∧ ∃ e p, b = { a with estado := e, datosPago := some p }))
      store (webpayReturn env store token_ws commit).store
    ∧ List.Forall₂
      (fun a b => b = a ∨
        (findById store id = some a ∧ b = { a with estado := Estado.cancelada }))
      store (cancelarReserva env store usuario id).store
    ∧ store <+: (crearReserva env canchas store usuario body nuevoId webpay).store := by
  have hsame : ∀ (R : Reserva → Reserva → Prop), (∀ a, R a a) → List.Forall₂ R store store :=
    fun R h => List.forall₂_same.mpr (fun a _ => h a)
  refine ⟨?_, ?_, crearReserva_prefijo env canchas store usuario body nuevoId webpay⟩
  · cases ht : presente token_ws with
    | none =>
      rw [webpayReturn_store_sin_reserva _ _ _ _ (Or.inl ht)]
      exact hsame _ (fun a => Or.inl rfl)
    | some token =>
      have hts := presente_eq_some token_ws token ht
      cases commit with
      | error e =>
        rw [webpayReturn_store_sin_reserva _ _ _ (Except.error e) (Or.inr (Or.inl ⟨e, rfl⟩))]
        exact hsame _ (fun a => Or.inl rfl)
      | ok c =>
        cases hf : store.find? (fun d => d.webpayToken == some token) with
        | none =>
          rw [webpayReturn_store_sin_reserva env store token_ws _
            (Or.inr (Or.inr (fun t h => by rw [ht] at h; cases h; exact hf)))]
          exact hsame _ (fun a => Or.inl rfl)
        | some x =>
          rw [webpayReturn_store env store token_ws token c x ht hf]
          cases hs : saveExistente env store (conPago c x) with
          | error e => exact hsame _ (fun a => Or.inl rfl)
          | ok store1 =>
            have h1 := saveExistente_ok env store store1 _ hs
            subst h1
            have hx : x ∈ store := List.mem_of_find?_eq_some hf
            refine List.Forall₂.imp ?_
              (forall2_reemplazar_unico (conPago c x) x store hIds hx (conPago_id c x))
            intro a b hab
            rcases hab with hab | ⟨ha, hb⟩
            · exact Or.inl hab
            · right
              subst ha hb
              refine ⟨by rw [hts]; exact hf, ?_⟩
              unfold conPago
              split
              · exact ⟨_, _, rfl⟩
              · exact ⟨_, _, rfl⟩
  · unfold cancelarReserva
    cases hf : findById store id with
    | none => exact hsame _ (fun a => Or.inl rfl)
    | some x =>
      simp only
      split
      · exact hsame _ (fun a => Or.inl rfl)
      · split
        · exact hsame _ (fun a => Or.inl rfl)
        · cases hs : saveExistente env store { x with estado := Estado.cancelada } with
          | error e => exact hsame _ (fun a => Or.inl rfl)
          | ok store1 =>
            have h1 := saveExistente_ok env store store1 _ hs
            subst h1
            have hx : x ∈ store := (findById_some store id x hf).2
            refine List.Forall₂.imp ?_
              (forall2_reemplazar_unico { x with estado := Estado.cancelada } x store hIds hx rfl)
            intro a b hab
            rcases hab with hab | ⟨ha, hb⟩
            · exact Or.inl hab
            · right
              subst ha hb
              exact ⟨rfl, rfl⟩

/-- C17 at the scenario: the collection reached by `trazaDobleReserva` has unique `_id`s. -/
theorem c17_campos_inmutables_witness :
    List.Forall₂
      (fun a b => b = a ∨
        ((ejecutar trazaDobleReserva).find? (fun d => d.webpayToken == some "t2") = some a
          ∧ ∃ e p, b = { a with estado := e, datosPago := some p }))
      (ejecutar trazaDobleReserva)
      (webpayReturn (entornoEn 7) (ejecutar trazaDobleReserva) (some "t2")
        (Except.ok commitRechazado)).store
    ∧ List.Forall₂
      (fun a b => b = a ∨
        (findById (ejecutar trazaDobleReserva) "r2" = some a
          ∧ b = { a with estado := Estado.cancelada }))
      (ejecutar trazaDobleReserva)
      (cancelarReserva (entornoEn 7) (ejecutar trazaDobleReserva) "u2" "r2").store
    ∧ ejecutar trazaDobleReserva <+: (crearReserva (entornoEn 7) [canchaV]
        (ejecutar trazaDobleReserva) "u2" ⟨some "V", some ⟨2099, 1, 5⟩, some "10:00"⟩ "r3"
        (Except.ok ⟨"t3", "https://webpay.example/pay"⟩)).store :=
  c17_campos_inmutables (entornoEn 7) [canchaV] (ejecutar trazaDobleReserva) "u2" "r2" "r3"
    (some "t2") (Except.ok commitRechazado) ⟨some "V", some ⟨2099, 1, 5⟩, some "10:00"⟩
    (Except.ok ⟨"t3", "https://webpay.example/pay"⟩) (by decide)

/-- C18 (no re-entry into pending). For every collection and every input, `webpayReturn` and
`cancelarReserva` keep the `_id` at every position and leave estado `pendiente` only where
it already was, and `crearReserva` leaves every existing reservation as it was: a
reservation is `pendiente` after a handler only if it was before or has just been created. -/
theorem c18_sin_reingreso_a_pendiente (env : Entorno) (canchas : List Cancha)
    (store : List Reserva) (usuario id nuevoId : Id) (token_ws : Option String)
    (commit : Except String CommitResponse) (body : SolicitudReserva)
    (webpay : Except String CreateResponse) :
    List.Forall₂
      (fun a b => a._id = b._id ∧ (b.estado = Estado.pendiente → a.estado = Estado.pendiente))
      store (webpayReturn env store token_ws commit).store
    ∧ List.Forall₂
      (fun a b => a._id = b._id ∧ (b.estado = Estado.pendiente → a.estado = Estado.pendiente))
      store (cancelarReserva env store usuario id).store
    ∧ store <+: (crearReserva env canchas store usuario body nuevoId webpay).store
    ∧ ∀ r ∈ (crearReserva env canchas store usuario body nuevoId webpay).store,
        r ∈ store ∨ (r._id = nuevoId ∧ ∀ d ∈ store, d._id ≠ nuevoId) := by
  have hsame : List.Forall₂
      (fun a b : Reserva => a._id = b._id ∧
        (b.estado = Estado.pendiente → a.estado = Estado.pendiente)) store store :=
    List.forall₂_same.mpr (fun a _ => ⟨rfl, fun h => h⟩)
  have hrep : ∀ r : Reserva, r.estado ≠ Estado.pendiente → List.Forall₂
      (fun a b : Reserva => a._id = b._id ∧
        (b.estado = Estado.pendiente → a.estado = Estado.pendiente)) store (reemplazar r store) := by
    intro r hr
    refine List.Forall₂.imp ?_ (forall2_reemplazar r store)
    intro a b hab
    rcases hab with hab | ⟨ha, hb⟩
    · subst hab
      exact ⟨rfl, fun h => h⟩
    · subst hb
      exact ⟨ha, fun h => absurd h hr⟩
  refine ⟨?_, ?_, crearReserva_prefijo env canchas store usuario body nuevoId webpay, ?_⟩
  · cases ht : presente token_ws with
    | none =>
      rw [webpayReturn_store_sin_reserva _ _ _ _ (Or.inl ht)]
      exact hsame
    | some token =>
      cases commit with
      | error e =>
        rw [webpayReturn_store_sin_reserva _ _ _ (Except.error e) (Or.inr (Or.inl ⟨e, rfl⟩))]
        exact hsame
      | ok c =>
        cases hf : store.find? (fun d => d.webpayToken == some token) with
        | none =>
          rw [webpayReturn_store_sin_reserva env store token_ws _
            (Or.inr (Or.inr (fun t h => by rw [ht] at h; cases h; exact hf)))]
          exact hsame
        | some x =>
          rw [webpayReturn_store env store token_ws token c x ht hf]
          cases hs : saveExistente env store (conPago c x) with
          | error e => exact hsame
          | ok store1 =>
            have h1 := saveExistente_ok env store store1 _ hs
            subst h1
            apply hrep
            unfold conPago
            split <;> simp
  · unfold cancelarReserva
    cases hf : findById store id with
    | none => exact hsame
    | some x =>
      simp only
      split
      · exact hsame
      · split
        · exact hsame
        · cases hs : saveExistente env store { x with estado := Estado.cancelada } with
          | error e => exact hsame
          | ok store1 =>
            have h1 := saveExistente_ok env store store1 _ hs
            subst h1
            exact hrep _ (by simp)
  · intro r hr
    rcases crearReserva_store_casos env canchas store usuario body nuevoId webpay with h | h
    · rw [h] at hr
      exact Or.inl hr
    · obtain ⟨_, _, _, _, _, _, _, _, _, _, _, hfresh, h⟩ := h
      rw [h] at hr
      rcases List.mem_append.mp hr with hr | hr
      · exact Or.inl hr
      · right
        simp only [List.mem_singleton] at hr
        subst hr
        exact ⟨rfl, hfresh⟩

/-- C19 (the unique index and one booking per slot), evaluated. The collection with `r1`
`confirmada` and `r2` `pendiente` on the same `(canchaId, fecha, hora)` satisfies the
unique index declared on the model: the index accepts the insert of `r2` next to the
confirmed `r1` and the update of `r1` to `confirmada` next to the pending `r2`, since
the two keys differ in `estado`. Both reservations are live on one slot. -/
theorem c19_indice_admite_dos_vivas :
    cumpleIndiceUnico [{ reservaA with estado := Estado.confirmada }, reservaB] = true
    ∧ indiceUnicoAcepta [{ reservaA with estado := Estado.confirmada }] reservaB = true
    ∧ indiceUnicoAcepta [{ reservaA with estado := Estado.cancelada }, reservaB]
        { reservaA with estado := Estado.confirmada } = true
    ∧ mismoSlot { reservaA with estado := Estado.confirmada } reservaB = true
    ∧ esViva Estado.confirmada = true ∧ esViva reservaB.estado = true
    ∧ unaPorSlot [{ reservaA with estado := Estado.confirmada }, reservaB] = false
    ∧ indiceUnicoAcepta [reservaA] reservaB = false := by
  decide

/-- C20 (booked slots and the schedule), as the code has it. For every venue and every
accepted request, the reservation that `crearReserva` stores carries the `hora` of the
request, a string accepted by `validarFormatoHora`, and as `fecha` the local midnight of
the requested date; the handler does not read `cancha.horarios`. -/
theorem c20_hora_es_la_de_la_solicitud (env : Entorno) (canchas : List Cancha)
    (store : List Reserva) (usuario nuevoId canchaId : Id) (fecha : FechaStr) (hora : String)
    (cancha : Cancha) (cr : CreateResponse)
    (hZona : env.offsetMin < 1440)
    (hId : canchaId ≠ "")
    (hHora : validarFormatoHora hora = true)
    (hFecha : validarFechaNoVencida env fecha = true)
    (hCancha : findCanchaById canchas canchaId = some cancha)
    (hActiva : cancha.activa = true)
    (hLibre : ∀ r ∈ store, ¬ (r.canchaId = canchaId ∧ r.fecha = nuevaDateLocal env fecha
      ∧ r.hora = hora ∧ (r.estado = Estado.pendiente ∨ r.estado = Estado.confirmada)))
    (hNuevo : ∀ r ∈ store, r._id ≠ nuevoId) :
    ∃ r, findById (crearReserva env canchas store usuario
          ⟨some canchaId, some fecha, some hora⟩ nuevoId (Except.ok cr)).store nuevoId = some r
      ∧ r.hora = hora ∧ validarFormatoHora r.hora = true
      ∧ r.fecha = nuevaDateLocal env fecha
      ∧ ∀ horarios : List Horario,
          crearReserva env (canchas.map (fun c => { c with horarios := horarios })) store usuario
              ⟨some canchaId, some fecha, some hora⟩ nuevoId (Except.ok cr)
            = crearReserva env canchas store usuario
              ⟨some canchaId, some fecha, some hora⟩ nuevoId (Except.ok cr) := by
  have h := crearReserva_exito env canchas store usuario nuevoId canchaId fecha hora cancha cr
    hZona hId hHora hFecha hCancha hActiva hLibre hNuevo
  have hf := findById_append
    ⟨nuevoId, usuario, canchaId, nuevaDateLocal env fecha, hora, Estado.pendiente,
      cancha.precio, some cr.token, none, env.now + graciaMs⟩ store hNuevo
  refine ⟨⟨nuevoId, usuario, canchaId, nuevaDateLocal env fecha, hora, Estado.pendiente,
      cancha.precio, some cr.token, none, env.now + graciaMs⟩, ?_, rfl, hHora, rfl, ?_⟩
  · rw [h]
    exact hf
  · intro horarios
    have hCancha' : findCanchaById (canchas.map (fun c => { c with horarios := horarios }))
        canchaId = some { cancha with horarios := horarios } := by
      unfold findCanchaById at hCancha ⊢
      rw [List.find?_map]
      have : ((fun c : Cancha => c._id == canchaId) ∘
          fun c : Cancha => { c with horarios := horarios })
          = fun c : Cancha => c._id == canchaId := rfl
      rw [this, hCancha]
      rfl
    rw [h, crearReserva_exito env _ store usuario nuevoId canchaId fecha hora
      { cancha with horarios := horarios } cr hZona hId hHora hFecha hCancha' hActiva hLibre hNuevo]

/-- C20 at the scenario: `u1` books `V` for Monday 2099-01-05 at 09:00. -/
theorem c20_hora_es_la_de_la_solicitud_witness :
    ∃ r, findById (crearReserva (entornoEn 0) [canchaV] [] "u1"
          ⟨some "V", some ⟨2099, 1, 5⟩, some "09:00"⟩ "r1"
          (Except.ok ⟨"t1", "https://webpay.example/pay"⟩)).store "r1" = some r
      ∧ r.hora = "09:00" ∧ validarFormatoHora r.hora = true
      ∧ r.fecha = nuevaDateLocal (entornoEn 0) ⟨2099, 1, 5⟩
      ∧ ∀ horarios : List Horario,
          crearReserva (entornoEn 0) ([canchaV].map (fun c => { c with horarios := horarios })) []
              "u1" ⟨some "V", some ⟨2099, 1, 5⟩, some "09:00"⟩ "r1"
              (Except.ok ⟨"t1", "https://webpay.example/pay"⟩)
            = crearReserva (entornoEn 0) [canchaV] [] "u1"
              ⟨some "V", some ⟨2099, 1, 5⟩, some "09:00"⟩ "r1"
              (Except.ok ⟨"t1", "https://webpay.example/pay"⟩) :=
  c20_hora_es_la_de_la_solicitud (entornoEn 0) [canchaV] [] "u1" "r1" "V" ⟨2099, 1, 5⟩ "09:00"
    canchaV ⟨"t1", "https://webpay.example/pay"⟩ (by decide) (by decide) (by decide) (by decide)
    (by decide) (by decide) (by decide) (by decide)

/-- C20 as stated fails: `V` opens on Mondays from 09:00 to 11:00 only, and `crearReserva`
accepts a booking for Monday 2099-01-05 at 03:00 and one for Tuesday 2099-01-06 at 09:00;
neither hour is among the slots enumerated from the windows of that weekday. -/
theorem c20_contraejemplo_fuera_de_horario :
    (crearReserva (entornoEn 0) [canchaV] [] "u1" ⟨some "V", some ⟨2099, 1, 5⟩, some "03:00"⟩
        "r1" (Except.ok ⟨"t1", "https://webpay.example/pay"⟩)).store
      = [{ reservaA with hora := "03:00" }]
    ∧ diasSemana.get? (getDay (entornoEn 0) 4071254400000) = some Dia.Lunes
    ∧ slotsEnumerados (canchaV.horarios.filter (fun h => h.dia == Dia.Lunes)) = ["09:00", "10:00"]
    ∧ "03:00" ∉ slotsEnumerados (canchaV.horarios.filter (fun h => h.dia == Dia.Lunes))
    ∧ (crearReserva (entornoEn 0) [canchaV] [] "u1" ⟨some "V", some ⟨2099, 1, 6⟩, some "09:00"⟩
        "r1" (Except.ok ⟨"t1", "https://webpay.example/pay"⟩)).store
      = [{ reservaA with fecha := 4071340800000 }]
    ∧ diasSemana.get? (getDay (entornoEn 0) 4071340800000) = some Dia.Martes
    ∧ slotsEnumerados (canchaV.horarios.filter (fun h => h.dia == Dia.Martes)) = [] := by
  decide

/-- Order of characters, by code. -/
theorem char_le_iff (a b : Char) : a ≤ b ↔ a.toNat ≤ b.toNat := by
  simp [Char.le_def, Char.toNat, UInt32.le_def, Fin.le_def]
  rfl

/-- The class `[0-9]`, by code. -/
theorem esDigito_iff (c : Char) : esDigito c = true ↔ 48 ≤ c.toNat ∧ c.toNat ≤ 57 := by
  unfold esDigito
  simp only [Bool.and_eq_true, decide_eq_true_eq, char_le_iff]
  rfl

/-- A character of the class `[0-9]` is the digit of its value. -/
theorem char_es_digitChar (c : Char) (h1 : 48 ≤ c.toNat) (h2 : c.toNat ≤ 57) :
    c = Nat.digitChar (c.toNat - 48) := by
  obtain ⟨n, hn⟩ : ∃ n, c.toNat = n := ⟨_, rfl⟩
  have hc : c = Char.ofNat n := by rw [← hn]; exact (Char.ofNat_toNat c).symm
  rw [hn] at h1 h2 ⊢
  rw [hc]
  interval_cases n <;> rfl

/-- Two digits are the padded form of their number. -/
theorem padStart2_dos : ∀ a, a < 10 → ∀ b, b < 10 →
    padStart2 (10 * a + b) = [Nat.digitChar a, Nat.digitChar b] := by
  decide

/-- Every string of the form `HH:MM` is accepted. -/
theorem validarFormatoHora_horaSlot : ∀ hh, hh < 24 → ∀ mm, mm < 60 →
    validarFormatoHora (horaSlot hh mm) = true := by
  decide

/-- Every string of the form `H:MM` is accepted. -/
theorem validarFormatoHora_unDigito : ∀ h, h < 10 → ∀ mm, mm < 60 →
    validarFormatoHora (String.mk (Nat.digitChar h :: ':' :: padStart2 mm)) = true := by
  decide

/-- Membership in the form `HH:MM`. -/
theorem esHHMM_iff (s : String) :
    esHHMM s = true ↔ ∃ hh mm, hh < 24 ∧ mm < 60 ∧ s = horaSlot hh mm := by
  simp [esHHMM, List.any_eq_true]

/-- Membership in the form `H:MM`. -/
theorem esHMM_iff (s : String) :
    esHMM s = true ↔ ∃ h mm, h < 10 ∧ mm < 60
      ∧ s = String.mk (Nat.digitChar h :: ':' :: padStart2 mm) := by
  simp [esHMM, List.any_eq_true]

/-- An accepted string has the form `HH:MM` or the form `H:MM`. -/
theorem validarFormatoHora_formas (s : String) (h : validarFormatoHora s = true) :
    (∃ hh mm, hh < 24 ∧ mm < 60 ∧ s = horaSlot hh mm)
    ∨ ∃ h mm, h < 10 ∧ mm < 60 ∧ s = String.mk (Nat.digitChar h :: ':' :: padStart2 mm) := by
  unfold validarFormatoHora at h
  split at h
  · rename_i c m1 m2 hs
    simp only [Bool.and_eq_true, decide_eq_true_eq, esDigito_iff, char_le_iff] at h
    obtain ⟨⟨⟨hc1, hc2⟩, hm1a, hm1b⟩, hm2a, hm2b⟩ := h
    have hm1a' : 48 ≤ m1.toNat := hm1a
    have hm1b' : m1.toNat ≤ 53 := hm1b
    right
    refine ⟨c.toNat - 48, 10 * (m1.toNat - 48) + (m2.toNat - 48), by omega, by omega, ?_⟩
    rw [padStart2_dos _ (by omega) _ (by omega), ← char_es_digitChar c hc1 hc2,
      ← char_es_digitChar m1 hm1a' (by omega), ← char_es_digitChar m2 hm2a hm2b, ← hs]
  · rename_i h1 h2 m1 m2 hs
    simp only [Bool.and_eq_true, Bool.or_eq_true, beq_iff_eq, decide_eq_true_eq, esDigito_iff,
      char_le_iff] at h
    obtain ⟨⟨hh, hm1a, hm1b⟩, hm2a, hm2b⟩ := h
    have hm1a' : 48 ≤ m1.toNat := hm1a
    have hm1b' : m1.toNat ≤ 53 := hm1b
    have hhora : 48 ≤ h1.toNat ∧ h1.toNat ≤ 57 ∧ 48 ≤ h2.toNat ∧ h2.toNat ≤ 57
        ∧ 10 * (h1.toNat - 48) + (h2.toNat - 48) < 24 := by
      rcases hh with ⟨hz | hz, h2a, h2b⟩ | ⟨⟨hz, h2a⟩, h2b⟩
      · subst hz
        have : ('0' : Char).toNat = 48 := rfl
        omega
      · subst hz
        have : ('1' : Char).toNat = 49 := rfl
        omega
      · subst hz
        have h2a' : 48 ≤ h2.toNat := h2a
        have h2b' : h2.toNat ≤ 51 := h2b
        have : ('2' : Char).toNat = 50 := rfl
        omega
    obtain ⟨a1, a2, b1, b2, hlt⟩ := hhora
    left
    refine ⟨10 * (h1.toNat - 48) + (h2.toNat - 48),
      10 * (m1.toNat - 48) + (m2.toNat - 48), hlt, by omega, ?_⟩
    unfold horaSlot
    rw [padStart2_dos _ (by omega) _ (by omega), padStart2_dos _ (by omega) _ (by omega),
      ← char_es_digitChar h1 a1 a2, ← char_es_digitChar h2 b1 b2,
      ← char_es_digitChar m1 hm1a' (by omega), ← char_es_digitChar m2 hm2a hm2b]
    show s = String.mk [h1, h2, ':', m1, m2]
    rw [← hs]
  · simp at h

/-- C23 (time format), as the code has it. For every string, `validarFormatoHora` is true if
and only if the string has the form `HH:MM` (two-digit hour 00 to 23, two-digit minute 00 to
59) or the form `H:MM` (one-digit hour 0 to 9, two-digit minute 00 to 59). -/
theorem c23_formato_hora (s : String) :
    validarFormatoHora s = (esHHMM s || esHMM s) := by
  rw [Bool.eq_iff_iff, Bool.or_eq_true, esHHMM_iff, esHMM_iff]
  constructor
  · exact validarFormatoHora_formas s
  · rintro (⟨hh, mm, h1, h2, rfl⟩ | ⟨h, mm, h1, h2, rfl⟩)
    · exact validarFormatoHora_horaSlot hh h1 mm h2
    · exact validarFormatoHora_unDigito h h1 mm h2

/-- C23 as stated fails: '9:00' is accepted and does not have the form `HH:MM`, which `09:00`
has; '24:00' and '09:60' are refused. -/
theorem c23_contraejemplo_hora_de_un_digito :
    validarFormatoHora "9:00" = true
    ∧ esHHMM "9:00" = false
    ∧ esHMM "9:00" = true
    ∧ esHHMM "09:00" = true
    ∧ validarFormatoHora "24:00" = false
    ∧ validarFormatoHora "09:60" = false := by
  decide

/-- What `crearCancha` does: it answers with an error and stores nothing, or it appends a
venue that passes the schema validators and answers with it. -/
theorem crearCancha_casos (canchas : List Cancha) (usuario : Id)
    (body : SolicitudEditarCancha) (nuevoId : Id) :
    (∃ status mensaje, crearCancha canchas usuario body nuevoId
        = ⟨canchas, Respuesta.error status mensaje none⟩)
    ∨ ∃ c, validaCanchaSchema c = true
        ∧ crearCancha canchas usuario body nuevoId
          = ⟨canchas ++ [c], Respuesta.canchaCreada c⟩ := by
  unfold crearCancha
  dsimp only
  repeat' split
  all_goals first
    | exact Or.inl ⟨_, _, rfl⟩
    | (rename_i hv
       simp only [Bool.and_eq_true] at hv
       exact Or.inr ⟨_, hv.1, rfl⟩)

/-- C24 (windows at venue-configuration time), as the code has it. For every `crearCancha`
request that ends with a venue being stored, the venue is appended to the collection and
every window of it has `horaInicio` and `horaFin` accepted by `validarFormatoHora`; the
handler does not compare `horaInicio` with `horaFin`. A request that is not answered with
the created venue stores nothing. -/
theorem c24_ventanas_con_formato (canchas : List Cancha) (usuario : Id)
    (body : SolicitudEditarCancha) (nuevoId : Id) :
    (∀ c, (crearCancha canchas usuario body nuevoId).respuesta = Respuesta.canchaCreada c →
      (crearCancha canchas usuario body nuevoId).canchas = canchas ++ [c]
      ∧ ∀ h ∈ c.horarios,
          validarFormatoHora h.horaInicio = true ∧ validarFormatoHora h.horaFin = true)
    ∧ ((∀ c, (crearCancha canchas usuario body nuevoId).respuesta ≠ Respuesta.canchaCreada c) →
      (crearCancha canchas usuario body nuevoId).canchas = canchas) := by
  rcases crearCancha_casos canchas usuario body nuevoId with ⟨st, msg, h⟩ | ⟨c, hv, h⟩
  · rw [h]
    exact ⟨fun c hc => absurd hc (by simp), fun _ => rfl⟩
  · rw [h]
    refine ⟨?_, fun hn => absurd rfl (hn c)⟩
    intro c' hc
    simp only [Respuesta.canchaCreada.injEq] at hc
    subst hc
    refine ⟨rfl, ?_⟩
    intro w hw
    simp only [validaCanchaSchema, Bool.and_eq_true, List.all_eq_true] at hv
    exact hv.2 w hw

/-- C24 at the scenario: the venue created with the window 11:00 to 09:00. -/
theorem c24_ventanas_con_formato_witness :
    (crearCancha [] "admin1" solicitudVentanaInvertida "X").canchas
      = [] ++ [canchaVentanaInvertida]
    ∧ ∀ h ∈ canchaVentanaInvertida.horarios,
        validarFormatoHora h.horaInicio = true ∧ validarFormatoHora h.horaFin = true :=
  (c24_ventanas_con_formato [] "admin1" solicitudVentanaInvertida "X").1
    canchaVentanaInvertida (by decide)

/-- C24 as stated fails: the request with the window 11:00 to 09:00 is answered 201 and the
venue is stored with that window, whose `horaInicio` is later than its `horaFin`; the
window then yields no slot. -/
theorem c24_contraejemplo_ventana_invertida :
    crearCancha [] "admin1" solicitudVentanaInvertida "X"
      = ⟨[canchaVentanaInvertida], Respuesta.canchaCreada canchaVentanaInvertida⟩
    ∧ minutosDe "11:00" = some 660 ∧ minutosDe "09:00" = some 540
    ∧ slotsEnumerados canchaVentanaInvertida.horarios = [] := by
  decide

/-- C29 (venue deletion and future confirmed bookings), evaluated. On Monday 2099-01-05 at
08:00, with the confirmed reservation `r1` of venue `V` starting that day at 09:00,
`eliminarCancha` by the owner counts no future reservation, deactivates the venue and
answers with the deletion: the query compares `fecha`, the midnight of the day, with the
current instant. On the Friday before, the same reservation blocks the deletion. -/
theorem c29_reserva_de_hoy_no_bloquea :
    reservaConfirmada.canchaId = "V" ∧ reservaConfirmada.estado = Estado.confirmada
    ∧ inicioReserva reservaConfirmada = some 4071286800000
    ∧ entornoLunesTemprano.now = 4071283200000
    ∧ contarReservasFuturas entornoLunesTemprano [reservaConfirmada] "V" = 0
    ∧ eliminarCancha entornoLunesTemprano [canchaV] [reservaConfirmada] "admin1" "V"
      = ⟨[{ canchaV with activa := false }], Respuesta.canchaEliminada "V" "Cancha V"⟩
    ∧ eliminarCancha (entornoEn 10) [canchaV] [reservaConfirmada] "admin1" "V"
      = ⟨[canchaV], Respuesta.error 400
          "No se puede eliminar. Hay 1 reserva(s) confirmada(s)." none⟩ := by
  decide

/-- When `crearReserva` calls the gateway, it has just inserted the new pending reservation
and calls with the arguments built from it. -/
theorem crearReserva_llamada (env : Entorno) (canchas : List Cancha) (store : List Reserva)
    (usuario : Id) (body : SolicitudReserva) (nuevoId : Id)
    (webpay : Except String CreateResponse) (ll : LlamadaCreate)
    (h : (crearReserva env canchas store usuario body nuevoId webpay).llamada = some ll) :
    ∃ nuevaReserva cancha, nuevaReserva._id = nuevoId ∧ nuevaReserva.monto = cancha.precio
      ∧ nuevaReserva.estado = Estado.pendiente
      ∧ saveNueva env store nuevaReserva = Except.ok (store ++ [nuevaReserva])
      ∧ ll = llamadaCreate nuevaReserva cancha := by
  unfold crearReserva at h
  dsimp only at h
  split at h
  · split at h
    · simp at h
    · split at h
      · simp at h
      · split at h
        · simp at h
        · rename_i cancha hc
          split at h
          · simp at h
          · split at h
            · simp at h
            · split at h
              · simp at h
              · rename_i store1 hs
                obtain ⟨hs1, _⟩ := saveNueva_ok env store store1 _ hs
                subst hs1
                refine ⟨_, cancha, rfl, rfl, rfl, hs, ?_⟩
                split at h
                · simpa using h.symm
                · split at h
                  · simpa using h.symm
                  · simpa using h.symm
  · simp at h

/-- The documents after an update are those before, or the one written. -/
theorem mem_reemplazar (r d : Reserva) (store : List Reserva) (h : d ∈ reemplazar r store) :
    d ∈ store ∨ d = r := by
  induction store with
  | nil => simp [reemplazar] at h
  | cons x xs ih =>
    simp only [reemplazar] at h
    split at h
    · rcases List.mem_cons.mp h with h | h
      · exact Or.inr h
      · exact Or.inl (List.mem_cons_of_mem _ h)
    · rcases List.mem_cons.mp h with h | h
      · exact Or.inl (h ▸ List.mem_cons_self _ _)
      · rcases ih h with h | h
        · exact Or.inl (List.mem_cons_of_mem _ h)
        · exact Or.inr h

/-- The documents after `webpayReturn` are those before, or a document of the collection
with the payment outcome applied. -/
theorem mem_webpayReturn (env : Entorno) (store : List Reserva) (token_ws : Option String)
    (commit : Except String CommitResponse) (d : Reserva)
    (h : d ∈ (webpayReturn env store token_ws commit).store) :
    d ∈ store ∨ ∃ c x, x ∈ store ∧ d = conPago c x := by
  cases ht : presente token_ws with
  | none =>
    rw [webpayReturn_store_sin_reserva _ _ _ _ (Or.inl ht)] at h
    exact Or.inl h
  | some token =>
    cases commit with
    | error e =>
      rw [webpayReturn_store_sin_reserva _ _ _ (Except.error e) (Or.inr (Or.inl ⟨e, rfl⟩))] at h
      exact Or.inl h
    | ok c =>
      cases hf : store.find? (fun d => d.webpayToken == some token) with
      | none =>
        rw [webpayReturn_store_sin_reserva env store token_ws _
          (Or.inr (Or.inr (fun t h => by rw [ht] at h; cases h; exact hf)))] at h
        exact Or.inl h
      | some x =>
        rw [webpayReturn_store env store token_ws token c x ht hf] at h
        cases hs : saveExistente env store (conPago c x) with
        | error e =>
          rw [hs] at h
          exact Or.inl h
        | ok store1 =>
          rw [hs] at h
          have h1 := saveExistente_ok env store store1 _ hs
          subst h1
          rcases mem_reemplazar _ _ _ h with h | h
          · exact Or.inl h
          · exact Or.inr ⟨c, x, List.mem_of_find?_eq_some hf, h⟩

/-- The documents after `cancelarReserva` are those before, or a pending document of the
collection turned `cancelada`. -/
theorem mem_cancelarReserva (env : Entorno) (store : List Reserva) (usuario id : Id)
    (d : Reserva) (h : d ∈ (cancelarReserva env store usuario id).store) :
    d ∈ store ∨ ∃ x, x ∈ store ∧ x.estado = Estado.pendiente
      ∧ d = { x with estado := Estado.cancelada } := by
  unfold cancelarReserva at h
  cases hf : findById store id with
  | none =>
    rw [hf] at h
    exact Or.inl h
  | some x =>
    rw [hf] at h
    simp only at h
    split at h
    · exact Or.inl h
    · split at h
      · exact Or.inl h
      · rename_i hp
        cases hs : saveExistente env store { x with estado := Estado.cancelada } with
        | error e =>
          rw [hs] at h
          exact Or.inl h
        | ok store1 =>
          rw [hs] at h
          have h1 := saveExistente_ok env store store1 _ hs
          subst h1
          rcases mem_reemplazar _ _ _ h with h | h
          · exact Or.inl h
          · exact Or.inr ⟨x, (findById_some store id x hf).2, by simpa using hp, h⟩

/-- A property of documents that holds of every new pending reservation and is kept by the
payment outcome and by the cancellation holds of every document of every collection
reachable from the empty one. -/
theorem ejecutar_invariante (P : Reserva → Prop)
    (hNueva : ∀ r : Reserva, r.estado = Estado.pendiente → r.datosPago = none →
      (∃ t, r.webpayToken = some t) → P r)
    (hPago : ∀ c x, P x → P (conPago c x))
    (hCancela : ∀ x : Reserva, P x → x.estado = Estado.pendiente →
      P { x with estado := Estado.cancelada })
    (pasos : List Paso) : ∀ r ∈ ejecutar pasos, P r := by
  have paso : ∀ (store : List Reserva) (p : Paso), (∀ r ∈ store, P r) →
      ∀ r ∈ aplicar store p, P r := by
    intro store p hI r hr
    cases p with
    | crear env canchas usuario body nuevoId webpay =>
      simp only [aplicar] at hr
      rcases crearReserva_store_casos env canchas store usuario body nuevoId webpay with h | h
      · rw [h] at hr
        exact hI r hr
      · obtain ⟨_, _, _, _, cr, _, _, _, _, _, _, _, h⟩ := h
        rw [h] at hr
        rcases List.mem_append.mp hr with hr | hr
        · exact hI r hr
        · simp only [List.mem_singleton] at hr
          subst hr
          exact hNueva _ rfl rfl ⟨cr.token, rfl⟩
    | retorno env token_ws commit =>
      simp only [aplicar] at hr
      rcases mem_webpayReturn env store token_ws commit r hr with h | ⟨c, x, hx, h⟩
      · exact hI r h
      · subst h
        exact hPago c x (hI x hx)
    | cancelar env usuario id =>
      simp only [aplicar] at hr
      rcases mem_cancelarReserva env store usuario id r hr with h | ⟨x, hx, hp, h⟩
      · exact hI r h
      · subst h
        exact hCancela x (hI x hx) hp
    | ttl now =>
      simp only [aplicar, expirarTTL] at hr
      exact hI r (List.mem_of_mem_filter hr)
  have gen : ∀ (ps : List Paso) (store : List Reserva), (∀ r ∈ store, P r) →
      ∀ r ∈ ps.foldl aplicar store, P r := by
    intro ps
    induction ps with
    | nil => intro store hI; simpa using hI
    | cons p ps ih =>
      intro store hI
      simp only [List.foldl_cons]
      exact ih _ (paso store p hI)
  exact gen pasos [] (by simp)

/-- C26 (payment record only on terminal reservations). In every collection reachable from
the empty one by `crearReserva`, `webpayReturn`, `cancelarReserva` and TTL passes, every
reservation whose `datosPago` is set has estado `confirmada` or `cancelada`. -/
theorem c26_datosPago_solo_en_terminales (pasos : List Paso) :
    ∀ r ∈ ejecutar pasos, r.datosPago ≠ none →
      (r.estado = Estado.confirmada ∨ r.estado = Estado.cancelada) := by
  apply ejecutar_invariante
    (fun r => r.datosPago ≠ none → (r.estado = Estado.confirmada ∨ r.estado = Estado.cancelada))
  · intro r _ hd _ h
    exact absurd hd h
  · intro c x _ _
    unfold conPago
    split
    · exact Or.inl rfl
    · exact Or.inr rfl
  · intro x _ _ _
    exact Or.inr rfl

/-- C27 (no orphaned pending reservation). After `crearReserva` has returned, whatever the
gateway did, every reservation of the collection was there before or carries the token
that the gateway returned; and in every collection reachable from the empty one by
`crearReserva`, `webpayReturn`, `cancelarReserva` and TTL passes, every reservation, in
particular every pending one, has a `webpayToken`. -/
theorem c27_sin_pendiente_huerfana :
    (∀ (env : Entorno) (canchas : List Cancha) (store : List Reserva) (usuario : Id)
      (body : SolicitudReserva) (nuevoId : Id) (webpay : Except String CreateResponse),
      ∀ r ∈ (crearReserva env canchas store usuario body nuevoId webpay).store,
        r ∈ store ∨ ∃ cr, webpay = Except.ok cr ∧ r.webpayToken = some cr.token)
    ∧ ∀ (pasos : List Paso), ∀ r ∈ ejecutar pasos, r.webpayToken ≠ none := by
  constructor
  · intro env canchas store usuario body nuevoId webpay r hr
    rcases crearReserva_store_casos env canchas store usuario body nuevoId webpay with h | h
    · rw [h] at hr
      exact Or.inl hr
    · obtain ⟨_, _, _, _, cr, _, _, _, _, _, hw, _, h⟩ := h
      rw [h] at hr
      rcases List.mem_append.mp hr with hr | hr
      · exact Or.inl hr
      · simp only [List.mem_singleton] at hr
        subst hr
        exact Or.inr ⟨cr, hw, rfl⟩
  · intro pasos
    apply ejecutar_invariante (fun r => r.webpayToken ≠ none)
    · rintro r _ _ ⟨t, ht⟩
      simp [ht]
    · intro c x hx
      rw [conPago_token]
      exact hx
    · intro x hx _
      exact hx

/-- C28 (role gating). For every request, `esSuperAdmin`, `esAdmin` and `esUsuario` call
`next()` if and only if `req.user` is present and its `rol` is `superadmin`, `admin` and
`user` respectively, and otherwise answer 403; at most one of the three calls `next()`;
`esAdminOSuperAdmin` calls `next()` if and only if `esAdmin` or `esSuperAdmin` does. -/
theorem c28_roles_exactos (user : Option Usuario) :
    (esSuperAdmin user = Middleware.next ↔ ∃ u, user = some u ∧ u.rol = Rol.superadmin)
    ∧ (esAdmin user = Middleware.next ↔ ∃ u, user = some u ∧ u.rol = Rol.admin)
    ∧ (esUsuario user = Middleware.next ↔ ∃ u, user = some u ∧ u.rol = Rol.user)
    ∧ (esSuperAdmin user ≠ Middleware.next →
        esSuperAdmin user = Middleware.responde 403 "Acceso denegado. Solo superadministradores.")
    ∧ (esAdmin user ≠ Middleware.next →
        esAdmin user = Middleware.responde 403 "Acceso denegado. Solo administradores.")
    ∧ (esUsuario user ≠ Middleware.next →
        esUsuario user = Middleware.responde 403 "Acceso denegado. Solo usuarios.")
    ∧ ¬ (esSuperAdmin user = Middleware.next ∧ esAdmin user = Middleware.next)
    ∧ ¬ (esSuperAdmin user = Middleware.next ∧ esUsuario user = Middleware.next)
    ∧ ¬ (esAdmin user = Middleware.next ∧ esUsuario user = Middleware.next)
    ∧ (esAdminOSuperAdmin user = Middleware.next ↔
        (esAdmin user = Middleware.next ∨ esSuperAdmin user = Middleware.next))
    ∧ (esAdminOSuperAdmin user ≠ Middleware.next →
        esAdminOSuperAdmin user
          = Middleware.responde 403 "Acceso denegado. Requiere permisos de administrador.") := by
  cases user with
  | none => simp [esSuperAdmin, esAdmin, esUsuario, esAdminOSuperAdmin]
  | some u =>
    obtain ⟨i, n, e, p, rol⟩ := u
    cases rol <;> simp [esSuperAdmin, esAdmin, esUsuario, esAdminOSuperAdmin]

/-- The user found by `_id` is in the collection. -/
theorem findUserById_mem (usuarios : List Usuario) (id : Id) (u : Usuario)
    (h : findUserById usuarios id = some u) : u ∈ usuarios ∧ u._id = id := by
  unfold findUserById at h
  exact ⟨List.mem_of_find?_eq_some h, by simpa using List.find?_some h⟩

/-- An update of the user found by `_id` changes that user and no other. -/
theorem forall2_reemplazarUsuario (r x : Usuario) (usuarios : List Usuario)
    (h : findUserById usuarios r._id = some x) :
    List.Forall₂ (fun a b => b = a ∨ (a = x ∧ b = r)) usuarios (reemplazarUsuario r usuarios) := by
  induction usuarios with
  | nil => exact List.Forall₂.nil
  | cons d ds ih =>
    simp only [reemplazarUsuario]
    unfold findUserById at h ih
    by_cases hd : d._id = r._id
    · have hb : (d._id == r._id) = true := by simpa using hd
      rw [List.find?_cons, hb] at h
      simp only [Option.some.injEq] at h
      simp only [hb, if_true]
      refine List.Forall₂.cons (Or.inr ⟨h, rfl⟩) ?_
      exact List.forall₂_same.mpr (fun a _ => Or.inl rfl)
    · have hb : (d._id == r._id) = false := by simpa using hd
      rw [List.find?_cons, hb] at h
      simp only [hb, Bool.false_eq_true, if_false]
      exact List.Forall₂.cons (Or.inl rfl) (ih h)

/-- Deleting by `_id` keeps every user other than the one found by that `_id`. -/
theorem mem_borrarUsuario (usuarios : List Usuario) (id : Id) (u : Usuario)
    (hu : u ∈ usuarios) (hne : findUserById usuarios id ≠ some u) :
    u ∈ borrarUsuario id usuarios := by
  induction usuarios with
  | nil => simp at hu
  | cons d ds ih =>
    simp only [borrarUsuario]
    unfold findUserById at hne ih
    by_cases hd : d._id = id
    · have hb : (d._id == id) = true := by simpa using hd
      rw [List.find?_cons, hb] at hne
      simp only [hb, if_true]
      rcases List.mem_cons.mp hu with h | h
      · exact absurd (by rw [h]) hne
      · exact h
    · have hb : (d._id == id) = false := by simpa using hd
      rw [List.find?_cons, hb] at hne
      simp only [hb, Bool.false_eq_true, if_false]
      rcases List.mem_cons.mp hu with h | h
      · exact h ▸ List.mem_cons_self _ _
      · exact List.mem_cons_of_mem _ (ih h hne)

/-- Deleting by `_id` leaves a sublist. -/
theorem borrarUsuario_sublist (usuarios : List Usuario) (id : Id) :
    (borrarUsuario id usuarios).Sublist usuarios := by
  induction usuarios with
  | nil => exact List.Sublist.slnil
  | cons d ds ih =>
    simp only [borrarUsuario]
    split
    · exact List.sublist_cons_self _ _
    · exact List.Sublist.cons₂ _ ih

/-- What `editarAdmin` does to the collection: nothing, or it writes a document with the
`_id` and the `rol` of the admin found by `id`. -/
theorem editarAdmin_casos (hash : String → String) (usuarios : List Usuario) (id : Id)
    (body : SolicitudEditarAdmin) :
    (editarAdmin hash usuarios id body).usuarios = usuarios
    ∨ ∃ admin nuevo, findUserById usuarios id = some admin ∧ admin.rol = Rol.admin
        ∧ nuevo._id = admin._id ∧ nuevo.rol = admin.rol
        ∧ (editarAdmin hash usuarios id body).usuarios = reemplazarUsuario nuevo usuarios := by
  unfold editarAdmin
  cases hf : findUserById usuarios id with
  | none => exact Or.inl rfl
  | some admin =>
    simp only
    split
    · exact Or.inl rfl
    · rename_i hrol
      have hrol' : admin.rol = Rol.admin := by simpa using hrol
      split
      · exact Or.inl rfl
      · rename_i a2 ha2
        split
        · exact Or.inl rfl
        · rename_i a3 ha3
          have h2 : a2._id = admin._id ∧ a2.rol = admin.rol := by
            revert ha2
            repeat' split
            all_goals first
              | (intro h; simp only [Except.ok.injEq] at h; subst h; exact ⟨rfl, rfl⟩)
              | (intro h; simp at h)
          have h3 : a3._id = admin._id ∧ a3.rol = admin.rol := by
            revert ha3
            repeat' split
            all_goals first
              | (intro h; simp only [Except.ok.injEq] at h; subst h; exact h2)
              | (intro h; simp at h)
          split
          · rename_i usuarios1 hs
            right
            unfold saveUsuario at hs
            split at hs
            · simp only [Option.some.injEq] at hs
              refine ⟨admin, _, rfl, hrol', ?_, ?_, hs.symm⟩
              · split
                · exact h3.1
                · exact h3.1
              · split
                · exact h3.2
                · exact h3.2
            · simp at hs
          · exact Or.inl rfl

/-- C30 (only admins are managed). For every user collection and every request: when the
user found by `id` is not an `admin`, `editarAdmin` and `eliminarAdmin` answer 400 and
leave the collection as it is; `editarAdmin` keeps the `_id` and the `rol` at every
position and changes a user only if its `rol` is `admin`; `eliminarAdmin` leaves a sublist
of the collection that still holds every user whose `rol` is not `admin`. -/
theorem c30_solo_admins (hash : String → String) (usuarios : List Usuario) (id : Id)
    (body : SolicitudEditarAdmin) :
    (∀ u, findUserById usuarios id = some u → u.rol ≠ Rol.admin →
      editarAdmin hash usuarios id body
        = ⟨usuarios, RespuestaAdmin.error 400
            "Solo se pueden editar administradores, no superadministradores."⟩
      ∧ eliminarAdmin usuarios id
        = ⟨usuarios, RespuestaAdmin.error 400
            "Solo se pueden eliminar administradores, no superadministradores."⟩)
    ∧ List.Forall₂
        (fun a b => a._id = b._id ∧ a.rol = b.rol ∧ (b ≠ a → a.rol = Rol.admin))
        usuarios (editarAdmin hash usuarios id body).usuarios
    ∧ (∀ u ∈ usuarios, u.rol ≠ Rol.admin → u ∈ (eliminarAdmin usuarios id).usuarios)
    ∧ (eliminarAdmin usuarios id).usuarios.Sublist usuarios := by
  refine ⟨?_, ?_, ?_, ?_⟩
  · intro u hf hr
    constructor
    · simp [editarAdmin, hf, hr]
    · simp [eliminarAdmin, hf, hr]
  · rcases editarAdmin_casos hash usuarios id body with h | ⟨admin, nuevo, hf, hrol, hid, hr, h⟩
    · rw [h]
      exact List.forall₂_same.mpr (fun a _ => ⟨rfl, rfl, fun hne => absurd rfl hne⟩)
    · rw [h]
      have hf' : findUserById usuarios nuevo._id = some admin := by
        rw [hid, (findUserById_mem usuarios id admin hf).2]
        exact hf
      refine List.Forall₂.imp ?_ (forall2_reemplazarUsuario nuevo admin usuarios hf')
      intro a b hab
      rcases hab with hab | ⟨ha, hb⟩
      · subst hab
        exact ⟨rfl, rfl, fun hne => absurd rfl hne⟩
      · subst ha hb
        exact ⟨hid.symm, hr.symm, fun _ => hrol⟩
  · intro u hu hr
    unfold eliminarAdmin
    cases hf : findUserById usuarios id with
    | none => exact hu
    | some admin =>
      simp only
      split
      · exact hu
      · rename_i hrol
        have hrol' : admin.rol = Rol.admin := by simpa using hrol
        apply mem_borrarUsuario usuarios id u hu
        rw [hf]
        intro heq
        simp only [Option.some.injEq] at heq
        subst heq
        exact hr hrol'
  · unfold eliminarAdmin
    cases hf : findUserById usuarios id with
    | none => exact List.Sublist.refl _
    | some admin =>
      simp only
      split
      · exact List.Sublist.refl _
      · exact borrarUsuario_sublist usuarios id

/-- C30 at the scenario: the superadmin and a customer are refused, the admin is edited and
deleted. -/
theorem c30_solo_admins_witness :
    (editarAdmin hashDemo usuariosDemo "s1" ⟨some "Otro Nombre", none, some "nuevaclave"⟩
        = ⟨usuariosDemo, RespuestaAdmin.error 400
            "Solo se pueden editar administradores, no superadministradores."⟩
      ∧ eliminarAdmin usuariosDemo "s1"
        = ⟨usuariosDemo, RespuestaAdmin.error 400
            "Solo se pueden eliminar administradores, no superadministradores."⟩)
    ∧ (editarAdmin hashDemo usuariosDemo "a1" ⟨some "Ana María", none, some "nuevaclave"⟩).usuarios
        = [⟨"s1", "Super Admin", "root@canchas.cl", "hash:raiz00", Rol.superadmin⟩,
           ⟨"a1", "Ana María", "ana@canchas.cl", "hash:nuevaclave", Rol.admin⟩,
           ⟨"u1", "Ulises Usuario", "ulises@correo.cl", "hash:clave11", Rol.user⟩]
    ∧ (eliminarAdmin usuariosDemo "u1").usuarios = usuariosDemo
    ∧ (eliminarAdmin usuariosDemo "a1").usuarios
        = [⟨"s1", "Super Admin", "root@canchas.cl", "hash:raiz00", Rol.superadmin⟩,
           ⟨"u1", "Ulises Usuario", "ulises@correo.cl", "hash:clave11", Rol.user⟩] :=
  ⟨(c30_solo_admins hashDemo usuariosDemo "s1"
      ⟨some "Otro Nombre", none, some "nuevaclave"⟩).1
      ⟨"s1", "Super Admin", "root@canchas.cl", "hash:raiz00", Rol.superadmin⟩
      (by decide) (by decide),
    by decide, by decide, by decide⟩

/-- The parts of a string of the form `HH:MM`. -/
theorem partes_horaSlot : ∀ hh, hh < 24 → ∀ mm, mm < 60 →
    partes (horaSlot hh mm) = some (hh, mm) := by
  decide

/-- The parts of a string of the form `H:MM`. -/
theorem partes_unDigito : ∀ h, h < 10 → ∀ mm, mm < 60 →
    partes (String.mk (Nat.digitChar h :: ':' :: padStart2 mm)) = some (h, mm) := by
  decide

/-- An accepted string splits into an hour below 24 and a minute below 60. -/
theorem partes_de_valida (s : String) (h : validarFormatoHora s = true) :
    ∃ hh mm, partes s = some (hh, mm) ∧ hh < 24 ∧ mm < 60 := by
  rcases validarFormatoHora_formas s h with ⟨hh, mm, h1, h2, rfl⟩ | ⟨a, mm, h1, h2, rfl⟩
  · exact ⟨hh, mm, partes_horaSlot hh h1 mm h2, h1, h2⟩
  · exact ⟨a, mm, partes_unDigito a h1 mm h2, by omega, h2⟩

/-- A slot: a string of the form `HH:MM`. -/
theorem slot_de_ventanas_validas (R : List String) (hs : List Horario) (slot : String)
    (hv : ∀ h ∈ hs, validarFormatoHora h.horaInicio = true ∧ validarFormatoHora h.horaFin = true)
    (h : slot ∈ generarHorarios R hs) :
    ∃ hh mm, hh < 24 ∧ mm < 60 ∧ slot = horaSlot hh mm := by
  have h1 := ((mem_generarHorarios R hs slot).mp h).1
  unfold slotsEnumerados generarHorarios at h1
  rw [mem_foldl_slotsDeHorario [] slot hs []] at h1
  simp only [List.not_mem_nil, false_or, not_false_eq_true, true_and] at h1
  obtain ⟨horario, hmem, hslot⟩ := h1
  obtain ⟨a1, m1, hp1, _, hm1⟩ := partes_de_valida _ (hv horario hmem).1
  obtain ⟨a2, m2, hp2, ha2, _⟩ := partes_de_valida _ (hv horario hmem).2
  simp only [slotsDeHorario, hp1, hp2, mem_generarSlots, List.not_mem_nil, false_or,
    not_false_eq_true, true_and] at hslot
  obtain ⟨k, hk, hs'⟩ := hslot
  exact ⟨a1 + k, m1, by omega, hm1, hs'⟩

/-- The five characters of a slot string. -/
theorem horaSlot_data : ∀ h, h < 24 → ∀ m, m < 60 →
    (horaSlot h m).data = [Nat.digitChar (h / 10), Nat.digitChar (h % 10), ':',
      Nat.digitChar (m / 10), Nat.digitChar (m % 10)] := by
  decide

/-- The code unit of a decimal digit. -/
theorem digitChar_toNat : ∀ k, k < 10 → (Nat.digitChar k).toNat = 48 + k := by
  decide

/-- On slot strings the order of the code units is the order of the minutes since midnight. -/
theorem menorIgualTexto_horaSlot (h m h2 m2 : Nat) (hh : h < 24) (hm : m < 60)
    (hh2 : h2 < 24) (hm2 : m2 < 60) :
    menorIgualTexto (horaSlot h m).data (horaSlot h2 m2).data
      = decide (h * 60 + m ≤ h2 * 60 + m2) := by
  rw [horaSlot_data h hh m hm, horaSlot_data h2 hh2 m2 hm2]
  simp only [menorIgualTexto]
  rw [digitChar_toNat (h / 10) (by omega), digitChar_toNat (h % 10) (by omega),
    digitChar_toNat (m / 10) (by omega), digitChar_toNat (m % 10) (by omega),
    digitChar_toNat (h2 / 10) (by omega), digitChar_toNat (h2 % 10) (by omega),
    digitChar_toNat (m2 / 10) (by omega), digitChar_toNat (m2 % 10) (by omega)]
  split_ifs <;> simp <;> omega

/-- Minutes since midnight of a slot string. -/
theorem minutosDe_horaSlot (h m : Nat) (hh : h < 24) (hm : m < 60) :
    minutosDe (horaSlot h m) = some (h * 60 + m) := by
  simp [minutosDe, partes_horaSlot h hh m hm]

/-- Inserting a slot string into a chronologically ordered list of slot strings keeps it
ordered. -/
theorem insertarOrdenado_ordenada (x : String) (l : List String)
    (hx : ∃ h m, h < 24 ∧ m < 60 ∧ x = horaSlot h m)
    (hl : ∀ y ∈ l, ∃ h m, h < 24 ∧ m < 60 ∧ y = horaSlot h m)
    (ho : l.Pairwise (fun a b => ∃ p q, minutosDe a = some p ∧ minutosDe b = some q ∧ p ≤ q)) :
    (insertarOrdenado x l).Pairwise
      (fun a b => ∃ p q, minutosDe a = some p ∧ minutosDe b = some q ∧ p ≤ q) := by
  induction l with
  | nil => simp [insertarOrdenado]
  | cons y ys ih =>
    obtain ⟨h, m, hh, hm, rfl⟩ := hx
    obtain ⟨h2, m2, hh2, hm2, hy⟩ := hl y (List.mem_cons_self _ _)
    subst hy
    rw [List.pairwise_cons] at ho
    simp only [insertarOrdenado, menorIgualTexto_horaSlot h m h2 m2 hh hm hh2 hm2]
    by_cases hle : h * 60 + m ≤ h2 * 60 + m2
    · simp only [hle, decide_True, if_true]
      refine List.Pairwise.cons ?_ (List.Pairwise.cons ho.1 ho.2)
      intro z hz
      rcases List.mem_cons.mp hz with rfl | hz
      · exact ⟨_, _, minutosDe_horaSlot h m hh hm, minutosDe_horaSlot h2 m2 hh2 hm2, hle⟩
      · obtain ⟨p, q, hp, hq, hpq⟩ := ho.1 z hz
        rw [minutosDe_horaSlot h2 m2 hh2 hm2] at hp
        cases hp
        exact ⟨_, q, minutosDe_horaSlot h m hh hm, hq, by omega⟩
    · simp only [hle, decide_False, Bool.false_eq_true, if_false]
      refine List.Pairwise.cons ?_
        (ih (fun z hz => hl z (List.mem_cons_of_mem _ hz)) ho.2)
      intro z hz
      rcases (mem_insertarOrdenado _ z ys).mp hz with rfl | hz
      · exact ⟨_, _, minutosDe_horaSlot h2 m2 hh2 hm2, minutosDe_horaSlot h m hh hm, by omega⟩
      · exact ho.1 z hz

/-- Sorting a list of slot strings puts it in chronological order. -/
theorem ordenar_ordenada (l : List String)
    (hl : ∀ y ∈ l, ∃ h m, h < 24 ∧ m < 60 ∧ y = horaSlot h m) :
    (ordenar l).Pairwise
      (fun a b => ∃ p q, minutosDe a = some p ∧ minutosDe b = some q ∧ p ≤ q) := by
  induction l with
  | nil => simp [ordenar]
  | cons x xs ih =>
    simp only [ordenar]
    refine insertarOrdenado_ordenada x (ordenar xs) (hl x (List.mem_cons_self _ _)) ?_
      (ih (fun y hy => hl y (List.mem_cons_of_mem _ hy)))
    intro y hy
    exact hl y (List.mem_cons_of_mem _ ((mem_ordenar y xs).mp hy))

/-- The list returned by `verDisponibilidad`: empty, or the sorted slots of the windows of
the day. -/
theorem verDisponibilidad_lista (env : Entorno) (canchas : List Cancha) (store : List Reserva)
    (id : Id) (fecha : Option FechaStr) (cancha : Cancha)
    (hc : findCanchaById canchas id = some cancha)
    (mensaje : Option String) (dia : Option Dia) (L : List String)
    (h : verDisponibilidad env canchas store id fecha = Respuesta.disponibilidad mensaje dia L) :
    L = [] ∨ ∃ R d, L = ordenar (generarHorarios R (cancha.horarios.filter (fun h => h.dia == d))) := by
  unfold verDisponibilidad at h
  cases fecha with
  | none => simp at h
  | some f =>
    simp only [hc] at h
    repeat' split at h
    all_goals first
      | (injection h with _ _ h3; exact Or.inl h3.symm)
      | (injection h with _ _ h3; exact Or.inr ⟨_, _, h3.symm⟩)
      | cases h

/-- C22. For a venue whose window hours all pass `validarFormatoHora`, the list of free
hours returned by `verDisponibilidad` is in non-decreasing order of minutes since midnight,
for every date and every store. -/
theorem c22_orden_ascendente (env : Entorno) (canchas : List Cancha) (store : List Reserva)
    (id : Id) (fecha : Option FechaStr) (cancha : Cancha)
    (hCancha : findCanchaById canchas id = some cancha)
    (hVentanas : ∀ h ∈ cancha.horarios,
      validarFormatoHora h.horaInicio = true ∧ validarFormatoHora h.horaFin = true)
    (mensaje : Option String) (dia : Option Dia) (L : List String)
    (hResp : verDisponibilidad env canchas store id fecha
      = Respuesta.disponibilidad mensaje dia L) :
    L.Pairwise (fun a b => ∃ p q, minutosDe a = some p ∧ minutosDe b = some q ∧ p ≤ q) := by
  rcases verDisponibilidad_lista env canchas store id fecha cancha hCancha mensaje dia L hResp
    with rfl | ⟨R, d, rfl⟩
  · exact List.Pairwise.nil
  · apply ordenar_ordenada
    intro y hy
    exact slot_de_ventanas_validas R _ y
      (fun h hh => hVentanas h (List.mem_of_mem_filter hh)) hy

/-- C22 at a venue whose windows are stored afternoon first: the four free hours of Monday
2099-01-05 come back from the morning to the afternoon. -/
theorem c22_orden_ascendente_witness :
    findCanchaById [canchaDosVentanas] "D" = some canchaDosVentanas
    ∧ (∀ h ∈ canchaDosVentanas.horarios,
        validarFormatoHora h.horaInicio = true ∧ validarFormatoHora h.horaFin = true)
    ∧ verDisponibilidad (entornoEn 2) [canchaDosVentanas] [] "D" (some ⟨2099, 1, 5⟩)
        = Respuesta.disponibilidad none (some Dia.Lunes) ["09:00", "10:00", "15:00", "16:00"]
    ∧ ["09:00", "10:00", "15:00", "16:00"].Pairwise
        (fun a b => ∃ p q, minutosDe a = some p ∧ minutosDe b = some q ∧ p ≤ q) :=
  ⟨by decide, by decide, by decide,
    c22_orden_ascendente (entornoEn 2) [canchaDosVentanas] [] "D" (some ⟨2099, 1, 5⟩)
      canchaDosVentanas (by decide) (by decide) none (some Dia.Lunes) _ (by decide)⟩

/-- Deleting by `_id` leaves a sublist. -/
theorem findByIdAndDelete_sublist (id : Id) (store : List Reserva) :
    (findByIdAndDelete id store).Sublist store := by
  induction store with
  | nil => exact List.Sublist.refl _
  | cons d ds ih =>
    simp only [findByIdAndDelete]
    split
    · exact List.sublist_cons_self _ _
    · exact List.Sublist.cons₂ _ ih

/-- Deleting by `_id` keeps the documents with another `_id`. -/
theorem mem_findByIdAndDelete_otro (id : Id) (d : Reserva) (store : List Reserva)
    (hd : d ∈ store) (hid : d._id ≠ id) : d ∈ findByIdAndDelete id store := by
  induction store with
  | nil => cases hd
  | cons x xs ih =>
    simp only [findByIdAndDelete]
    rcases List.mem_cons.mp hd with rfl | hd
    · have : (d._id == id) = false := by simpa using hid
      simp [this]
    · split
      · exact hd
      · exact List.mem_cons_of_mem _ (ih hd)

/-- An update keeps the documents with another `_id`. -/
theorem mem_reemplazar_otro (r d : Reserva) (store : List Reserva)
    (hd : d ∈ store) (hid : d._id ≠ r._id) : d ∈ reemplazar r store := by
  induction store with
  | nil => cases hd
  | cons x xs ih =>
    simp only [reemplazar]
    rcases List.mem_cons.mp hd with rfl | hd
    · have : (d._id == r._id) = false := by simpa using hid
      simp [this]
    · split
      · exact List.mem_cons_of_mem _ hd
      · exact List.mem_cons_of_mem _ (ih hd)

/-- An update of a document of the collection leaves the document written in it. -/
theorem mem_reemplazar_propio (r : Reserva) (store : List Reserva)
    (h : ∃ d ∈ store, d._id = r._id) : r ∈ reemplazar r store := by
  induction store with
  | nil => obtain ⟨d, hd, _⟩ := h; cases hd
  | cons x xs ih =>
    simp only [reemplazar]
    split
    · exact List.mem_cons_self _ _
    · rename_i hx
      obtain ⟨d, hd, hid⟩ := h
      rcases List.mem_cons.mp hd with rfl | hd
      · simp [hid] at hx
      · exact List.mem_cons_of_mem _ (ih ⟨d, hd, hid⟩)

/-- An update keeps the `_id`s, position by position. -/
theorem map_id_reemplazar (r : Reserva) (store : List Reserva) :
    (reemplazar r store).map (fun d => d._id) = store.map (fun d => d._id) := by
  induction store with
  | nil => rfl
  | cons x xs ih =>
    simp only [reemplazar]
    split
    · rename_i hx
      simp only [beq_iff_eq] at hx
      simp [hx]
    · simp [ih]

/-- Colliding is symmetric. -/
theorem chocan_comm (a b : Reserva) : chocan a b = chocan b a := by
  unfold chocan mismoSlot
  rcases a with ⟨_, _, c1, f1, h1, e1, _, _, _, _⟩
  rcases b with ⟨_, _, c2, f2, h2, e2, _, _, _, _⟩
  simp only
  have e : ∀ {α : Type} [DecidableEq α] (x y : α), (x == y) = (y == x) := by
    intro α _ x y
    by_cases h : x = y
    · subst h; rfl
    · have h2 : ¬ y = x := fun e => h e.symm
      simp [h, h2]
  rw [Bool.and_comm (esViva e1), e c1 c2, e f1 f2, e h1 h2]

/-- An update by a document that collides with none of the others keeps the collection free
of collisions. -/
theorem pairwise_reemplazar (r : Reserva) (store : List Reserva)
    (hid : (store.map (fun d => d._id)).Nodup)
    (hp : store.Pairwise (fun a b => chocan a b = false))
    (hr : ∀ d ∈ store, d._id ≠ r._id → chocan d r = false) :
    (reemplazar r store).Pairwise (fun a b => chocan a b = false) := by
  induction store with
  | nil => simp [reemplazar]
  | cons x xs ih =>
    simp only [List.map_cons, List.nodup_cons, List.mem_map, not_exists, not_and] at hid
    rw [List.pairwise_cons] at hp
    simp only [reemplazar]
    split
    · rename_i hx
      simp only [beq_iff_eq] at hx
      refine List.Pairwise.cons ?_ hp.2
      intro d hd
      rw [chocan_comm]
      exact hr d (List.mem_cons_of_mem _ hd) (fun e => hid.1 d hd (e.trans hx.symm))
    · rename_i hx
      refine List.Pairwise.cons ?_
        (ih hid.2 hp.2 (fun d hd => hr d (List.mem_cons_of_mem _ hd)))
      intro d hd
      rcases mem_reemplazar r d xs hd with hd | rfl
      · exact hp.1 d hd
      · exact hr x (List.mem_cons_self _ _) (by simpa using hx)

/-- The unique index lets a pending document in only if no other pending document is on its
slot. -/
theorem indice_sin_pendiente (store : List Reserva) (r : Reserva)
    (hi : indiceUnicoAcepta store r = true) (hr : r.estado = Estado.pendiente)
    (d : Reserva) (hd : d ∈ store) (hid : d._id ≠ r._id)
    (hpend : d.estado = Estado.pendiente) : mismoSlot d r = false := by
  unfold indiceUnicoAcepta at hi
  simp only [hr, esViva, beq_self_eq_true, Bool.true_or, Bool.not_true, Bool.false_or,
    Bool.not_eq_true', List.any_eq_false, Bool.and_eq_true, bne_iff_ne, ne_eq, beq_iff_eq,
    not_and] at hi
  unfold mismoSlot
  by_cases h1 : d.canchaId = r.canchaId
  · by_cases h2 : d.fecha = r.fecha
    · by_cases h3 : d.hora = r.hora
      · exact absurd hpend (hi d hd ⟨⟨⟨hid, h1⟩, h2⟩, h3⟩)
      · simp [h3]
    · simp [h2]
  · simp [h1]

/-- A pending document that passes the unique index, with no confirmed document on its
slot, collides with no other document. -/
theorem sin_choque (store : List Reserva) (r : Reserva)
    (hi : indiceUnicoAcepta store r = true) (hr : r.estado = Estado.pendiente)
    (hc : ∀ d ∈ store, d.estado = Estado.confirmada → mismoSlot d r = false)
    (d : Reserva) (hd : d ∈ store) (hid : d._id ≠ r._id) : chocan d r = false := by
  unfold chocan
  cases he : d.estado with
  | pendiente => simp [indice_sin_pendiente store r hi hr d hd hid he]
  | confirmada => simp [hc d hd he]
  | cancelada => simp [esViva]

/-- An accepted insert passed the unique index. -/
theorem saveNueva_indice (env : Entorno) (store store1 : List Reserva) (r : Reserva)
    (h : saveNueva env store r = Except.ok store1) : indiceUnicoAcepta store r = true := by
  unfold saveNueva at h
  split at h
  · simp at h
  · split at h
    · simp at h
    · split at h
      · simp at h
      · rename_i hi
        simpa using hi

/-- An accepted update passed the unique index. -/
theorem saveExistente_indice (env : Entorno) (store store1 : List Reserva) (r : Reserva)
    (h : saveExistente env store r = Except.ok store1) : indiceUnicoAcepta store r = true := by
  unfold saveExistente at h
  split at h
  · simp at h
  · split at h
    · simp at h
    · rename_i hi
      simpa using hi

/-- The Boolean check `unaPorSlot` says that no two documents collide. -/
theorem unaPorSlot_iff (store : List Reserva) :
    unaPorSlot store = true ↔ store.Pairwise (fun a b => chocan a b = false) := by
  induction store with
  | nil => simp [unaPorSlot]
  | cons r rs ih =>
    rw [List.pairwise_cons, ← ih]
    simp only [unaPorSlot, Bool.and_eq_true, Bool.not_eq_true']
    refine and_congr_left (fun _ => ?_)
    constructor
    · intro h d hd
      unfold chocan
      cases hv : esViva r.estado with
      | false => simp
      | true =>
        cases hv2 : esViva d.estado with
        | false => simp
        | true =>
          rw [hv] at h
          simp only [Bool.true_and, List.any_eq_false, Bool.and_eq_true, not_and] at h
          simpa using h d hd hv2
    · intro h
      cases hv : esViva r.estado with
      | false => simp
      | true =>
        simp only [Bool.true_and, List.any_eq_false, Bool.and_eq_true, not_and]
        intro d hd hv2
        have := h d hd
        unfold chocan at this
        rw [hv, hv2] at this
        simpa using this

/-- A call that responded with an error of status 400, 404 or 500 is in order. -/
theorem hiloOk_fin_error (store : List Reserva) (s : Nat) (m : String) (d : Option String)
    (hs : s = 400 ∨ s = 404 ∨ s = 500) : HiloOk store (Hilo.fin (Respuesta.error s m d)) := by
  refine ⟨?_, ?_, ?_⟩
  · intro r hr; simp [enCurso] at hr
  · intro r hr; simp [documentoDe] at hr
  · intro resp hresp
    cases hresp
    exact hs

/-- One step of a call keeps the collection free of collisions and the call in order; it
adds only pending documents, removes or changes only the document of the call, and the
document the call holds afterwards is the one it held or has a new `_id`. -/
theorem paso_invariante (l : Llamada) (store : List Reserva) (h : Hilo)
    (hid : (store.map (fun d => d._id)).Nodup)
    (hp : store.Pairwise (fun a b => chocan a b = false))
    (hk : HiloOk store h) :
    ((paso l store h).1.map (fun d => d._id)).Nodup
    ∧ (paso l store h).1.Pairwise (fun a b => chocan a b = false)
    ∧ HiloOk (paso l store h).1 (paso l store h).2
    ∧ (∀ d ∈ (paso l store h).1, d ∈ store ∨ d.estado = Estado.pendiente)
    ∧ (∀ d ∈ store, (∀ a, documentoDe h = some a → d._id ≠ a._id) → d ∈ (paso l store h).1)
    ∧ (∀ b, documentoDe (paso l store h).2 = some b →
        (∃ a, documentoDe h = some a ∧ a._id = b._id) ∨ ∀ d ∈ store, d._id ≠ b._id) := by
  obtain ⟨hk1, hk2, hk3⟩ := hk
  cases h with
  | inicio =>
    simp only [paso]
    repeat' split
    all_goals
      refine ⟨hid, hp, ?_, fun d hd => Or.inl hd, fun d hd _ => hd, ?_⟩
      · first
          | exact hiloOk_fin_error _ _ _ _ (by simp)
          | exact ⟨by intro r hr; simp [enCurso] at hr, by intro r hr; simp [documentoDe] at hr,
              by intro resp hresp; cases hresp⟩
      · intro b hb; simp [documentoDe] at hb
  | conCancha canchaId fechaReserva hora cancha =>
    simp only [paso]
    split
    · refine ⟨hid, hp, hiloOk_fin_error _ _ _ _ (by simp), fun d hd => Or.inl hd,
        fun d hd _ => hd, ?_⟩
      intro b hb; simp [documentoDe] at hb
    · rename_i hfind
      refine ⟨hid, hp, ⟨?_, ?_, ?_⟩, fun d hd => Or.inl hd, fun d hd _ => hd, ?_⟩
      · intro r hr
        simp only [enCurso, Option.some.injEq] at hr
        subst hr
        refine ⟨rfl, ?_⟩
        intro d hd hconf
        have := List.find?_eq_none.mp hfind d hd
        simp only [esViva, hconf, Bool.and_eq_true, beq_iff_eq, not_and] at this
        unfold mismoSlot
        simp only
        by_cases h1 : d.canchaId = canchaId
        · by_cases h2 : d.fecha = fechaReserva
          · by_cases h3 : d.hora = hora
            · have h4 : d.canchaId = canchaId → d.fecha = fechaReserva → ¬d.hora = hora := by
                simpa using this
              exact absurd h3 (h4 h1 h2)
            · simp [h3]
          · simp [h2]
        · simp [h1]
      · intro r hr; simp [documentoDe] at hr
      · intro resp hresp; cases hresp
      · intro b hb; simp [documentoDe] at hb
  | trasBuscar r cancha =>
    obtain ⟨hr, hc⟩ := hk1 r rfl
    simp only [paso]
    split
    · refine ⟨hid, hp, hiloOk_fin_error _ _ _ _ (by simp), fun d hd => Or.inl hd,
        fun d hd _ => hd, ?_⟩
      intro b hb; simp [documentoDe] at hb
    · rename_i store1 hsave
      obtain ⟨rfl, hfresh⟩ := saveNueva_ok _ _ _ _ hsave
      have hi := saveNueva_indice _ _ _ _ hsave
      refine ⟨?_, ?_, ⟨?_, ?_, ?_⟩, ?_, ?_, ?_⟩
      · rw [List.map_append, List.nodup_append]
        refine ⟨hid, by simp, ?_⟩
        intro x hx1 hx2
        simp only [List.map_cons, List.map_nil, List.mem_singleton] at hx2
        obtain ⟨d, hd, hdx⟩ := List.mem_map.mp hx1
        exact hfresh d hd (hdx.trans hx2)
      · rw [List.pairwise_append]
        refine ⟨hp, by simp, ?_⟩
        intro a ha b hb
        rw [List.mem_singleton] at hb
        subst hb
        exact sin_choque store b hi hr hc a ha (hfresh a ha)
      · intro r2 hr2
        simp only [enCurso, Option.some.injEq] at hr2
        subst hr2
        refine ⟨hr, ?_⟩
        intro d hd hconf
        rcases List.mem_append.mp hd with hd | hd
        · exact hc d hd hconf
        · rw [List.mem_singleton] at hd
          subst hd
          rw [hr] at hconf
          cases hconf
      · intro r2 hr2
        simp only [documentoDe, Option.some.injEq] at hr2
        subst hr2
        exact ⟨hr, by simp⟩
      · intro resp hresp; cases hresp
      · intro d hd
        rcases List.mem_append.mp hd with hd | hd
        · exact Or.inl hd
        · rw [List.mem_singleton] at hd
          subst hd
          exact Or.inr hr
      · intro d hd _
        exact List.mem_append_left _ hd
      · intro b hb
        simp only [documentoDe, Option.some.injEq] at hb
        subst hb
        exact Or.inr hfresh
  | trasInsertar r cancha =>
    obtain ⟨hr, hc⟩ := hk1 r rfl
    have hmem := hk2 r rfl
    simp only [paso]
    split
    · refine ⟨hid, hp, ⟨?_, ?_, ?_⟩, fun d hd => Or.inl hd, fun d hd _ => hd, ?_⟩
      · intro r2 hr2; simp [enCurso] at hr2
      · intro r2 hr2
        simp only [documentoDe, Option.some.injEq] at hr2
        subst hr2
        exact hmem
      · intro resp hresp; cases hresp
      · intro b hb
        simp only [documentoDe, Option.some.injEq] at hb
        subst hb
        exact Or.inl ⟨_, rfl, rfl⟩
    · refine ⟨hid, hp, ⟨?_, ?_, ?_⟩, fun d hd => Or.inl hd, fun d hd _ => hd, ?_⟩
      · intro r2 hr2
        simp only [enCurso, Option.some.injEq] at hr2
        subst hr2
        exact ⟨hr, hc⟩
      · intro r2 hr2
        simp only [documentoDe, Option.some.injEq] at hr2
        subst hr2
        exact hmem
      · intro resp hresp; cases hresp
      · intro b hb
        simp only [documentoDe, Option.some.injEq] at hb
        subst hb
        exact Or.inl ⟨_, rfl, rfl⟩
  | conRespuesta r cancha cr =>
    obtain ⟨hr, hc⟩ := hk1 r rfl
    have hmem := hk2 r rfl
    simp only [paso]
    split
    · refine ⟨hid, hp, ⟨?_, ?_, ?_⟩, fun d hd => Or.inl hd, fun d hd _ => hd, ?_⟩
      · intro r2 hr2; simp [enCurso] at hr2
      · intro r2 hr2
        simp only [documentoDe, Option.some.injEq] at hr2
        subst hr2
        exact hmem
      · intro resp hresp; cases hresp
      · intro b hb
        simp only [documentoDe, Option.some.injEq] at hb
        subst hb
        exact Or.inl ⟨_, rfl, rfl⟩
    · rename_i store2 hsave
      have hi := saveExistente_indice _ _ _ _ hsave
      have hs := saveExistente_ok _ _ _ _ hsave
      subst hs
      have hr2 : ({ r with webpayToken := some cr.token } : Reserva).estado
          = Estado.pendiente := hr
      refine ⟨?_, ?_, ⟨?_, ?_, ?_⟩, ?_, ?_, ?_⟩
      · rw [map_id_reemplazar]
        exact hid
      · refine pairwise_reemplazar _ store hid hp ?_
        intro d hd hne
        exact sin_choque store _ hi hr2 (fun d hd hconf => hc d hd hconf) d hd hne
      · intro r3 hr3; simp [enCurso] at hr3
      · intro r3 hr3
        simp only [documentoDe, Option.some.injEq] at hr3
        subst hr3
        exact ⟨hr, mem_reemplazar_propio _ store ⟨r, hmem.2, rfl⟩⟩
      · intro resp hresp
        cases hresp
        exact hr
      · intro d hd
        rcases mem_reemplazar _ d store hd with hd | rfl
        · exact Or.inl hd
        · exact Or.inr hr
      · intro d hd hne
        exact mem_reemplazar_otro _ d store hd (hne r rfl)
      · intro b hb
        simp only [documentoDe, Option.some.injEq] at hb
        subst hb
        exact Or.inl ⟨_, rfl, rfl⟩
  | falloWebpay r e =>
    simp only [paso]
    refine ⟨?_, ?_, hiloOk_fin_error _ _ _ _ (by simp), ?_, ?_, ?_⟩
    · exact List.Nodup.sublist ((findByIdAndDelete_sublist _ store).map _) hid
    · exact List.Pairwise.sublist (findByIdAndDelete_sublist _ store) hp
    · intro d hd
      exact Or.inl ((findByIdAndDelete_sublist _ store).subset hd)
    · intro d hd hne
      exact mem_findByIdAndDelete_otro _ d store hd (hne r rfl)
    · intro b hb; simp [documentoDe] at hb
  | fin resp =>
    simp only [paso]
    refine ⟨hid, hp, ⟨hk1, hk2, hk3⟩, fun d hd => Or.inl hd, fun d hd _ => hd, ?_⟩
    intro b hb
    exact Or.inl ⟨b, hb, rfl⟩

/-- A step of the scheduler changes nothing, or runs one step of one call. -/
theorem avanzar_casos (i : Nat) (store : List Reserva) (hilos : List (Llamada × Hilo)) :
    avanzar i store hilos = (store, hilos)
    ∨ ∃ pre x post, hilos = pre ++ x :: post
        ∧ avanzar i store hilos
            = ((paso x.1 store x.2).1, pre ++ (x.1, (paso x.1 store x.2).2) :: post) := by
  induction hilos generalizing i with
  | nil => left; cases i <;> rfl
  | cons x resto ih =>
    cases i with
    | zero => right; exact ⟨[], x, resto, rfl, rfl⟩
    | succ i =>
      rcases ih i with h | ⟨pre, y, post, h1, h2⟩
      · left
        simp only [avanzar, h]
      · right
        refine ⟨x :: pre, y, post, by rw [h1]; rfl, ?_⟩
        simp only [avanzar, h2, List.cons_append]

/-- A call stays in order while another call takes a step. -/
theorem hiloOk_otro (store store1 : List Reserva) (hT hU : Hilo) (hk : HiloOk store hU)
    (hA : ∀ d ∈ store1, d ∈ store ∨ d.estado = Estado.pendiente)
    (hB : ∀ d ∈ store, (∀ a, documentoDe hT = some a → d._id ≠ a._id) → d ∈ store1)
    (hdist : ∀ a b, documentoDe hT = some a → documentoDe hU = some b → a._id ≠ b._id) :
    HiloOk store1 hU := by
  obtain ⟨hk1, hk2, hk3⟩ := hk
  refine ⟨?_, ?_, hk3⟩
  · intro r hr
    refine ⟨(hk1 r hr).1, ?_⟩
    intro d hd hconf
    rcases hA d hd with hd | hpend
    · exact (hk1 r hr).2 d hd hconf
    · rw [hpend] at hconf
      cases hconf
  · intro r hr
    refine ⟨(hk2 r hr).1, ?_⟩
    exact hB r (hk2 r hr).2 (fun a ha => (hdist a r ha hr).symm)

/-- Holding different documents is symmetric. -/
theorem distintos_symm (x y : Llamada × Hilo) (h : Distintos x y) : Distintos y x :=
  fun a b ha hb => (h b a hb ha).symm

/-- After its step a call still holds a document different from that of every other
call. -/
theorem distintos_tras_paso (store : List Reserva) (x y : Llamada × Hilo) (h1 : Hilo)
    (hky : HiloOk store y.2) (hxy : Distintos x y)
    (hC : ∀ b, documentoDe h1 = some b →
      (∃ a, documentoDe x.2 = some a ∧ a._id = b._id) ∨ ∀ d ∈ store, d._id ≠ b._id) :
    Distintos (x.1, h1) y := by
  intro b c hb hc
  rcases hC b hb with ⟨a, ha, hab⟩ | hfresh
  · rw [← hab]
    exact hxy a c ha hc
  · exact (hfresh c (hky.2.1 c hc).2).symm

/-- A step of the scheduler keeps the invariant. -/
theorem avanzar_invariante (i : Nat) (store : List Reserva) (hilos : List (Llamada × Hilo))
    (h : Invariante store hilos) :
    Invariante (avanzar i store hilos).1 (avanzar i store hilos).2 := by
  rcases avanzar_casos i store hilos with h0 | ⟨pre, x, post, h1, h2⟩
  · rw [h0]
    exact h
  · rw [h2]
    subst h1
    obtain ⟨hid, hp, hks, hd⟩ := h
    have hkx : HiloOk store x.2 := hks x (by simp)
    obtain ⟨p1, p2, p3, pA, pB, pC⟩ := paso_invariante x.1 store x.2 hid hp hkx
    rw [List.pairwise_append, List.pairwise_cons] at hd
    obtain ⟨hdpre, ⟨hdx, hdpost⟩, hdcross⟩ := hd
    have hotro : ∀ y, y ∈ pre ∨ y ∈ post → Distintos x y := by
      intro y hy
      rcases hy with hy | hy
      · exact distintos_symm _ _ (hdcross y hy x (List.mem_cons_self _ _))
      · exact hdx y hy
    refine ⟨p1, p2, ?_, ?_⟩
    · intro y hy
      simp only [List.mem_append, List.mem_cons] at hy
      rcases hy with hy | rfl | hy
      · exact hiloOk_otro store _ x.2 y.2 (hks y (by simp [hy])) pA pB (hotro y (Or.inl hy))
      · exact p3
      · exact hiloOk_otro store _ x.2 y.2 (hks y (by simp [hy])) pA pB (hotro y (Or.inr hy))
    · rw [List.pairwise_append, List.pairwise_cons]
      refine ⟨hdpre, ⟨?_, hdpost⟩, ?_⟩
      · intro y hy
        exact distintos_tras_paso store x y _ (hks y (by simp [hy])) (hotro y (Or.inr hy)) pC
      · intro a ha b hb
        rcases List.mem_cons.mp hb with rfl | hb
        · exact distintos_symm _ _
            (distintos_tras_paso store x a _ (hks a (by simp [ha])) (hotro a (Or.inl ha)) pC)
        · exact hdcross a ha b (List.mem_cons_of_mem _ hb)

/-- A sequence of steps of the scheduler keeps the invariant. -/
theorem foldl_avanzar_invariante (plan : List Nat)
    (st : List Reserva × List (Llamada × Hilo)) (h : Invariante st.1 st.2) :
    Invariante (plan.foldl (fun st i => avanzar i st.1 st.2) st).1
      (plan.foldl (fun st i => avanzar i st.1 st.2) st).2 := by
  induction plan generalizing st with
  | nil => exact h
  | cons i plan ih => exact ih _ (avanzar_invariante i st.1 st.2 h)

/-- Every interleaving keeps the invariant. -/
theorem planificar_invariante (llamadas : List Llamada) (store : List Reserva)
    (plan : List Nat) (hid : (store.map (fun d => d._id)).Nodup)
    (hp : store.Pairwise (fun a b => chocan a b = false)) :
    Invariante (planificar llamadas store plan).1 (planificar llamadas store plan).2 := by
  unfold planificar
  apply foldl_avanzar_invariante
  refine ⟨hid, hp, ?_, ?_⟩
  · intro x hx
    obtain ⟨l, _, rfl⟩ := List.mem_map.mp hx
    exact ⟨by intro r hr; simp [enCurso] at hr, by intro r hr; simp [documentoDe] at hr,
      by intro resp hresp; cases hresp⟩
  · rw [List.pairwise_map]
    exact List.pairwise_of_forall (fun a b c d hc _ => by simp [documentoDe] at hc)

/-- A collection free of collisions has at most one live document on each slot. -/
theorem vivasEnSlot_a_lo_mas_una (store : List Reserva) (canchaId : Id) (fecha : Int)
    (hora : String) (hp : store.Pairwise (fun a b => chocan a b = false)) :
    (vivasEnSlot store canchaId fecha hora).length ≤ 1 := by
  have hs : (vivasEnSlot store canchaId fecha hora).Pairwise (fun a b => chocan a b = false) :=
    List.Pairwise.sublist (List.filter_sublist _) hp
  have hm : ∀ d ∈ vivasEnSlot store canchaId fecha hora,
      d.canchaId = canchaId ∧ d.fecha = fecha ∧ d.hora = hora ∧ esViva d.estado = true := by
    intro d hd
    have := (List.mem_filter.mp hd).2
    simpa [and_assoc] using this
  match hl : vivasEnSlot store canchaId fecha hora with
  | [] => simp
  | [_] => simp
  | a :: b :: resto =>
    rw [hl] at hs hm
    have hab := (List.pairwise_cons.mp hs).1 b (List.mem_cons_self _ _)
    obtain ⟨a1, a2, a3, a4⟩ := hm a (by simp)
    obtain ⟨b1, b2, b3, b4⟩ := hm b (by simp)
    simp [chocan, mismoSlot, a1, a2, a3, a4, b1, b2, b3, b4] at hab

/-- A call that has responded stays as it is. -/
theorem correr_fin (l : Llamada) (n : Nat) (s : List Reserva) (r : Respuesta) :
    correr l n (s, Hilo.fin r) = (s, Hilo.fin r) := by
  induction n with
  | zero => rfl
  | succ n ih =>
    show correr l n (paso l s (Hilo.fin r)) = _
    simp only [paso]
    exact ih

/-- A call running alone goes through `crearReserva` in six steps. -/
theorem correr_crearReserva (l : Llamada) (store : List Reserva) :
    correr l 6 (store, Hilo.inicio)
      = ((crearReserva l.env l.canchas store l.usuario l.body l.nuevoId l.webpay).store,
         Hilo.fin
           (crearReserva l.env l.canchas store l.usuario l.body l.nuevoId l.webpay).respuesta) := by
  have paso1 : ∀ n s h, correr l (n + 1) (s, h) = correr l n (paso l s h) := fun _ _ _ => rfl
  unfold crearReserva
  rw [show (6 : Nat) = 5 + 1 from rfl, paso1]
  simp only [paso]
  cases h1 : presente l.body.canchaId with
  | none => simp [correr_fin]
  | some canchaId =>
  cases h2 : l.body.fecha with
  | none => simp [correr_fin]
  | some fecha =>
  cases h3 : presente l.body.hora with
  | none => simp [correr_fin]
  | some hora =>
  by_cases h4 : validarFormatoHora hora = true
  swap
  · simp [correr_fin, h4]
  by_cases h5 : validarFechaNoVencida l.env fecha = true
  swap
  · simp [correr_fin, h4, h5]
  cases h6 : findCanchaById l.canchas canchaId with
  | none => simp [correr_fin, h4, h5, h6]
  | some cancha =>
  by_cases h7 : cancha.activa = true
  swap
  · simp [correr_fin, h4, h5, h6, h7]
  simp only [h4, h5, h6, h7, Bool.not_true, Bool.false_eq_true, if_false]
  rw [show (5 : Nat) = 4 + 1 from rfl, paso1]
  simp only [paso]
  generalize List.find? _ store = q
  cases q with
  | some _ => simp [correr_fin]
  | none =>
  simp only []
  rw [show (4 : Nat) = 3 + 1 from rfl, paso1]
  simp only [paso]
  generalize saveNueva _ _ _ = q
  cases q with
  | error e => simp [correr_fin]
  | ok store1 =>
  simp only []
  rw [show (3 : Nat) = 2 + 1 from rfl, paso1]
  simp only [paso]
  cases h10 : l.webpay with
  | error e =>
    simp only []
    rw [show (2 : Nat) = 1 + 1 from rfl, paso1]
    simp [paso, correr_fin]
  | ok cr =>
  simp only []
  rw [show (2 : Nat) = 1 + 1 from rfl, paso1]
  simp only [paso]
  generalize saveExistente _ _ _ = q
  cases q with
  | error e =>
    simp only []
    rw [paso1]
    simp [paso, correr]
  | ok store2 => simp [correr_fin]

/-- C21, counterexample. Two calls for the same free slot both pass `Reserva.findOne`
before either inserts. The unique index refuses the second insert and that caller is
answered 500 "Error al crear la reserva.", not the slot-taken 400. When in addition the
gateway call of the first caller throws, its reservation is deleted and the slot is left
with no live reservation although both callers were refused. -/
theorem c21_contraejemplo_carrera :
    respuestas (planificar dosLlamadas [] planCarrera).2
      = [some (Respuesta.creada { reservaA with webpayToken := some "tok1" } "Cancha V"
            "https://webpay.example/pay?token_ws=tok1" "tok1"),
         some (Respuesta.error 500 "Error al crear la reserva."
            (some "E11000 duplicate key"))]
    ∧ respuestas (planificar dosLlamadasFalla [] planCarrera).2
      = [some (Respuesta.error 500 "Error al procesar el pago con Webpay." (some "timeout")),
         some (Respuesta.error 500 "Error al crear la reserva."
            (some "E11000 duplicate key"))]
    ∧ vivasEnSlot (planificar dosLlamadasFalla [] planCarrera).1
        "V" 4071254400000 "09:00" = [] := by
  decide

/-- C26 at the scenario: after book `r1`, cancel `r1`, book `r2`, authorised callback for
`r1`, the reservation `r1` carries a payment record and is `confirmada`. -/
theorem c26_datosPago_solo_en_terminales_witness :
    reservaConfirmada ∈ ejecutar trazaDobleReserva
    ∧ reservaConfirmada.datosPago ≠ none
    ∧ (reservaConfirmada.estado = Estado.confirmada
      ∨ reservaConfirmada.estado = Estado.cancelada) :=
  ⟨by decide, by decide,
    c26_datosPago_solo_en_terminales trazaDobleReserva reservaConfirmada (by decide)
      (by decide)⟩

/-- C9 (availability reflects the ledger), evaluated in a deployment at UTC-3 on Friday
2099-01-02. Venue `V` is active and opens on Mondays from 09:00 to 11:00, no reservation
exists, and 2099-01-05 is a Monday that is not past: the slots enumerated for that weekday
are 09:00 and 10:00 and none is held, so both are to be listed. `verDisponibilidad` derives
the local midnight of Sunday 4 January from the query string, finds no window for `Domingo`
and lists nothing. In a deployment at UTC the same query lists 09:00 and 10:00. -/
theorem c9_lunes_sin_horarios_en_utc_menos_3 :
    findCanchaById [canchaV] "V" = some canchaV
    ∧ canchaV.activa = true
    ∧ diaLocal (entornoChile 1) (entornoChile 1).now < diaCivil ⟨2099, 1, 5⟩
    ∧ diasSemana.get? (diaSemanaCivil ⟨2099, 1, 5⟩) = some Dia.Lunes
    ∧ slotsSegunSpec canchaV.horarios Dia.Lunes = ["09:00", "10:00"]
    ∧ disponiblesSegunSpec (entornoChile 1) canchaV [] ⟨2099, 1, 5⟩ = ["09:00", "10:00"]
    ∧ verDisponibilidad (entornoChile 1) [canchaV] [] "V" (some ⟨2099, 1, 5⟩)
        = Respuesta.disponibilidad (some "No hay horarios disponibles para Domingo") none []
    ∧ disponiblesSegunSpec (entornoEn 1) canchaV [] ⟨2099, 1, 5⟩ = ["09:00", "10:00"]
    ∧ verDisponibilidad (entornoEn 1) [canchaV] [] "V" (some ⟨2099, 1, 5⟩)
        = Respuesta.disponibilidad none (some Dia.Lunes) ["09:00", "10:00"] := by
  decide

/-- The first three steps of a call whose request passes the checks and whose insert is
accepted: `Cancha.findById`, `Reserva.findOne`, `save()`. -/
theorem correr_hasta_insertar (l : Llamada) (store store1 : List Reserva) (canchaId : Id)
    (fecha : FechaStr) (hora : String) (cancha : Cancha)
    (h1 : presente l.body.canchaId = some canchaId) (h2 : l.body.fecha = some fecha)
    (h3 : presente l.body.hora = some hora) (h4 : validarFormatoHora hora = true)
    (h5 : validarFechaNoVencida l.env fecha = true)
    (h6 : findCanchaById l.canchas canchaId = some cancha) (h7 : cancha.activa = true)
    (h8 : store.find? (fun d => d.canchaId == canchaId && d.fecha == nuevaDateLocal l.env fecha
      && d.hora == hora && esViva d.estado) = none)
    (h9 : saveNueva l.env store
        ⟨l.nuevoId, l.usuario, canchaId, nuevaDateLocal l.env fecha, hora, Estado.pendiente,
          cancha.precio, none, none, l.env.now + graciaMs⟩ = Except.ok store1) :
    correr l 3 (store, Hilo.inicio)
      = (store1, Hilo.trasInsertar
          ⟨l.nuevoId, l.usuario, canchaId, nuevaDateLocal l.env fecha, hora, Estado.pendiente,
            cancha.precio, none, none, l.env.now + graciaMs⟩ cancha) := by
  have paso1 : ∀ n s h, correr l (n + 1) (s, h) = correr l n (paso l s h) := fun _ _ _ => rfl
  rw [show (3 : Nat) = 2 + 1 from rfl, paso1]
  simp only [paso, h1, h2, h3, h4, h5, h6, h7, Bool.not_true, Bool.false_eq_true, if_false]
  rw [show (2 : Nat) = 1 + 1 from rfl, paso1]
  simp only [paso, h8]
  rw [show (1 : Nat) = 0 + 1 from rfl, paso1]
  simp only [paso, h9]
  rfl

/-- When `crearReserva` calls the gateway, the request has passed every check, the slot was
free, the insert of the new pending reservation was accepted and the call carries the
arguments built from that reservation. -/
theorem crearReserva_llamada_casos (env : Entorno) (canchas : List Cancha)
    (store : List Reserva) (usuario : Id) (body : SolicitudReserva) (nuevoId : Id)
    (webpay : Except String CreateResponse) (ll : LlamadaCreate)
    (h : (crearReserva env canchas store usuario body nuevoId webpay).llamada = some ll) :
    ∃ canchaId fecha hora cancha,
      presente body.canchaId = some canchaId ∧ body.fecha = some fecha
      ∧ presente body.hora = some hora ∧ validarFormatoHora hora = true
      ∧ validarFechaNoVencida env fecha = true
      ∧ findCanchaById canchas canchaId = some cancha ∧ cancha.activa = true
      ∧ store.find? (fun d => d.canchaId == canchaId && d.fecha == nuevaDateLocal env fecha
          && d.hora == hora && esViva d.estado) = none
      ∧ saveNueva env store
          ⟨nuevoId, usuario, canchaId, nuevaDateLocal env fecha, hora, Estado.pendiente,
            cancha.precio, none, none, env.now + graciaMs⟩
          = Except.ok (store ++
              [⟨nuevoId, usuario, canchaId, nuevaDateLocal env fecha, hora, Estado.pendiente,
                cancha.precio, none, none, env.now + graciaMs⟩])
      ∧ ll = llamadaCreate
          ⟨nuevoId, usuario, canchaId, nuevaDateLocal env fecha, hora, Estado.pendiente,
            cancha.precio, none, none, env.now + graciaMs⟩ cancha := by
  unfold crearReserva at h
  dsimp only at h
  split at h
  swap
  · simp at h
  rename_i canchaId fecha hora h1 h2 h3
  split at h
  · simp at h
  rename_i h4
  split at h
  · simp at h
  rename_i h5
  split at h
  · simp at h
  rename_i cancha h6
  split at h
  · simp at h
  rename_i h7
  split at h
  · simp at h
  rename_i h8
  split at h
  · simp at h
  rename_i store1 h9
  obtain ⟨hs1, _⟩ := saveNueva_ok env store store1 _ h9
  subst hs1
  refine ⟨canchaId, fecha, hora, cancha, h1, h2, h3, by simpa using h4, by simpa using h5, h6,
    by simpa using h7, h8, h9, ?_⟩
  split at h
  · simpa using h.symm
  · split at h
    · simpa using h.symm
    · simpa using h.symm

/-- C25 (gateway create arguments). Whenever `crearReserva` calls `tx.create`, it has gone
through `Cancha.findById`, `Reserva.findOne` and the first `save()`, and stands before the
gateway call with the collection extended by the reservation `nuevaReserva` just created,
which is the document stored under the new `_id`. The `buyOrder` passed is a prefix of the
string form of that `_id` with at most 26 characters, and the amount passed is the `monto`
of `nuevaReserva`. When the call ends with 201, the reservation it leaves under the `_id`
has that `monto` too. -/
theorem c25_argumentos_de_create (env : Entorno) (canchas : List Cancha) (store : List Reserva)
    (usuario : Id) (body : SolicitudReserva) (nuevoId : Id)
    (webpay : Except String CreateResponse) (ll : LlamadaCreate)
    (h : (crearReserva env canchas store usuario body nuevoId webpay).llamada = some ll) :
    ll.buyOrder.data <+: nuevoId.data
    ∧ ll.buyOrder.length ≤ 26
    ∧ ∃ nuevaReserva cancha,
        correr ⟨env, canchas, usuario, body, nuevoId, webpay⟩ 3 (store, Hilo.inicio)
          = (store ++ [nuevaReserva], Hilo.trasInsertar nuevaReserva cancha)
        ∧ findById (store ++ [nuevaReserva]) nuevoId = some nuevaReserva
        ∧ ll = llamadaCreate nuevaReserva cancha
        ∧ ll.amount = nuevaReserva.monto
        ∧ ∀ r nombre url token,
            (crearReserva env canchas store usuario body nuevoId webpay).respuesta
              = Respuesta.creada r nombre url token →
            findById (crearReserva env canchas store usuario body nuevoId webpay).store nuevoId
              = some r
            ∧ r.monto = ll.amount := by
  obtain ⟨canchaId, fecha, hora, cancha, h1, h2, h3, h4, h5, h6, h7, h8, h9, hll⟩ :=
    crearReserva_llamada_casos env canchas store usuario body nuevoId webpay ll h
  obtain ⟨_, hfresh⟩ := saveNueva_ok env store _ _ h9
  subst hll
  refine ⟨List.take_prefix _ _, List.length_take_le _ _, _, cancha,
    correr_hasta_insertar ⟨env, canchas, usuario, body, nuevoId, webpay⟩ store _ canchaId fecha
      hora cancha h1 h2 h3 h4 h5 h6 h7 h8 h9,
    findById_append _ store hfresh, rfl, rfl, ?_⟩
  intro r nombre url token hresp
  unfold crearReserva at hresp ⊢
  simp only [h1, h2, h3, h4, h5, h6, h7, h8, h9, Bool.not_true, Bool.false_eq_true,
    if_false] at hresp ⊢
  cases hw : webpay with
  | error e => simp [hw] at hresp
  | ok cr =>
    simp only [hw] at hresp ⊢
    generalize hq : saveExistente env (store ++ [_]) _ = q at hresp ⊢
    cases q with
    | error e => simp at hresp
    | ok store2 =>
      have hs2 := saveExistente_ok env _ store2 _ hq
      rw [reemplazar_append
        ⟨nuevoId, usuario, canchaId, nuevaDateLocal env fecha, hora, Estado.pendiente,
          cancha.precio, some cr.token, none, env.now + graciaMs⟩
        ⟨nuevoId, usuario, canchaId, nuevaDateLocal env fecha, hora, Estado.pendiente,
          cancha.precio, none, none, env.now + graciaMs⟩ store hfresh rfl] at hs2
      simp only [Respuesta.creada.injEq] at hresp
      obtain ⟨hr, _, _, _⟩ := hresp
      subst hr
      subst hs2
      exact ⟨findById_append
        ⟨nuevoId, usuario, canchaId, nuevaDateLocal env fecha, hora, Estado.pendiente,
          cancha.precio, some cr.token, none, env.now + graciaMs⟩ store hfresh, rfl⟩

/-- C25 at the scenario: the call made for an `_id` of 30 characters. -/
theorem c25_argumentos_de_create_witness :
    (crearReserva (entornoEn 0) [canchaV] [] "u1" solicitudLunes9
        "abcdefghijklmnopqrstuvwxyz0123" (Except.ok ⟨"t1", "https://webpay.example/pay"⟩)).llamada
      = some ⟨"abcdefghijklmnopqrstuvwxyz", "SESSION-abcdefghijklmnopqrstuvwxyz0123", 15000,
          returnUrl⟩
    ∧ "abcdefghijklmnopqrstuvwxyz".data <+: "abcdefghijklmnopqrstuvwxyz0123".data
    ∧ "abcdefghijklmnopqrstuvwxyz".length ≤ 26 :=
  ⟨by decide,
    (c25_argumentos_de_create (entornoEn 0) [canchaV] [] "u1" solicitudLunes9
      "abcdefghijklmnopqrstuvwxyz0123" (Except.ok ⟨"t1", "https://webpay.example/pay"⟩)
      ⟨"abcdefghijklmnopqrstuvwxyz", "SESSION-abcdefghijklmnopqrstuvwxyz0123", 15000, returnUrl⟩
      (by decide)).1,
    (c25_argumentos_de_create (entornoEn 0) [canchaV] [] "u1" solicitudLunes9
      "abcdefghijklmnopqrstuvwxyz0123" (Except.ok ⟨"t1", "https://webpay.example/pay"⟩)
      ⟨"abcdefghijklmnopqrstuvwxyz", "SESSION-abcdefghijklmnopqrstuvwxyz0123", 15000, returnUrl⟩
      (by decide)).2.1⟩

/-- What `pideSlot` says of a call. -/
theorem pideSlot_casos (l : Llamada) (canchaId : Id) (fechaReserva : Int) (hora : String)
    (hp : pideSlot l canchaId fechaReserva hora = true) :
    ∃ fecha cancha cr,
      presente l.body.canchaId = some canchaId ∧ l.body.fecha = some fecha
      ∧ presente l.body.hora = some hora ∧ validarFormatoHora hora = true
      ∧ validarFechaNoVencida l.env fecha = true ∧ nuevaDateLocal l.env fecha = fechaReserva
      ∧ l.env.offsetMin < 1440
      ∧ findCanchaById l.canchas canchaId = some cancha ∧ cancha.activa = true
      ∧ l.webpay = Except.ok cr := by
  unfold pideSlot at hp
  split at hp
  · rename_i c fecha h cr h1 h2 h3 h4
    simp only [Bool.and_eq_true, beq_iff_eq, decide_eq_true_eq] at hp
    obtain ⟨⟨⟨⟨⟨⟨hc, hh⟩, hv⟩, hf⟩, hd⟩, hz⟩, hca⟩ := hp
    subst hc
    subst hh
    split at hca
    · rename_i cancha hfc
      exact ⟨fecha, cancha, cr, h1, h2, h3, hv, hf, hd, hz, hfc, hca, h4⟩
    · cases hca
  · cases hp

/-- A free slot holds no live document. -/
theorem vivasEnSlot_nil (store : List Reserva) (canchaId : Id) (fechaReserva : Int)
    (hora : String) (h : vivasEnSlot store canchaId fechaReserva hora = []) (d : Reserva)
    (hd : d ∈ store) (h1 : d.canchaId = canchaId) (h2 : d.fecha = fechaReserva)
    (h3 : d.hora = hora) : esViva d.estado = false := by
  unfold vivasEnSlot at h
  have := List.filter_eq_nil_iff.mp h d hd
  simpa [h1, h2, h3] using this

/-- On a free slot and with an unused `_id`, the insert of a pending reservation that the
validators accept is accepted. -/
theorem saveNueva_en_slot_libre (env : Entorno) (store : List Reserva) (r : Reserva)
    (hv : validaSchema env r = true) (hr : r.estado = Estado.pendiente)
    (hlibre : vivasEnSlot store r.canchaId r.fecha r.hora = [])
    (hfresh : ∀ d ∈ store, d._id ≠ r._id) :
    saveNueva env store r = Except.ok (store ++ [r]) := by
  have h1 : store.any (fun d => d._id == r._id) = false := by
    simp only [List.any_eq_false, beq_iff_eq]
    exact hfresh
  have h2 : indiceUnicoAcepta store r = true := by
    unfold indiceUnicoAcepta
    simp only [Bool.or_eq_true, Bool.not_eq_true', List.any_eq_false, Bool.and_eq_true,
      beq_iff_eq, not_and]
    right
    intro d hd hh
    obtain ⟨⟨⟨_, hc⟩, hf⟩, hho⟩ := hh
    intro he
    have := vivasEnSlot_nil store _ _ _ hlibre d hd hc hf hho
    rw [he, hr] at this
    simp [esViva] at this
  simp [saveNueva, hv, h1, h2]

/-- In a collection without collisions, the update of a pending document of the collection
that changes neither its slot nor its estado is accepted. -/
theorem saveExistente_propio (env : Entorno) (store : List Reserva) (r r1 : Reserva)
    (hpw : store.Pairwise (fun a b => chocan a b = false))
    (hr : r ∈ store) (he : r.estado = Estado.pendiente)
    (hv : validaSchema env r1 = true) (hid : r1._id = r._id) (he1 : r1.estado = r.estado)
    (hc : r1.canchaId = r.canchaId) (hf : r1.fecha = r.fecha) (hh : r1.hora = r.hora) :
    saveExistente env store r1 = Except.ok (reemplazar r1 store) := by
  have hsym : Symmetric (fun a b : Reserva => chocan a b = false) := by
    intro u v huv
    rw [chocan_comm]
    exact huv
  have h2 : indiceUnicoAcepta store r1 = true := by
    unfold indiceUnicoAcepta
    simp only [Bool.or_eq_true, Bool.not_eq_true', List.any_eq_false, Bool.and_eq_true,
      beq_iff_eq, not_and, bne_iff_ne, ne_eq]
    right
    intro d hd hh2
    obtain ⟨⟨⟨hne, hc2⟩, hf2⟩, hho2⟩ := hh2
    intro hed
    have hdr : d ≠ r := fun e => hne (by rw [e, hid])
    have := List.Pairwise.forall hsym hpw hd hr hdr
    simp [chocan, mismoSlot, esViva, hed, he1, he, hc2, hf2, hho2, hc, hf, hh] at this
  simp [saveExistente, hv, h2]

/-- One step of a call for the slot keeps the call in order; a call that has inserted its
reservation still has; and while the slot is free and the `_id` unused, the step inserts
the reservation or leaves the collection as it is without responding. -/
theorem paso_avance (l : Llamada) (store : List Reserva) (h : Hilo) (canchaId : Id)
    (fechaReserva : Int) (hora : String)
    (hp : pideSlot l canchaId fechaReserva hora = true)
    (hpw : store.Pairwise (fun a b => chocan a b = false))
    (hk : HiloOk store h)
    (hs : HiloEnSlot l canchaId fechaReserva hora h) :
    HiloEnSlot l canchaId fechaReserva hora (paso l store h).2
    ∧ (haInsertado h = true → haInsertado (paso l store h).2 = true)
    ∧ (vivasEnSlot store canchaId fechaReserva hora = [] →
        (∀ d ∈ store, d._id ≠ l.nuevoId) → terminado h = false →
        haInsertado (paso l store h).2 = true
        ∨ ((paso l store h).1 = store ∧ terminado (paso l store h).2 = false)) := by
  obtain ⟨fecha, cancha, cr, h1, h2, h3, h4, h5, h6, hz, h8, h9, hw⟩ :=
    pideSlot_casos l canchaId fechaReserva hora hp
  obtain ⟨hk1, hk2, _⟩ := hk
  cases h with
  | inicio =>
    have e : paso l store Hilo.inicio
        = (store, Hilo.conCancha canchaId (nuevaDateLocal l.env fecha) hora cancha) := by
      simp only [paso, h1, h2, h3, h4, h5, h8, h9, Bool.not_true, Bool.false_eq_true, if_false]
    rw [e]
    refine ⟨⟨rfl, h6, rfl⟩, ?_, ?_⟩
    · intro hh; simp [haInsertado, documentoDe] at hh
    · intro _ _ _
      exact Or.inr ⟨rfl, rfl⟩
  | conCancha c f hr ca =>
    obtain ⟨rfl, rfl, rfl⟩ := hs
    simp only [paso]
    split
    · rename_i d hfind
      refine ⟨Or.inl ⟨rfl, rfl, rfl⟩, ?_, ?_⟩
      · intro hh; simp [haInsertado, documentoDe] at hh
      · intro hlibre _ _
        have hd := List.mem_of_find?_eq_some hfind
        have hpred := List.find?_some hfind
        simp only [Bool.and_eq_true, beq_iff_eq] at hpred
        have := vivasEnSlot_nil store _ _ _ hlibre d hd hpred.1.1.1 hpred.1.1.2 hpred.1.2
        rw [this] at hpred
        exact absurd hpred.2 (by simp)
    · refine ⟨⟨⟨rfl, rfl, rfl⟩, rfl, ?_⟩, ?_, ?_⟩
      · have := hoy_le_nuevaDateLocal l.env fecha hz h5
        rw [h6] at this
        simp [validaSchema, this, h4]
      · intro hh; simp [haInsertado, documentoDe] at hh
      · intro _ _ _
        exact Or.inr ⟨rfl, rfl⟩
  | trasBuscar r ca =>
    obtain ⟨⟨hc, hf, hh⟩, hid, hv⟩ := hs
    have hr := (hk1 r rfl).1
    simp only [paso]
    split
    · rename_i e hsave
      refine ⟨Or.inr ⟨rfl, rfl, by simp⟩, ?_, ?_⟩
      · intro hh2; simp [haInsertado, documentoDe] at hh2
      · intro hlibre hfresh _
        rw [← hc, ← hf, ← hh] at hlibre
        rw [saveNueva_en_slot_libre l.env store r hv hr hlibre
          (fun d hd => by rw [hid]; exact hfresh d hd)] at hsave
        cases hsave
    · refine ⟨⟨⟨hc, hf, hh⟩, hid, hv⟩, ?_, ?_⟩
      · intro _; rfl
      · intro _ _ _
        exact Or.inl rfl
  | trasInsertar r ca =>
    have e : paso l store (Hilo.trasInsertar r ca) = (store, Hilo.conRespuesta r ca cr) := by
      simp only [paso, hw]
    rw [e]
    exact ⟨hs, fun _ => rfl, fun _ _ _ => Or.inl rfl⟩
  | conRespuesta r ca cr1 =>
    obtain ⟨⟨hc, hf, hh⟩, hid, hv⟩ := hs
    obtain ⟨hr, hmem⟩ := hk2 r rfl
    have hsave := saveExistente_propio l.env store r { r with webpayToken := some cr1.token }
      hpw hmem hr hv rfl rfl rfl rfl rfl
    have e : paso l store (Hilo.conRespuesta r ca cr1)
        = (reemplazar { r with webpayToken := some cr1.token } store,
            Hilo.fin (Respuesta.creada { r with webpayToken := some cr1.token } ca.nombre
              (cr1.url ++ "?token_ws=" ++ cr1.token) cr1.token)) := by
      simp only [paso, hsave]
    rw [e]
    exact ⟨⟨hc, hf, hh⟩, fun _ => rfl, fun _ _ _ => Or.inl rfl⟩
  | falloWebpay r e => exact absurd hs (fun x => x)
  | fin respuesta =>
    have e : paso l store (Hilo.fin respuesta) = (store, Hilo.fin respuesta) := rfl
    rw [e]
    refine ⟨hs, fun hh => hh, ?_⟩
    intro _ _ ht
    simp [terminado] at ht

/-- A step of the scheduler keeps the progress invariant. -/
theorem avanzar_avance (i : Nat) (store : List Reserva) (hilos : List (Llamada × Hilo))
    (canchaId : Id) (fechaReserva : Int) (hora : String)
    (hinv : Invariante store hilos) (hav : Avance canchaId fechaReserva hora store hilos) :
    Avance canchaId fechaReserva hora (avanzar i store hilos).1 (avanzar i store hilos).2 := by
  rcases avanzar_casos i store hilos with h0 | ⟨pre, x, post, h1, h2⟩
  · rw [h0]
    exact hav
  · rw [h2]
    subst h1
    obtain ⟨_, hpw, hks, _⟩ := hinv
    obtain ⟨hall, hfase⟩ := hav
    have hx : x ∈ pre ++ x :: post := by simp
    obtain ⟨pa, pb, pc⟩ := paso_avance x.1 store x.2 canchaId fechaReserva hora (hall x hx).1
      hpw (hks x hx) (hall x hx).2
    have hmem : ∀ y, y ∈ pre ++ (x.1, (paso x.1 store x.2).2) :: post →
        y = (x.1, (paso x.1 store x.2).2) ∨ (y ∈ pre ++ x :: post ∧ (y ∈ pre ∨ y ∈ post)) := by
      intro y hy
      simp only [List.mem_append, List.mem_cons] at hy ⊢
      rcases hy with hy | rfl | hy
      · exact Or.inr ⟨Or.inl hy, Or.inl hy⟩
      · exact Or.inl rfl
      · exact Or.inr ⟨Or.inr (Or.inr hy), Or.inr hy⟩
    refine ⟨?_, ?_⟩
    · intro y hy
      rcases hmem y hy with rfl | ⟨hy, _⟩
      · exact ⟨(hall x hx).1, pa⟩
      · exact hall y hy
    · rcases hfase with ⟨y, hy, hins⟩ | ⟨hlibre, hfresh, hnofin⟩
      · left
        simp only [List.mem_append, List.mem_cons] at hy
        rcases hy with hy | rfl | hy
        · exact ⟨y, by simp [hy], hins⟩
        · exact ⟨(y.1, (paso y.1 store y.2).2), by simp, pb hins⟩
        · exact ⟨y, by simp [hy], hins⟩
      · rcases pc hlibre (hfresh x hx) (hnofin x hx) with hins | ⟨hst, hnf⟩
        · left
          exact ⟨(x.1, (paso x.1 store x.2).2), by simp, hins⟩
        · right
          rw [hst]
          refine ⟨hlibre, ?_, ?_⟩
          · intro y hy
            rcases hmem y hy with rfl | ⟨hy, _⟩
            · exact hfresh x hx
            · exact hfresh y hy
          · intro y hy
            rcases hmem y hy with rfl | ⟨hy, _⟩
            · exact hnf
            · exact hnofin y hy

/-- A sequence of steps of the scheduler keeps both invariants. -/
theorem foldl_avanzar_avance (plan : List Nat) (canchaId : Id) (fechaReserva : Int)
    (hora : String) (st : List Reserva × List (Llamada × Hilo))
    (hinv : Invariante st.1 st.2) (hav : Avance canchaId fechaReserva hora st.1 st.2) :
    Avance canchaId fechaReserva hora
      (plan.foldl (fun st i => avanzar i st.1 st.2) st).1
      (plan.foldl (fun st i => avanzar i st.1 st.2) st).2 := by
  induction plan generalizing st with
  | nil => exact hav
  | cons i plan ih =>
    exact ih _ (avanzar_invariante i st.1 st.2 hinv)
      (avanzar_avance i st.1 st.2 canchaId fechaReserva hora hinv hav)

/-- The scheduler keeps the calls, in their order. -/
theorem avanzar_llamadas (i : Nat) (store : List Reserva) (hilos : List (Llamada × Hilo)) :
    (avanzar i store hilos).2.map Prod.fst = hilos.map Prod.fst := by
  rcases avanzar_casos i store hilos with h0 | ⟨pre, x, post, h1, h2⟩
  · rw [h0]
  · rw [h2, h1]
    simp

/-- An interleaving keeps the calls, in their order. -/
theorem planificar_llamadas (llamadas : List Llamada) (store : List Reserva)
    (plan : List Nat) : (planificar llamadas store plan).2.map Prod.fst = llamadas := by
  unfold planificar
  have h0 : (store, llamadas.map (fun l => (l, Hilo.inicio))).2.map Prod.fst = llamadas := by
    simp [List.map_map, Function.comp_def]
  generalize (store, llamadas.map (fun l => (l, Hilo.inicio))) = st at h0
  induction plan generalizing st with
  | nil => exact h0
  | cons i plan ih =>
    exact ih _ ((avanzar_llamadas i st.1 st.2).trans h0)

/-- Under the invariant no two calls have been served reservations of the same slot. -/
theorem servidas_en_slots_distintos (store : List Reserva) (hilos : List (Llamada × Hilo))
    (hinv : Invariante store hilos) :
    hilos.Pairwise (fun x y =>
      ∀ a b, servida x.2 = some a → servida y.2 = some b → mismoSlot a b = false) := by
  obtain ⟨_, hp, hks, hd⟩ := hinv
  refine List.Pairwise.imp_of_mem ?_ hd
  intro x y hx hy hxy a b ha hb
  have hda : documentoDe x.2 = some a := by
    cases hx2 : x.2 with
    | fin resp =>
        cases resp <;> simp_all [servida, documentoDe]
    | _ => simp_all [servida]
  have hdb : documentoDe y.2 = some b := by
    cases hy2 : y.2 with
    | fin resp =>
        cases resp <;> simp_all [servida, documentoDe]
    | _ => simp_all [servida]
  have hne : a._id ≠ b._id := hxy a b hda hdb
  obtain ⟨hae, ham⟩ := (hks x hx).2.1 a hda
  obtain ⟨hbe, hbm⟩ := (hks y hy).2.1 b hdb
  have hsym : Symmetric (fun a b : Reserva => chocan a b = false) := by
    intro u v huv
    rw [chocan_comm]
    exact huv
  have hab := List.Pairwise.forall hsym hp ham hbm (fun e => hne (by rw [e]))
  simpa [chocan, esViva, hae, hbe] using hab

/-- When every call for a free slot has responded, one of them was served and its
reservation is in the collection; each of the others was answered the slot-taken 400 or the
500 of a refused insert. -/
theorem todas_terminadas (store : List Reserva) (hilos : List (Llamada × Hilo))
    (canchaId : Id) (fechaReserva : Int) (hora : String)
    (hinv : Invariante store hilos) (hav : Avance canchaId fechaReserva hora store hilos)
    (hN : 0 < hilos.length) (hfin : ∀ x ∈ hilos, terminado x.2 = true) :
    ∃ pre x post, hilos = pre ++ x :: post
      ∧ (∃ r nombre url token, x.2 = Hilo.fin (Respuesta.creada r nombre url token)
          ∧ r ∈ store ∧ r.canchaId = canchaId ∧ r.fecha = fechaReserva ∧ r.hora = hora
          ∧ r.estado = Estado.pendiente)
      ∧ ∀ y ∈ pre ++ post,
          y.2 = Hilo.fin (Respuesta.error 400 "Este horario ya está reservado." none)
          ∨ ∃ e, y.2 = Hilo.fin (Respuesta.error 500 "Error al crear la reserva." (some e)) := by
  have hserv := servidas_en_slots_distintos store hilos hinv
  obtain ⟨_, _, hks, _⟩ := hinv
  obtain ⟨hall, hfase⟩ := hav
  have hex : ∃ x ∈ hilos, haInsertado x.2 = true := by
    rcases hfase with h | ⟨_, _, hnofin⟩
    · exact h
    · obtain ⟨x, hx⟩ := List.exists_mem_of_length_pos hN
      have := hfin x hx
      rw [hnofin x hx] at this
      cases this
  obtain ⟨x, hx, hins⟩ := hex
  obtain ⟨pre, post, hsplit⟩ := List.append_of_mem hx
  have hxr : ∃ r nombre url token, x.2 = Hilo.fin (Respuesta.creada r nombre url token) := by
    have ht := hfin x hx
    cases hx2 : x.2 with
    | fin resp =>
      cases resp with
      | creada r nombre url token => exact ⟨r, nombre, url, token, rfl⟩
      | _ => rw [hx2] at hins; simp [haInsertado, documentoDe] at hins
    | _ => rw [hx2] at ht; simp [terminado] at ht
  obtain ⟨r, nombre, url, token, hx2⟩ := hxr
  have hrs : enSlot canchaId fechaReserva hora r := by
    have := (hall x hx).2
    rw [hx2] at this
    exact this
  have hrk := (hks x hx).2.1 r (by rw [hx2]; rfl)
  refine ⟨pre, x, post, hsplit, ⟨r, nombre, url, token, hx2, hrk.2, hrs.1, hrs.2.1, hrs.2.2,
    hrk.1⟩, ?_⟩
  intro y hy
  have hyh : y ∈ hilos := by
    rw [hsplit]
    simp only [List.mem_append, List.mem_cons] at hy ⊢
    rcases hy with hy | hy
    · exact Or.inl hy
    · exact Or.inr (Or.inr hy)
  have ht := hfin y hyh
  have hys := (hall y hyh).2
  rw [hsplit, List.pairwise_append, List.pairwise_cons] at hserv
  obtain ⟨_, ⟨hxpost, _⟩, hcross⟩ := hserv
  cases hy2 : y.2 with
  | fin resp =>
    rw [hy2] at hys
    cases resp with
    | creada r2 n2 u2 t2 =>
      exfalso
      have hr2 : enSlot canchaId fechaReserva hora r2 := hys
      have hmismo : mismoSlot r2 r = true ∧ mismoSlot r r2 = true := by
        simp [mismoSlot, hr2.1, hr2.2.1, hr2.2.2, hrs.1, hrs.2.1, hrs.2.2]
      rcases List.mem_append.mp hy with hy | hy
      · have := hcross y hy x (List.mem_cons_self _ _) r2 r (by rw [hy2]; rfl)
          (by rw [hx2]; rfl)
        rw [hmismo.1] at this
        cases this
      · have := hxpost y hy r r2 (by rw [hx2]; rfl) (by rw [hy2]; rfl)
        rw [hmismo.2] at this
        cases this
    | error status mensaje detalle =>
      rcases hys with ⟨h1, h2, h3⟩ | ⟨h1, h2, h3⟩
      · left
        rw [h1, h2, h3]
      · right
        cases detalle with
        | none => exact absurd rfl h3
        | some e => exact ⟨e, by rw [h1, h2]⟩
    | _ => exact absurd hys (fun x => x)
  | _ => rw [hy2] at ht; simp [terminado] at ht

/-- Calls for a free slot with unused `_id`s start in order, and every interleaving keeps
them so. -/
theorem planificar_avance (llamadas : List Llamada) (store : List Reserva) (plan : List Nat)
    (canchaId : Id) (fechaReserva : Int) (hora : String)
    (hid : (store.map (fun d => d._id)).Nodup)
    (hp : store.Pairwise (fun a b => chocan a b = false))
    (hPide : ∀ l ∈ llamadas, pideSlot l canchaId fechaReserva hora = true)
    (hLibre : vivasEnSlot store canchaId fechaReserva hora = [])
    (hNuevos : ∀ l ∈ llamadas, ∀ d ∈ store, d._id ≠ l.nuevoId) :
    Avance canchaId fechaReserva hora (planificar llamadas store plan).1
      (planificar llamadas store plan).2 := by
  unfold planificar
  apply foldl_avanzar_avance
  · exact planificar_invariante llamadas store [] hid hp
  · refine ⟨?_, Or.inr ⟨hLibre, ?_, ?_⟩⟩
    · intro x hx
      obtain ⟨l, hl, rfl⟩ := List.mem_map.mp hx
      exact ⟨hPide l hl, trivial⟩
    · intro x hx
      obtain ⟨l, hl, rfl⟩ := List.mem_map.mp hx
      exact hNuevos l hl
    · intro x hx
      obtain ⟨l, _, rfl⟩ := List.mem_map.mp hx
      rfl

/-- C21, as the code has it. Whatever the calls of `crearReserva`, whatever collection with
unique `_id`s and at most one live reservation per slot they start on and however their
steps interleave: the collection never holds two live reservations on one slot, no two
callers are served 201 for the same slot, and a caller that has been answered got 201 with a
pending reservation or an error with status 400, 404 or 500. When in addition the calls,
at least one, all ask for the same slot with requests that pass every check, the slot is
free at the start, the `_id`s of the calls are unused, every gateway call answers and every
call has responded, then exactly one live reservation is left on the slot, one caller was
served 201 with it, and each of the other callers was answered the slot-taken 400 or the
500 'Error al crear la reserva.' of the insert that the unique index refused. -/
theorem c21_exclusion_mutua (llamadas : List Llamada) (store : List Reserva) (plan : List Nat)
    (hIds : (store.map (fun d => d._id)).Nodup) (hUna : unaPorSlot store = true) :
    unaPorSlot (planificar llamadas store plan).1 = true
    ∧ (∀ canchaId fecha hora,
        (vivasEnSlot (planificar llamadas store plan).1 canchaId fecha hora).length ≤ 1)
    ∧ (planificar llamadas store plan).2.Pairwise (fun x y =>
        ∀ a b, servida x.2 = some a → servida y.2 = some b → mismoSlot a b = false)
    ∧ (∀ x ∈ (planificar llamadas store plan).2, ∀ respuesta, x.2 = Hilo.fin respuesta →
        (∃ r cancha url token,
          respuesta = Respuesta.creada r cancha url token ∧ r.estado = Estado.pendiente)
        ∨ ∃ status mensaje detalle, respuesta = Respuesta.error status mensaje detalle
            ∧ (status = 400 ∨ status = 404 ∨ status = 500))
    ∧ (planificar llamadas store plan).2.map Prod.fst = llamadas
    ∧ ∀ canchaId fechaReserva hora,
        0 < llamadas.length →
        (∀ l ∈ llamadas, pideSlot l canchaId fechaReserva hora = true) →
        vivasEnSlot store canchaId fechaReserva hora = [] →
        (∀ l ∈ llamadas, ∀ d ∈ store, d._id ≠ l.nuevoId) →
        (∀ x ∈ (planificar llamadas store plan).2, terminado x.2 = true) →
        (vivasEnSlot (planificar llamadas store plan).1 canchaId fechaReserva hora).length = 1
        ∧ ∃ pre x post, (planificar llamadas store plan).2 = pre ++ x :: post
          ∧ (∃ r nombre url token, x.2 = Hilo.fin (Respuesta.creada r nombre url token)
              ∧ r ∈ (planificar llamadas store plan).1
              ∧ r.canchaId = canchaId ∧ r.fecha = fechaReserva ∧ r.hora = hora
              ∧ r.estado = Estado.pendiente)
          ∧ ∀ y ∈ pre ++ post,
              y.2 = Hilo.fin (Respuesta.error 400 "Este horario ya está reservado." none)
              ∨ ∃ e, y.2
                  = Hilo.fin (Respuesta.error 500 "Error al crear la reserva." (some e)) := by
  have hp0 := (unaPorSlot_iff store).mp hUna
  have hinv := planificar_invariante llamadas store plan hIds hp0
  have hp := hinv.2.1
  have hks := hinv.2.2.1
  refine ⟨(unaPorSlot_iff _).mpr hp,
    fun canchaId fecha hora => vivasEnSlot_a_lo_mas_una _ canchaId fecha hora hp,
    servidas_en_slots_distintos _ _ hinv, ?_, planificar_llamadas llamadas store plan, ?_⟩
  · intro x hx resp hresp
    have h := (hks x hx).2.2 resp hresp
    cases resp with
    | creada r cancha url token => exact Or.inl ⟨r, cancha, url, token, rfl, h⟩
    | error status mensaje detalle => exact Or.inr ⟨status, mensaje, detalle, rfl, h⟩
    | _ => exact absurd h (by simp [respuestaDeCrear])
  · intro canchaId fechaReserva hora hN hPide hLibre hNuevos hFin
    have hav := planificar_avance llamadas store plan canchaId fechaReserva hora hIds hp0
      hPide hLibre hNuevos
    have hlen : 0 < (planificar llamadas store plan).2.length := by
      have := congrArg List.length (planificar_llamadas llamadas store plan)
      rw [List.length_map] at this
      omega
    obtain ⟨pre, x, post, hsplit, ⟨r, nombre, url, token, hx2, hrm, hc, hf, hh, he⟩, hotros⟩ :=
      todas_terminadas _ _ canchaId fechaReserva hora hinv hav hlen hFin
    refine ⟨?_, pre, x, post, hsplit, ⟨r, nombre, url, token, hx2, hrm, hc, hf, hh, he⟩,
      hotros⟩
    have hle := vivasEnSlot_a_lo_mas_una (planificar llamadas store plan).1 canchaId
      fechaReserva hora hp
    have hmem : r ∈ vivasEnSlot (planificar llamadas store plan).1 canchaId fechaReserva
        hora := by
      unfold vivasEnSlot
      rw [List.mem_filter]
      exact ⟨hrm, by simp [hc, hf, hh, he, esViva]⟩
    have := List.length_pos_of_mem hmem
    omega

/-- C21 on the race of two calls for Monday 09:00 at venue `V`, started on a collection that
holds a cancelled reservation of that slot: both calls pass `Reserva.findOne` before
either inserts, and at the end one live reservation is on the slot. -/
theorem c21_exclusion_mutua_witness :
    ([reservaCanceladaPrevia].map (fun d => d._id)).Nodup
    ∧ unaPorSlot [reservaCanceladaPrevia] = true
    ∧ 0 < dosLlamadas.length
    ∧ (∀ l ∈ dosLlamadas, pideSlot l "V" 4071254400000 "09:00" = true)
    ∧ vivasEnSlot [reservaCanceladaPrevia] "V" 4071254400000 "09:00" = []
    ∧ (∀ l ∈ dosLlamadas, ∀ d ∈ [reservaCanceladaPrevia], d._id ≠ l.nuevoId)
    ∧ (∀ x ∈ (planificar dosLlamadas [reservaCanceladaPrevia] planCarrera).2,
        terminado x.2 = true)
    ∧ unaPorSlot (planificar dosLlamadas [reservaCanceladaPrevia] planCarrera).1 = true
    ∧ (vivasEnSlot (planificar dosLlamadas [reservaCanceladaPrevia] planCarrera).1
        "V" 4071254400000 "09:00").length = 1 :=
  ⟨by decide, by decide, by decide, by decide, by decide, by decide, by decide,
    (c21_exclusion_mutua dosLlamadas [reservaCanceladaPrevia] planCarrera (by decide) (by decide)).1,
    ((c21_exclusion_mutua dosLlamadas [reservaCanceladaPrevia] planCarrera (by decide)
      (by decide)).2.2.2.2.2 "V" 4071254400000 "09:00" (by decide) (by decide) (by decide)
      (by decide) (by decide)).1⟩

end GestorReservas
